import Mathlib

/-!
# Client network engine (`NetLibrary.cpp`): shallow embedding and properties

The connection engine of `components/net/src/NetLibrary.cpp` is embedded as pure
functions over an explicit engine record `NetLibrary`.

Conventions of the embedding

* Machine integers are natural numbers; 32-bit arithmetic is written with an
  explicit `% U32`.  Bytes are natural numbers read modulo 256.
* Calls that leave the engine (the net channel, event subscribers, the global
  error channel) are appended to the `events` trace of the engine, in call order.
* The millisecond clock (`GetTickCount`, `timeGetTime`) and the bytes that the
  `OnBuildMessage` subscribers append are inputs of each operation; they are
  taken as constant for the duration of one call.
* The metric sink is a pure observer and is left out; `new(std::nothrow)` is
  taken to succeed.
-/

namespace NetLib

/-! ## Constants -/

/-- Two to the power 32: the modulus of `uint32_t` arithmetic. -/
def U32 : Nat := 4294967296

/-- `UINT16_MAX`. -/
def UINT16_MAX : Nat := 65535

/-- Message type "msgRoute". -/
def MSG_ROUTE : Nat := 0xE938445B

/-- Message type "msgFrame". -/
def MSG_FRAME : Nat := 0x53FFFA3F

/-- Message type "msgEnd". -/
def MSG_END : Nat := 0xCA569E63

/-- Modelled from the spec: the constant `MAX_RELIABLE_COMMANDS` is declared in a
header outside the available sources; the spec calls it implementation-defined
and recommends 64. -/
def MAX_RELIABLE_COMMANDS : Nat := 64

/-- Difference of two tick counts in `uint32_t` arithmetic. -/
def sub32 (a b : Nat) : Nat := (a % U32 + U32 - b % U32) % U32

/-- Bytes of a string literal, as passed through a `const char*`. -/
def cstr (s : String) : List Nat := s.toList.map Char.toNat

/-! ## HashRageString -/

/-- Lower-casing of one byte (ASCII). -/
def ToLower (c : Nat) : Nat := if 65 ≤ c ∧ c ≤ 90 then c + 32 else c

/-- One mixing round of the one-at-a-time hash. -/
def hashMix (h c : Nat) : Nat :=
  let h1 := (h + c) % U32
  let h2 := (h1 + h1 * 1024) % U32
  h2 ^^^ (h2 / 64)

/-- Modelled from the spec: `HashRageString` is defined in a shared header outside
the available sources.  The spec describes it as a case-insensitive Jenkins-style
32-bit string hash that lower-cases each byte before mixing; this is the
one-at-a-time hash over the lower-cased bytes of the C string (up to the first
NUL).  The message types that `NetLibrary.cpp` writes as numbers (`MSG_ROUTE`,
`MSG_FRAME`, `MSG_END`) are embedded as those numbers, not through this function. -/
def HashRageString (s : List Nat) : Nat :=
  let h := (s.takeWhile (fun c => c != 0)).foldl (fun h c => hashMix h (ToLower (c % 256))) 0
  let h1 := (h + h * 8) % U32
  let h2 := h1 ^^^ (h1 / 2048)
  (h2 + h2 * 32768) % U32

/-! ## Net buffer -/

/-- Little-endian bytes of the low `w` bytes of `v`. -/
def leBytes : Nat → Nat → List Nat
  | 0, _ => []
  | w + 1, v => v % 256 :: leBytes w (v / 256)

/-- Little-endian value of a byte string. -/
def leValue : List Nat → Nat
  | [] => 0
  | b :: bs => b % 256 + 256 * leValue bs

/-- Modelled from the spec: the class `NetBuffer` is implemented outside the
available sources.  The spec describes a fixed-capacity little-endian byte buffer
with a read cursor and a write cursor, typed reads and writes, raw reads and
writes of known length and an `End()` predicate; a read that lacks bytes returns
a sentinel and sets an "exhausted" flag.

`written` holds the bytes up to the write cursor, `unread` the bytes from the read
cursor to the end of the data.  The spec does not fix the sentinel value: it is a
field of the buffer (a typed read of `w` bytes that fails returns the sentinel
reduced to `w` bytes).  A write that does not fit the capacity is dropped and sets
the flag. -/
structure NetBuffer where
  capacity : Nat
  written : List Nat
  unread : List Nat
  exhausted : Bool
  sentinel : Nat
deriving DecidableEq, Repr

namespace NetBuffer

/-- The constructor `NetBuffer(const char* bytes, size_t length)`: a buffer to be read. -/
def ofBytes (bytes : List Nat) (sentinel : Nat) : NetBuffer :=
  { capacity := bytes.length, written := [], unread := bytes, exhausted := false,
    sentinel := sentinel }

/-- The constructor `NetBuffer(size_t length)`: an empty buffer to be written. -/
def ofCapacity (capacity : Nat) : NetBuffer :=
  { capacity := capacity, written := [], unread := [], exhausted := false, sentinel := 0 }

/-- The predicate `End()`: a read has failed or the read cursor reached the end. -/
def End (b : NetBuffer) : Bool := b.exhausted || b.unread.isEmpty

/-- Raw read `Read(void* buffer, size_t length)`; `none` stands for the result `false`. -/
def ReadBytes (b : NetBuffer) (n : Nat) : Option (List Nat) × NetBuffer :=
  if n ≤ b.unread.length then
    (some (b.unread.take n), { b with unread := b.unread.drop n })
  else
    (none, { b with exhausted := true })

/-- Typed read `Read<T>()` of an unsigned little-endian integer of `w` bytes. -/
def ReadUInt (w : Nat) (b : NetBuffer) : Nat × NetBuffer :=
  match b.ReadBytes w with
  | (some bs, b1) => (leValue bs, b1)
  | (none, b1) => (b.sentinel % 2 ^ (8 * w), b1)

/-- Raw write `Write(const void* buffer, size_t length)`. -/
def Write (b : NetBuffer) (bs : List Nat) : NetBuffer :=
  if b.written.length + bs.length ≤ b.capacity then
    { b with written := b.written ++ bs }
  else
    { b with exhausted := true }

/-- Typed write `Write<T>(value)` of an unsigned integer of `w` bytes (truncating). -/
def WriteUInt (w : Nat) (b : NetBuffer) (v : Nat) : NetBuffer :=
  b.Write (leBytes w v)

end NetBuffer

/-! ## Data model of the engine -/

/-- The enumeration `ConnectionState`. -/
inductive ConnectionState where
  | CS_IDLE
  | CS_INITING
  | CS_INITRECEIVED
  | CS_DOWNLOADING
  | CS_DOWNLOADCOMPLETE
  | CS_FETCHING
  | CS_CONNECTING
  | CS_CONNECTED
  | CS_ACTIVE
deriving DecidableEq, Repr

open ConnectionState

/-- Modelled from the spec: the class `NetAddress` is implemented outside the
available sources; the engine only constructs addresses, compares them and uses
the default-constructed (empty) address. -/
structure NetAddress where
  host : List Nat
  port : Nat
deriving DecidableEq, Repr

/-- The default-constructed address `NetAddress()`. -/
def NetAddress.empty : NetAddress := { host := [], port := 0 }

/-- The struct `OutReliableCommand`: a pending outbound reliable command. -/
structure OutReliableCommand where
  type : Nat
  id : Nat
  command : List Nat
deriving DecidableEq, Repr

/-- The struct `RoutingPacket`. -/
structure RoutingPacket where
  netID : Nat
  payload : List Nat
  genTime : Nat
deriving DecidableEq, Repr

/-- Calls that leave the engine, in the order in which they are made. -/
inductive Event where
  /-- The call `m_netChannel.Send(msg)` with the bytes of the frame. -/
  | NetChannelSend (frame : List Nat)
  /-- The call `m_netChannel.Reset(server, this)`. -/
  | NetChannelReset (server : NetAddress)
  /-- The call `HandleReliableCommand(msgType, buf, size)` made by the parse loop
  for the command with the given id. -/
  | ReliableDispatch (msgType : Nat) (id : Nat) (payload : List Nat)
  /-- One registered reliable handler being invoked with `(buf, length)`. -/
  | ReliableHandler (handler : Nat) (payload : List Nat)
  /-- The call `GlobalError(message)`. -/
  | GlobalError (message : String)
  /-- The call `SendOutOfBand(address, text)`. -/
  | SendOutOfBand (address : NetAddress) (text : List Nat)
  /-- The call `m_httpClient->DoPostRequest(host, port, "/client", ...)`. -/
  | DoPostRequest (host : List Nat) (port : Nat)
  | OnStateChanged (newState oldState : ConnectionState)
  | OnConnectionProgress (message : String) (done total : Nat)
  | OnConnectionError (message : String)
  | OnConnectionTimedOut
  | OnConnectOKReceived (server : NetAddress)
  | OnInitReceived (server : NetAddress)
  | OnAttemptDisconnect (reason : List Nat)
  | OnFinalizeDisconnect (server : NetAddress)
  /-- The assignment `Instance<ICoreGameInit>::Get()->ShAllowed = value`. -/
  | SetShAllowed (value : Bool)
  /-- The assignment `Instance<ICoreGameInit>::Get()->EnhancedHostSupport = value`. -/
  | SetEnhancedHostSupport (value : Bool)
deriving DecidableEq, Repr

/-- The engine: the data members of `NetLibrary` that the modelled member
functions read or write, the file-level `g_disconnectReason`, the function-level
`static std::string lastWorld` of `ProcessOOB` (`none` until its first
initialisation), and the trace of outgoing calls. -/
structure NetLibrary where
  m_serverNetID : Nat
  m_serverBase : Nat
  m_hostBase : Nat
  m_hostNetID : Nat
  m_connectionState : ConnectionState
  m_lastConnectionState : ConnectionState
  m_lastConnect : Nat
  m_lastSend : Nat
  m_outSequence : Nat
  m_lastReceivedReliableCommand : Nat
  m_outReliableAcknowledged : Nat
  m_outReliableSequence : Nat
  m_lastReceivedAt : Nat
  m_lastFrameNumber : Nat
  m_serverProtocol : Nat
  m_connectAttempts : Nat
  m_token : List Nat
  m_infoString : List Nat
  m_currentServer : NetAddress
  m_outReliableCommands : List OutReliableCommand
  m_incomingPackets : List RoutingPacket
  m_outgoingPackets : List RoutingPacket
  m_reliableHandlers : List (Nat × Nat)
  g_disconnectReason : List Nat
  lastWorld : Option (List Nat)
  events : List Event
deriving DecidableEq, Repr

namespace NetLibrary

/-- The constructor `NetLibrary::NetLibrary()`; members without an initialiser
start empty. -/
def create : NetLibrary :=
  { m_serverNetID := 0, m_serverBase := 0, m_hostBase := 0, m_hostNetID := 0,
    m_connectionState := CS_IDLE, m_lastConnectionState := CS_IDLE,
    m_lastConnect := 0, m_lastSend := 0, m_outSequence := 0,
    m_lastReceivedReliableCommand := 0, m_outReliableAcknowledged := 0,
    m_outReliableSequence := 0, m_lastReceivedAt := 0, m_lastFrameNumber := 0,
    m_serverProtocol := 0, m_connectAttempts := 0, m_token := [], m_infoString := [],
    m_currentServer := NetAddress.empty, m_outReliableCommands := [],
    m_incomingPackets := [], m_outgoingPackets := [], m_reliableHandlers := [],
    g_disconnectReason := [], lastWorld := none, events := [] }

/-- Appends one outgoing call to the trace. -/
def emit (e : NetLibrary) (ev : Event) : NetLibrary :=
  { e with events := e.events ++ [ev] }

/-- Modelled from the spec: `GlobalError` is defined outside the available
sources.  Per the spec a fatal error is reported through the global error channel
and leaves the engine state unchanged; control returns to the caller. -/
def GlobalError (e : NetLibrary) (message : String) : NetLibrary :=
  e.emit (Event.GlobalError message)

/-- `NetLibrary::AddReliableHandler`; `handler` names the registered callback. -/
def AddReliableHandler (e : NetLibrary) (type : List Nat) (handler : Nat) : NetLibrary :=
  { e with m_reliableHandlers := e.m_reliableHandlers ++ [(HashRageString type, handler)] }

/-- `NetLibrary::HandleReliableCommand`: every handler registered for `msgType`
is invoked with `(buf, length)`, in registration order. -/
def HandleReliableCommand (e : NetLibrary) (msgType : Nat) (buf : List Nat) : NetLibrary :=
  { e with events := e.events ++
      ((e.m_reliableHandlers.filter (fun h => h.1 == msgType)).map
        (fun h => Event.ReliableHandler h.2 buf)) }

/-- `NetLibrary::EnqueueRoutedPacket`. -/
def EnqueueRoutedPacket (e : NetLibrary) (netID : Nat) (packet : List Nat) (now : Nat) :
    NetLibrary :=
  { e with m_incomingPackets := e.m_incomingPackets ++
      [{ netID := netID, payload := packet, genTime := now }] }

/-- `NetLibrary::RoutePacket`. -/
def RoutePacket (e : NetLibrary) (buffer : List Nat) (netID : Nat) : NetLibrary :=
  { e with m_outgoingPackets := e.m_outgoingPackets ++
      [{ netID := netID % 65536, payload := buffer, genTime := 0 }] }

/-- `NetLibrary::SendReliableCommand`. -/
def SendReliableCommand (e : NetLibrary) (type : List Nat) (buffer : List Nat) : NetLibrary :=
  let unacknowledged := sub32 e.m_outReliableSequence e.m_outReliableAcknowledged
  let e1 := if unacknowledged > MAX_RELIABLE_COMMANDS then
      e.GlobalError "Reliable client command overflow."
    else e
  let e2 := { e1 with m_outReliableSequence := (e1.m_outReliableSequence + 1) % U32 }
  let cmd : OutReliableCommand :=
    { type := HashRageString type, id := e2.m_outReliableSequence, command := buffer }
  { e2 with m_outReliableCommands := e2.m_outReliableCommands ++ [cmd] }

/-- Outcome of one pass through the body of the parse loop. -/
inductive ParseStep where
  /-- The loop condition holds: the loop goes round again. -/
  | next (e : NetLibrary) (msg : NetBuffer)
  /-- The loop is left (`break`, `return`, or "msgEnd" was read). -/
  | stop (e : NetLibrary)

/-- The "msgRoute" branch of the parse loop; `msg` stands behind the message type. -/
def parseRoute (e : NetLibrary) (msg : NetBuffer) (now : Nat) : ParseStep :=
  let rNet := msg.ReadUInt 2
  let rLen := rNet.2.ReadUInt 2
  let rBuf := rLen.2.ReadBytes rLen.1
  match rBuf.1 with
  | none => ParseStep.stop e
  | some routeBuffer => ParseStep.next (e.EnqueueRoutedPacket rNet.1 routeBuffer now) rBuf.2

/-- The "msgFrame" branch of the parse loop; `msg` stands behind the message type. -/
def parseFrame (e : NetLibrary) (msg : NetBuffer) : ParseStep :=
  let rFrame := msg.ReadUInt 4
  let e1 := { e with m_lastFrameNumber := rFrame.1 }
  if e1.m_serverProtocol ≥ 3 then
    ParseStep.next e1 (rFrame.2.ReadUInt 4).2
  else
    ParseStep.next e1 rFrame.2

/-- The id and the size read for a reliable command, and the buffer behind them. -/
structure ReliableHeader where
  id : Nat
  size : Nat
  rest : NetBuffer

/-- The reads of `id` and `size` in the reliable-command branch: a set high bit of
the id announces a 32-bit size and is cleared from the id. -/
def readReliableHeader (msg : NetBuffer) : ReliableHeader :=
  let rId := msg.ReadUInt 4
  if rId.1 &&& 0x80000000 ≠ 0 then
    let rSize := rId.2.ReadUInt 4
    { id := rId.1 &&& 0x7FFFFFFF, size := rSize.1, rest := rSize.2 }
  else
    let rSize := rId.2.ReadUInt 2
    { id := rId.1, size := rSize.1, rest := rSize.2 }

/-- The "check to prevent double execution" block of the reliable-command branch. -/
def dispatchReliable (e : NetLibrary) (msgType id : Nat) (reliableBuf : List Nat) : NetLibrary :=
  if id > e.m_lastReceivedReliableCommand then
    let e1 := (e.emit (Event.ReliableDispatch msgType id reliableBuf)).HandleReliableCommand
      msgType reliableBuf
    { e1 with m_lastReceivedReliableCommand := id }
  else e

/-- The reliable-command branch of the parse loop; `msg` stands behind the message
type `msgType`. -/
def parseReliable (e : NetLibrary) (msgType : Nat) (msg : NetBuffer) : ParseStep :=
  let hd := readReliableHeader msg
  if hd.id > (e.m_lastReceivedReliableCommand + 64) % U32 then ParseStep.stop e
  else
    let rBuf := hd.rest.ReadBytes hd.size
    match rBuf.1 with
    | none => ParseStep.stop e
    | some reliableBuf => ParseStep.next (dispatchReliable e msgType hd.id reliableBuf) rBuf.2

/-- One pass through the body of the `do ... while (msgType != 0xCA569E63)` loop of
`NetLibrary::ProcessServerMessage`. -/
def parseStep (e : NetLibrary) (msg : NetBuffer) (now : Nat) : ParseStep :=
  if msg.End then ParseStep.stop e
  else
    let rType := msg.ReadUInt 4
    if rType.1 = MSG_ROUTE then parseRoute e rType.2 now
    else if rType.1 = MSG_FRAME then parseFrame e rType.2
    else if rType.1 ≠ MSG_END then parseReliable e rType.1 rType.2
    else ParseStep.stop e

/-- The parse loop of `NetLibrary::ProcessServerMessage`, bounded by `fuel`
passes; `none` when the passes run out before the loop is left. -/
def parseLoop : Nat → NetLibrary → NetBuffer → Nat → Option NetLibrary
  | 0, _, _, _ => none
  | fuel + 1, e, msg, now =>
    match parseStep e msg now with
    | ParseStep.stop e1 => some e1
    | ParseStep.next e1 m1 => parseLoop fuel e1 m1 now

/-- The acknowledgement part of `NetLibrary::ProcessServerMessage`: the erase loop
over `m_outReliableCommands` and the update of `m_outReliableAcknowledged`. -/
def applyAck (e : NetLibrary) (curReliableAck : Nat) : NetLibrary :=
  if curReliableAck ≠ e.m_outReliableAcknowledged then
    { e with
      m_outReliableCommands :=
        e.m_outReliableCommands.filter (fun c => !decide (c.id ≤ curReliableAck)),
      m_outReliableAcknowledged := curReliableAck }
  else e

/-- The promotion `CS_CONNECTED -> CS_ACTIVE` of `NetLibrary::ProcessServerMessage`. -/
def promote (e : NetLibrary) : NetLibrary :=
  if e.m_connectionState = CS_CONNECTED then { e with m_connectionState := CS_ACTIVE } else e

/-- The part of `NetLibrary::ProcessServerMessage` before the parse loop, for the
acknowledgement `curReliableAck` read from the message: the receive time is
stored, the acknowledgement applied, and a connected engine becomes active. -/
def ackPhase (e : NetLibrary) (curReliableAck : Nat) (now : Nat) : NetLibrary :=
  promote (applyAck { e with m_lastReceivedAt := now } curReliableAck)

/-- `NetLibrary::ProcessServerMessage`; `now` is the reading of the tick counter.
The parse loop is given one pass per four unread bytes and two more, which is
enough for it to leave by itself (`ProcessServerMessage_active`). -/
def ProcessServerMessage (e : NetLibrary) (msg : NetBuffer) (now : Nat) : NetLibrary :=
  let rAck := msg.ReadUInt 4
  let e2 := e.ackPhase rAck.1 now
  if e2.m_connectionState ≠ CS_ACTIVE then e2
  else (parseLoop (rAck.2.unread.length / 4 + 2) e2 rAck.2 now).getD e2

/-- The body of the `try_pop` loop of `NetLibrary::ProcessSend` for one packet. -/
def writeRoute (msg : NetBuffer) (packet : RoutingPacket) : NetBuffer :=
  (((msg.WriteUInt 4 MSG_ROUTE).WriteUInt 2 packet.netID).WriteUInt 2
    packet.payload.length).Write packet.payload

/-- The body of the loop over `m_outReliableCommands` of `NetLibrary::ProcessSend`. -/
def writeReliable (msg : NetBuffer) (command : OutReliableCommand) : NetBuffer :=
  let m1 := msg.WriteUInt 4 command.type
  let m2 :=
    if command.command.length > UINT16_MAX then
      (m1.WriteUInt 4 (command.id ||| 0x80000000)).WriteUInt 4 command.command.length
    else
      (m1.WriteUInt 4 command.id).WriteUInt 2 command.command.length
  m2.Write command.command

/-- The frame assembled by `NetLibrary::ProcessSend` in its message buffer; `hook`
stands for the bytes written by the `OnBuildMessage` subscribers. -/
def buildFrame (e : NetLibrary) (hook : List Nat) : NetBuffer :=
  let m0 := (NetBuffer.ofCapacity 24000).WriteUInt 4 e.m_lastReceivedReliableCommand
  let m1 := if e.m_serverProtocol ≥ 2 then m0.WriteUInt 4 e.m_lastFrameNumber else m0
  let m2 := e.m_outgoingPackets.foldl writeRoute m1
  let m3 := e.m_outReliableCommands.foldl writeReliable m2
  (m3.Write hook).WriteUInt 4 MSG_END

/-- `NetLibrary::ProcessSend`; `now` is the reading of `timeGetTime()`. -/
def ProcessSend (e : NetLibrary) (now : Nat) (hook : List Nat) : NetLibrary :=
  if ¬ (sub32 now e.m_lastSend ≥ 1000 / 60) then e
  else if e.m_connectionState ≠ CS_ACTIVE then e
  else
    { e with
      m_outgoingPackets := [],
      m_lastSend := now,
      events := e.events ++ [Event.NetChannelSend (buildFrame e hook).written] }

/-- `NetLibrary::Disconnect`. -/
def Disconnect (e : NetLibrary) (reason : List Nat) : NetLibrary :=
  { e with g_disconnectReason := reason, events := e.events ++ [Event.OnAttemptDisconnect reason] }

/-- A forced send of `NetLibrary::FinalizeDisconnect`: `m_lastSend = 0; ProcessSend();`. -/
def forceSend (e : NetLibrary) (now : Nat) (hook : List Nat) : NetLibrary :=
  ProcessSend { e with m_lastSend := 0 } now hook

/-- The tail of `NetLibrary::FinalizeDisconnect`: `OnFinalizeDisconnect(m_currentServer)`,
then the state becomes `CS_IDLE` and the server address is cleared. -/
def finishDisconnect (e : NetLibrary) : NetLibrary :=
  { e with
    m_connectionState := CS_IDLE,
    m_currentServer := NetAddress.empty,
    events := e.events ++ [Event.OnFinalizeDisconnect e.m_currentServer] }

/-- `NetLibrary::FinalizeDisconnect`. -/
def FinalizeDisconnect (e : NetLibrary) (now : Nat) (hook : List Nat) : NetLibrary :=
  if e.m_connectionState = CS_CONNECTING ∨ e.m_connectionState = CS_ACTIVE then
    finishDisconnect
      (forceSend
        (forceSend (e.SendReliableCommand (cstr "msgIQuit") (e.g_disconnectReason ++ [0]))
          now hook)
        now hook)
  else e

/-- The session reset of `NetLibrary::ConnectToServer`: the assignments from
`m_connectionState = CS_INITING` to `m_lastFrameNumber = 0`. -/
def resetSession (e : NetLibrary) (hostname : List Nat) (port : Nat) : NetLibrary :=
  { e with
    m_connectionState := CS_INITING,
    m_currentServer := { host := hostname, port := port },
    m_outReliableAcknowledged := 0,
    m_outReliableSequence := 0,
    m_outSequence := 0,
    m_lastReceivedReliableCommand := 0,
    m_outReliableCommands := [],
    m_lastFrameNumber := 0 }

/-- `NetLibrary::ConnectToServer`, up to and including the call of `DoPostRequest`;
the completion callback of the request runs later. -/
def ConnectToServer (e : NetLibrary) (hostname : List Nat) (port : Nat) (now : Nat)
    (hook : List Nat) : NetLibrary :=
  (resetSession
    (if e.m_connectionState ≠ CS_IDLE then
      (e.Disconnect (cstr "Connecting to another server.")).FinalizeDisconnect now hook
    else e)
    hostname port).emit (Event.DoPostRequest (hostname.take 255) port)

end NetLibrary

/-! ## Runs of the engine and specification-side definitions -/

open NetLibrary

/-- The engine reached by the `ParseStep`. -/
def NetLibrary.ParseStep.engine : ParseStep → NetLibrary
  | ParseStep.next e _ => e
  | ParseStep.stop e => e

/-- Successive calls of `SendReliableCommand`, one per `(type name, payload)`. -/
def sendAll (e : NetLibrary) (cmds : List (List Nat × List Nat)) : NetLibrary :=
  cmds.foldl (fun a c => a.SendReliableCommand c.1 c.2) e

/-- The commands that pushing `cmds` is expected to store when the sequence counter
stands at `start`: ids `start + 1, start + 2, ...` in push order. -/
def numbered : Nat → List (List Nat × List Nat) → List OutReliableCommand
  | _, [] => []
  | start, c :: cs =>
    { type := HashRageString c.1, id := start + 1, command := c.2 } :: numbered (start + 1) cs

/-- The operations that drive the reliable-command store. -/
inductive Op where
  | connect (hostname : List Nat) (port : Nat) (now : Nat) (hook : List Nat)
  | send (type : List Nat) (payload : List Nat)
  | serverMessage (bytes : List Nat) (sentinel : Nat) (now : Nat)
  | finalizeDisconnect (now : Nat) (hook : List Nat)
deriving DecidableEq, Repr

/-- Effect of one operation on the engine. -/
def Op.apply (e : NetLibrary) : Op → NetLibrary
  | Op.connect hostname port now hook => e.ConnectToServer hostname port now hook
  | Op.send type payload => e.SendReliableCommand type payload
  | Op.serverMessage bytes sentinel now =>
    e.ProcessServerMessage (NetBuffer.ofBytes bytes sentinel) now
  | Op.finalizeDisconnect now hook => e.FinalizeDisconnect now hook

/-- The engine after a sequence of operations. -/
def run (e : NetLibrary) (ops : List Op) : NetLibrary := ops.foldl Op.apply e

/-- The acknowledgement that `ProcessServerMessage` reads from a message. -/
def ackOf (bytes : List Nat) (sentinel : Nat) : Nat :=
  ((NetBuffer.ofBytes bytes sentinel).ReadUInt 4).1

/-- An operation is well-behaved in state `e` when a server message acknowledges no
more than has been sent, and a push (also the "msgIQuit" push of a disconnect)
does not wrap the 32-bit sequence counter. -/
def Op.wellBehaved (e : NetLibrary) : Op → Bool
  | Op.connect _ _ _ _ => true
  | Op.send _ _ => decide (e.m_outReliableSequence + 1 < U32)
  | Op.serverMessage bytes sentinel _ => decide (ackOf bytes sentinel ≤ e.m_outReliableSequence)
  | Op.finalizeDisconnect _ _ => decide (e.m_outReliableSequence + 1 < U32)

/-- Every operation of the run is well-behaved in the state in which it is applied. -/
def wellBehavedRun : NetLibrary → List Op → Bool
  | _, [] => true
  | e, op :: ops => op.wellBehaved e && wellBehavedRun (op.apply e) ops

/-- The fields of the engine that the parse loop never writes. -/
def Untouched (a b : NetLibrary) : Prop :=
  a.m_outReliableCommands = b.m_outReliableCommands ∧
  a.m_outReliableAcknowledged = b.m_outReliableAcknowledged ∧
  a.m_outReliableSequence = b.m_outReliableSequence ∧
  a.m_connectionState = b.m_connectionState ∧
  a.m_serverProtocol = b.m_serverProtocol ∧
  a.m_reliableHandlers = b.m_reliableHandlers ∧
  a.m_outgoingPackets = b.m_outgoingPackets ∧
  a.m_lastReceivedAt = b.m_lastReceivedAt

/-- The window invariant of the outbound store: the acknowledgement does not exceed
the sequence counter, and every stored id lies strictly above the acknowledgement
and at most at the sequence counter. -/
def WindowInv (e : NetLibrary) : Prop :=
  e.m_outReliableAcknowledged ≤ e.m_outReliableSequence ∧
  ∀ c ∈ e.m_outReliableCommands,
    e.m_outReliableAcknowledged < c.id ∧ c.id ≤ e.m_outReliableSequence

/-- Wire layout of one routing packet in an outbound frame, as the spec gives it:
`u32 0xE938445B`, `u16 net_id`, `u16 payload length`, payload bytes. -/
def layoutRoute (p : RoutingPacket) : List Nat :=
  leBytes 4 0xE938445B ++ leBytes 2 p.netID ++ leBytes 2 p.payload.length ++ p.payload

/-- Wire layout of one reliable command in an outbound frame, as the spec gives it:
`u32 type_hash`, then `u32 (id | 0x80000000), u32 length` for a payload longer than
65535 bytes and `u32 id, u16 length` otherwise, then the payload bytes. -/
def layoutReliable (c : OutReliableCommand) : List Nat :=
  leBytes 4 c.type ++
    (if c.command.length > 65535 then
      leBytes 4 (c.id ||| 0x80000000) ++ leBytes 4 c.command.length
    else
      leBytes 4 c.id ++ leBytes 2 c.command.length) ++
    c.command

/-- Layout of the outbound composite frame, as the spec gives it. -/
def frameLayout (e : NetLibrary) (hook : List Nat) : List Nat :=
  leBytes 4 e.m_lastReceivedReliableCommand ++
    (if e.m_serverProtocol ≥ 2 then leBytes 4 e.m_lastFrameNumber else []) ++
    (e.m_outgoingPackets.map layoutRoute).flatten ++
    (e.m_outReliableCommands.map layoutReliable).flatten ++
    hook ++
    leBytes 4 0xCA569E63

/-- The buffer `b` with `bs` appended at the write cursor. -/
def NetBuffer.put (b : NetBuffer) (bs : List Nat) : NetBuffer :=
  { b with written := b.written ++ bs }

/-- An active engine (protocol 2) with one queued routing packet and two pending
reliable commands. -/
def sampleSender : NetLibrary :=
  (((({ create with
        m_connectionState := CS_ACTIVE,
        m_serverProtocol := 2,
        m_lastFrameNumber := 9,
        m_lastReceivedReliableCommand := 5 }).RoutePacket [1, 2, 3] 7).SendReliableCommand
    (cstr "a") [4, 5]).SendReliableCommand (cstr "b") [])

/-- The ids of the reliable commands handed to `HandleReliableCommand`, in call order. -/
def dispatchedIds (evs : List Event) : List Nat :=
  evs.filterMap (fun ev =>
    match ev with
    | Event.ReliableDispatch _ id _ => some id
    | _ => none)

/-- Successive server messages `(bytes, sentinel, now)` processed in order. -/
def processAll (e : NetLibrary) (msgs : List (List Nat × Nat × Nat)) : NetLibrary :=
  msgs.foldl (fun a m => a.ProcessServerMessage (NetBuffer.ofBytes m.1 m.2.1) m.2.2) e

/-- The ids `ids` climb strictly from `lo` and end at `hi` (`hi = lo` when there is none). -/
def climbs : Nat → List Nat → Nat → Prop
  | lo, [], hi => hi = lo
  | lo, i :: ids, hi => lo < i ∧ climbs i ids hi

/-- The engine `b` continues `a`: the dispatches of `b` extend those of `a` by ids that
climb strictly from the last received id of `a` to that of `b`. -/
def Advances (a b : NetLibrary) : Prop :=
  ∃ ids, dispatchedIds b.events = dispatchedIds a.events ++ ids ∧
    climbs a.m_lastReceivedReliableCommand ids b.m_lastReceivedReliableCommand

/-- Upper bound on the passes that the parse loop can still make over the buffer. -/
def remainingPasses (b : NetBuffer) : Nat :=
  if b.End then 0 else b.unread.length / 4 + 1

/-- The buffer `b1` is `b` after some reads: no more unread bytes, and still
exhausted if `b` was. -/
def Behind (b1 b : NetBuffer) : Prop :=
  b1.unread.length ≤ b.unread.length ∧ (b.exhausted = true → b1.exhausted = true)

/-- One element of the body of a server message, as the parse loop distinguishes
them. -/
inductive ServerItem where
  | route (netID : Nat) (payload : List Nat)
  | frame (frameNum : Nat) (ping : Nat)
  | reliable (msgType : Nat) (id : Nat) (payload : List Nat)
deriving DecidableEq, Repr

/-- Wire form of one element of a server message, as the spec gives it; a frame
marker carries the ping only from protocol 3 on. -/
def encodeItem (protocol : Nat) : ServerItem → List Nat
  | ServerItem.route netID payload =>
    layoutRoute { netID := netID, payload := payload, genTime := 0 }
  | ServerItem.frame frameNum ping =>
    leBytes 4 MSG_FRAME ++ leBytes 4 frameNum ++ (if protocol ≥ 3 then leBytes 4 ping else [])
  | ServerItem.reliable msgType id payload =>
    layoutReliable { type := msgType, id := id, command := payload }

/-- Wire form of a sequence of elements. -/
def encodeItems (protocol : Nat) (items : List ServerItem) : List Nat :=
  (items.map (encodeItem protocol)).flatten

/-- The values of an element are representable in its wire fields, and the type of
a reliable command is none of the three reserved message types. -/
def ServerItem.wf : ServerItem → Prop
  | ServerItem.route netID payload => netID < 65536 ∧ payload.length < 65536
  | ServerItem.frame frameNum _ => frameNum < U32
  | ServerItem.reliable msgType id payload =>
    msgType < U32 ∧ msgType ≠ MSG_ROUTE ∧ msgType ≠ MSG_FRAME ∧ msgType ≠ MSG_END ∧
    id < 2147483648 ∧ payload.length < U32

/-- What the parse loop does with one element that it accepts. -/
def applyItem (e : NetLibrary) (now : Nat) : ServerItem → NetLibrary
  | ServerItem.route netID payload => e.EnqueueRoutedPacket netID payload now
  | ServerItem.frame frameNum _ => { e with m_lastFrameNumber := frameNum }
  | ServerItem.reliable msgType id payload => dispatchReliable e msgType id payload

/-- What the parse loop does with a sequence of elements that it accepts. -/
def applyItems (e : NetLibrary) (now : Nat) (items : List ServerItem) : NetLibrary :=
  items.foldl (fun a it => applyItem a now it) e

/-- The element is no new reliable command for an engine whose last received id is
`last`: a routing packet, a frame marker, or a command with an id already processed. -/
def ServerItem.stale (last : Nat) : ServerItem → Prop
  | ServerItem.reliable _ id _ => id ≤ last
  | _ => True

/-- An active engine whose last received reliable id is 10. -/
def sampleReceiver : NetLibrary :=
  { create with m_connectionState := CS_ACTIVE, m_lastReceivedReliableCommand := 10 }

/-- The engine `sampleReceiver` with the handler 1 registered for the message type
77. -/
def listeningReceiver : NetLibrary :=
  { sampleReceiver with m_reliableHandlers := [(77, 1)] }

/-- The element passes the "bad scenario" test of the parse loop in state `e`. -/
def accepts (e : NetLibrary) : ServerItem → Prop
  | ServerItem.reliable _ id _ => ¬ id > (e.m_lastReceivedReliableCommand + 64) % U32
  | _ => True

/-- Every element of the sequence passes the test in the state in which the parse
loop reaches it. -/
def acceptsAll (now : Nat) : NetLibrary → List ServerItem → Prop
  | _, [] => True
  | e, it :: its => accepts e it ∧ acceptsAll now (applyItem e now it) its

/-- The reliable commands handed to `HandleReliableCommand`, in call order, each
with its type, id and payload. -/
def dispatched (evs : List Event) : List OutReliableCommand :=
  evs.filterMap (fun ev =>
    match ev with
    | Event.ReliableDispatch t id payload => some { type := t, id := id, command := payload }
    | _ => none)

/-- The body of an outbound frame as message elements: the queued routing packets,
then the pending reliable commands. -/
def frameItems (e : NetLibrary) : List ServerItem :=
  e.m_outgoingPackets.map (fun p => ServerItem.route p.netID p.payload) ++
    e.m_outReliableCommands.map (fun c => ServerItem.reliable c.type c.id c.command)

/-- An active engine that has received no reliable command yet. -/
def freshReceiver : NetLibrary :=
  { create with m_connectionState := CS_ACTIVE }

/-- A sender below protocol 2 with one queued routing packet and two pending
reliable commands. -/
def legacySender : NetLibrary :=
  (((({ create with
        m_connectionState := CS_ACTIVE,
        m_serverProtocol := 1,
        m_lastReceivedReliableCommand := 5 }).RoutePacket [1, 2, 3] 7).SendReliableCommand
    (cstr "a") [4, 5]).SendReliableCommand (cstr "b") [])

/-- A server message with ack 0 that carries the reliable command id 5 of type 77. -/
def sampleMessage : List Nat :=
  leBytes 4 0 ++ encodeItems 0 [ServerItem.reliable 77 5 [9]] ++ leBytes 4 MSG_END

/-- What stops a member function before it returns: a write through the null pointer
that `strchr` returned, or a `std::string` built from more bytes than the memory
holds (beyond `max_size()` the constructor throws `std::length_error`). -/
inductive Fault where
  | nullDereference
  | outOfBounds
deriving DecidableEq, Repr

/-- Result of a member function that can fault. -/
inductive Outcome where
  | ok (e : NetLibrary)
  | fault (f : Fault)
deriving DecidableEq, Repr

/-- Sequencing of a faulting step with what follows it. -/
def Outcome.andThen (r : Outcome) (f : NetLibrary → Outcome) : Outcome :=
  match r with
  | Outcome.ok e => f e
  | Outcome.fault x => Outcome.fault x

/-- The C string that starts `k` bytes into the memory `oob`: the bytes up to the
first NUL.  `oob` holds the receive buffer from `&buf[4]` on, the datagram and
whatever the buffer holds behind it; memory behind the list reads as NUL. -/
def cstrAt (oob : List Nat) (k : Nat) : List Nat :=
  (oob.drop k).takeWhile (fun c => c != 0)

/-- The test `!_strnicmp(oob, word, n)` with `n` the length of `word`: the first
`n` bytes of `oob` equal `word` up to ASCII case. -/
def startsWithNoCase (oob word : List Nat) : Bool :=
  (oob.take word.length).map ToLower == word.map ToLower

/-- The call `strchr(s, ' ')` followed by the split that `ProcessOOB` makes at the
result: the part before the first space and the part behind it; `none` when the
string has no space (`strchr` returns the null pointer). -/
def splitAtSpace (s : List Nat) : Option (List Nat × List Nat) :=
  match s.dropWhile (fun c => c != 32) with
  | [] => none
  | _ :: behind => some (s.takeWhile (fun c => c != 32), behind)

/-- The C predicate `isspace` (in the "C" locale). -/
def isspace (c : Nat) : Bool := c == 32 || (9 ≤ c && c ≤ 13)

/-- The C predicate `isdigit`. -/
def isdigit (c : Nat) : Bool := 48 ≤ c && c ≤ 57

/-- Value of a string of decimal digits. -/
def digitsValue (ds : List Nat) : Nat :=
  ds.foldl (fun acc c => 10 * acc + (c - 48)) 0

/-- Conversion of an integer to `int` (32 bits, two's complement). -/
def toInt32 (v : Int) : Int := (v + 2147483648) % 4294967296 - 2147483648

/-- The C library function `atoi`: leading white space, an optional sign, then
decimal digits.  The function returns a value for every string; outside the range
of `int`, where the C standard fixes none, the model takes the conversion to `int`
of what `strtol` returns for a 64-bit `long` (the value, held within the range of
`long`). -/
def atoi (s : List Nat) : Int :=
  let s1 := s.dropWhile isspace
  let negative : Bool := s1.head? == some 45
  let s2 := if s1.head? == some 45 || s1.head? == some 43 then s1.drop 1 else s1
  let v : Int := digitsValue (s2.takeWhile isdigit)
  let r : Int := if negative then -v else v
  toInt32 (max (-9223372036854775808) (min r 9223372036854775807))

/-- Conversion of an `int` to an unsigned integer of `bits` bits. -/
def toUnsigned (bits : Nat) (v : Int) : Nat := (v % (2 ^ bits : Int)).toNat

/-- The test `!_stricmp(a, b)`: equality of two C strings up to ASCII case. -/
def stricmpEq (a b : List Nat) : Bool := a.map ToLower == b.map ToLower

/-- The loop of `Info_ValueForKey` over the rest `s` of the info string: a key up
to the next backslash, a value up to the next backslash or the end; the value is
returned when the key matches, the empty string when the string ends. -/
def infoLoop : Nat → List Nat → List Nat → List Nat
  | 0, _, _ => []
  | fuel + 1, s, key =>
    match s.dropWhile (fun c => c != 92) with
    | [] => []
    | _ :: behindKey =>
      if stricmpEq key (s.takeWhile (fun c => c != 92)) then
        behindKey.takeWhile (fun c => c != 92)
      else
        match behindKey.dropWhile (fun c => c != 92) with
        | [] => []
        | _ :: behindValue => infoLoop fuel behindValue key

/-- `Info_ValueForKey` on a C string `s` (without its NUL) and a key. -/
def Info_ValueForKey (s key : List Nat) : List Nat :=
  if s.length ≥ 8192 then []
  else
    let s1 := if s.head? == some 92 then s.drop 1 else s
    infoLoop (s1.length + 1) s1 key

/-- Text of a byte string, for messages. -/
def bytesToString (bs : List Nat) : String := String.mk (bs.map Char.ofNat)

/-- The local `thisWorld` of the "infoResponse" branch: the value of the key
`world` in the info string behind the command word, or "gta5" when it is empty. -/
def oobWorld (oob : List Nat) : List Nat :=
  let world := Info_ValueForKey (cstrAt oob 13) (cstr "world")
  if world.isEmpty then cstr "gta5" else world

/-- The world-mismatch exit of the "infoResponse" branch: the global error is
reported and the function returns. -/
def worldMismatch (e : NetLibrary) (lastWorld thisWorld : List Nat) : NetLibrary :=
  { e with
    lastWorld := some lastWorld,
    events := e.events ++ [Event.GlobalError
      ("Was loaded in world " ++ bytesToString lastWorld ++ ", but this server is world " ++
        bytesToString thisWorld ++ ". Restart the game to join.")] }

/-- The end of the "infoResponse" branch ("finalize connecting"). -/
def finalizeConnecting (e : NetLibrary) (thisWorld : List Nat) : NetLibrary :=
  { e with
    lastWorld := some thisWorld,
    m_connectionState := CS_CONNECTING,
    m_lastConnect := 0,
    m_connectAttempts := 0 }

/-- The "infoResponse" branch of `NetLibrary::ProcessOOB`.  The rich-presence calls
on the Steam component only observe; they are left out.  `gameLoaded` is what
`Instance<ICoreGameInit>::Get()->GetGameLoaded()` returns; the static `lastWorld`
takes the value of `thisWorld` when the branch runs for the first time. -/
def oobInfoResponse (e : NetLibrary) (oob : List Nat) (gameLoaded : Bool) : NetLibrary :=
  let e1 := { e with m_infoString := cstrAt oob 13 }
  let thisWorld := oobWorld oob
  let lastWorld := e1.lastWorld.getD thisWorld
  if lastWorld ≠ thisWorld ∧ gameLoaded = true then worldMismatch e1 lastWorld thisWorld
  else finalizeConnecting e1 thisWorld

/-- The assignments and calls of the "connectOK" branch once the three fields have
been converted. -/
def acceptConnectOK (e : NetLibrary) (clientNetID hostID hostBase : Int) : NetLibrary :=
  { e with
    m_serverNetID := toUnsigned 16 clientNetID,
    m_hostNetID := toUnsigned 16 hostID,
    m_hostBase := toUnsigned 32 hostBase,
    m_lastReceivedReliableCommand := 0,
    m_connectionState := CS_CONNECTED,
    events := e.events ++
      [Event.OnConnectOKReceived e.m_currentServer, Event.NetChannelReset e.m_currentServer] }

/-- The "connectOK" branch of `NetLibrary::ProcessOOB`: two calls of `strchr`, whose
results are written through unchecked, then three calls of `atoi` on the C strings
that the two NUL bytes written over the spaces delimit; the third C string ends at
the first NUL that the memory holds behind it. -/
def oobConnectOK (e : NetLibrary) (oob : List Nat) : Outcome :=
  match splitAtSpace (cstrAt oob 10) with
  | none => Outcome.fault Fault.nullDereference
  | some (clientNetIDStr, behind) =>
    match splitAtSpace behind with
    | none => Outcome.fault Fault.nullDereference
    | some (hostIDStr, hostBaseStr) =>
      Outcome.ok (acceptConnectOK e (atoi clientNetIDStr) (atoi hostIDStr) (atoi hostBaseStr))

/-- The "error" branch of `NetLibrary::ProcessOOB`: the message is
`std::string(errorStr, length - 6)`, which reads `length - 6` bytes whatever they
are. -/
def oobError (e : NetLibrary) (oob : List Nat) (length : Nat) : Outcome :=
  if length ≥ 6 then
    if length - 6 ≤ (oob.drop 6).length then
      Outcome.ok (e.GlobalError (bytesToString ((oob.drop 6).take (length - 6))))
    else Outcome.fault Fault.outOfBounds
  else Outcome.ok e

/-- `NetLibrary::ProcessOOB`; `source` is the sender, `oob` the memory from `&buf[4]`
on (the text of the datagram and what the buffer holds behind it), `length` the
argument `length`. -/
def NetLibrary.ProcessOOB (e : NetLibrary) (source : NetAddress) (oob : List Nat)
    (length : Nat) (gameLoaded : Bool) : Outcome :=
  if source = e.m_currentServer then
    if startsWithNoCase oob (cstr "infoResponse") then
      Outcome.ok (oobInfoResponse e oob gameLoaded)
    else if startsWithNoCase oob (cstr "connectOK") then oobConnectOK e oob
    else if startsWithNoCase oob (cstr "error") then oobError e oob length
    else Outcome.ok e
  else Outcome.ok e

/-- The memory at `oob` when `ProcessOOB` has returned: the "connectOK" branch has
written a NUL byte over each of the two spaces that it found. -/
def oobAfter (e : NetLibrary) (source : NetAddress) (oob : List Nat) : List Nat :=
  if source = e.m_currentServer ∧ startsWithNoCase oob (cstr "infoResponse") = false ∧
      startsWithNoCase oob (cstr "connectOK") = true then
    let first := 10 + ((cstrAt oob 10).takeWhile (fun c => c != 32)).length
    let second := first + 1 + ((cstrAt oob (first + 1)).takeWhile (fun c => c != 32)).length
    (oob.set first 0).set second 0
  else oob

/-- An engine in the middle of the handshake with the server `203.0.113.5:30120`. -/
def sampleServer : NetAddress := { host := cstr "203.0.113.5", port := 30120 }

/-- An engine that is waiting for "connectOK" from `sampleServer`. -/
def connectingEngine : NetLibrary :=
  { create with m_connectionState := CS_CONNECTING, m_currentServer := sampleServer }

/-- `NetLibrary::SendOutOfBand` for an already formatted text: the text is cut to
the 32763 bytes that the static buffer holds behind the prefix, and a text of 32764
bytes or more is reported through `GlobalError`. -/
def NetLibrary.SendOutOfBand (e : NetLibrary) (address : NetAddress) (text : List Nat) :
    NetLibrary :=
  let e1 := if text.length ≥ 32764 then
      e.GlobalError "Attempted to overrun string in call to SendOutOfBand()!"
    else e
  e1.emit (Event.SendOutOfBand address (text.take 32763))

/-- The formatting `%llu` of an unsigned integer. -/
def decimal (n : Nat) : List Nat := (Nat.toDigits 10 n).map Char.toNat

/-- The suffix `specStatus` of the progress messages of `RunFrame`. -/
def specStatus (attempts : Nat) : String :=
  if attempts > 1 then " (attempt " ++ toString attempts ++ ")" else ""

/-- One datagram taken from a socket by `recvfrom`: the sender, the bytes, and
the message that `m_netChannel.Process` yields for it, if any (the net channel
is implemented outside the available sources). -/
structure Datagram where
  source : NetAddress
  data : List Nat
  message : Option NetBuffer
deriving DecidableEq, Repr

/-- The buffer `buf` after `recvfrom` has stored the datagram `data` at its start:
the bytes behind the datagram are those that the buffer held before. -/
def recvInto (buf data : List Nat) : List Nat :=
  data ++ buf.drop data.length

/-- The value of `len - 4` as the `size_t` (64 bits) that `ProcessOOB` receives. -/
def oobLength (len : Nat) : Nat := (len + 2 ^ 64 - 4) % 2 ^ 64

/-- The loop `while (true)` of `NetLibrary::ProcessPacketsInternal` over the
datagrams that one socket holds, with the contents `buf` of the receive buffer.  The
loop ends when `recvfrom` finds no more, when `recvfrom` fails on a datagram that
does not fit the 2048 bytes, or at a channel datagram from an address other than
the current server.  The buffer is not cleared between two datagrams. -/
def NetLibrary.receiveLoop (e : NetLibrary) (now : Nat) (gameLoaded : Bool) :
    List Nat → List Datagram → Outcome
  | _, [] => Outcome.ok e
  | buf, d :: ds =>
    if d.data.length > 2048 then Outcome.ok e
    else if (recvInto buf d.data).take 4 = [255, 255, 255, 255] then
      (e.ProcessOOB d.source ((recvInto buf d.data).drop 4) (oobLength d.data.length)
          gameLoaded).andThen
        (fun e1 => e1.receiveLoop now gameLoaded
          ((recvInto buf d.data).take 4 ++ oobAfter e d.source ((recvInto buf d.data).drop 4))
          ds)
    else if d.source ≠ e.m_currentServer then Outcome.ok e
    else
      match d.message with
      | some msg =>
        (e.ProcessServerMessage msg now).receiveLoop now gameLoaded (recvInto buf d.data) ds
      | none => e.receiveLoop now gameLoaded (recvInto buf d.data) ds

/-- `NetLibrary::ProcessPacketsInternal`: the receive buffer of 2048 bytes is zeroed
once, then the loop runs. -/
def NetLibrary.ProcessPacketsInternal (e : NetLibrary) (now : Nat) (gameLoaded : Bool)
    (datagrams : List Datagram) : Outcome :=
  e.receiveLoop now gameLoaded (List.replicate 2048 0) datagrams

/-- `NetLibrary::ProcessPackets`: the IPv4 socket, then the IPv6 socket. -/
def NetLibrary.ProcessPackets (e : NetLibrary) (now : Nat) (gameLoaded : Bool)
    (inet4 inet6 : List Datagram) : Outcome :=
  (e.ProcessPacketsInternal now gameLoaded inet4).andThen
    (fun e1 => e1.ProcessPacketsInternal now gameLoaded inet6)

/-- The start of `NetLibrary::RunFrame`: a change of state since the last tick is
announced through `OnStateChanged`. -/
def announceState (e : NetLibrary) : NetLibrary :=
  if e.m_connectionState ≠ e.m_lastConnectionState then
    { e with
      m_lastConnectionState := e.m_connectionState,
      events := e.events ++ [Event.OnStateChanged e.m_connectionState e.m_lastConnectionState] }
  else e

/-- The case `CS_INITRECEIVED` of the switch of `RunFrame`. -/
def tickInitReceived (e : NetLibrary) : NetLibrary :=
  { e with
    m_connectionState := CS_DOWNLOADING,
    events := e.events ++ [Event.OnConnectionProgress "Downloading content" 0 1,
      Event.OnInitReceived e.m_currentServer] }

/-- The case `CS_DOWNLOADCOMPLETE` of the switch of `RunFrame`. -/
def tickDownloadComplete (e : NetLibrary) : NetLibrary :=
  { e with
    m_connectionState := CS_FETCHING,
    m_lastConnect := 0,
    m_connectAttempts := 0,
    events := e.events ++ [Event.OnConnectionProgress "Downloading completed" 1 1] }

/-- One attempt of the handshake: the text is sent out of band, the time and the
attempt are counted, the progress is advertised. -/
def attempt (e : NetLibrary) (now : Nat) (text : List Nat) (what : String) : NetLibrary :=
  let e1 := e.SendOutOfBand e.m_currentServer text
  { e1 with
    m_lastConnect := now,
    m_connectAttempts := e1.m_connectAttempts + 1,
    events := e1.events ++
      [Event.OnConnectionProgress (what ++ specStatus (e1.m_connectAttempts + 1)) 1 1] }

/-- The assignment `g_disconnectReason = reason`. -/
def setDisconnectReason (e : NetLibrary) (reason : List Nat) : NetLibrary :=
  { e with g_disconnectReason := reason }

/-- The timeout block shared by the cases of the switch of `RunFrame`: the reason
is stored, `FinalizeDisconnect` is called, `OnConnectionTimedOut` is emitted, and
the fatal error is reported. -/
def timeOut (e : NetLibrary) (now : Nat) (hook : List Nat) (reason : List Nat)
    (error : String) : NetLibrary :=
  ((FinalizeDisconnect (setDisconnectReason e reason) now hook).emit
    Event.OnConnectionTimedOut).GlobalError error

/-- The case `CS_FETCHING` of the switch of `RunFrame`. -/
def tickFetching (e : NetLibrary) (now : Nat) (hook : List Nat) : NetLibrary :=
  let e1 := if sub32 now e.m_lastConnect > 5000 then
      attempt e now (cstr "getinfo xyz") "Fetching info from server..."
    else e
  if e1.m_connectAttempts > 3 then
    timeOut e1 now hook (cstr "Fetching info timed out.")
      "Failed to getinfo server after 3 attempts."
  else e1

/-- The case `CS_CONNECTING` of the switch of `RunFrame`; `guid` is what `GetGUID()`
returns. -/
def tickConnecting (e : NetLibrary) (now : Nat) (hook : List Nat) (guid : Nat) : NetLibrary :=
  let e1 := if sub32 now e.m_lastConnect > 5000 then
      attempt e now (cstr "connect token=" ++ cstrAt e.m_token 0 ++ cstr "&guid=" ++ decimal guid)
        "Connecting to server..."
    else e
  if e1.m_connectAttempts > 3 then
    timeOut e1 now hook (cstr "Connection timed out.")
      "Failed to connect to server after 3 attempts."
  else e1

/-- The case `CS_ACTIVE` of the switch of `RunFrame`. -/
def tickActive (e : NetLibrary) (now : Nat) (hook : List Nat) : NetLibrary :=
  if sub32 now e.m_lastReceivedAt > 15000 then
    timeOut e now hook (cstr "Connection timed out.")
      "Server connection timed out after 15 seconds."
  else e

/-- The switch on `m_connectionState` of `NetLibrary::RunFrame`. -/
def tickState (e : NetLibrary) (now : Nat) (hook : List Nat) (guid : Nat) : NetLibrary :=
  match e.m_connectionState with
  | CS_INITRECEIVED => tickInitReceived e
  | CS_DOWNLOADCOMPLETE => tickDownloadComplete e
  | CS_FETCHING => tickFetching e now hook
  | CS_CONNECTING => tickConnecting e now hook guid
  | CS_ACTIVE => tickActive e now hook
  | _ => e

/-- What one tick takes from its surroundings: the clock, the bytes that the
`OnBuildMessage` subscribers append, the datagrams waiting on the two sockets,
whether the game is loaded, and the user GUID. -/
structure FrameInput where
  now : Nat
  hook : List Nat
  inet4 : List Datagram
  inet6 : List Datagram
  gameLoaded : Bool
  guid : Nat

/-- `NetLibrary::RunFrame` for a tick that obtains the frame lock. -/
def NetLibrary.RunFrame (e : NetLibrary) (i : FrameInput) : Outcome :=
  ((announceState e).ProcessPackets i.now i.gameLoaded i.inet4 i.inet6).andThen
    (fun e1 => Outcome.ok (tickState (e1.ProcessSend i.now i.hook) i.now i.hook i.guid))

/-- `NetLibrary::DownloadsComplete`. -/
def NetLibrary.DownloadsComplete (e : NetLibrary) : NetLibrary :=
  if e.m_connectionState = CS_DOWNLOADING then
    { e with m_connectionState := CS_DOWNLOADCOMPLETE }
  else e

/-- A tick without datagrams at the clock reading `now`. -/
def quietTick (now : Nat) : FrameInput :=
  { now := now, hook := [], inet4 := [], inet6 := [], gameLoaded := false, guid := 0 }

/-- An engine that has asked `sampleServer` for its info three times. -/
def fetchingEngine : NetLibrary :=
  { create with
    m_connectionState := CS_FETCHING,
    m_lastConnectionState := CS_FETCHING,
    m_currentServer := sampleServer,
    m_lastConnect := 1000,
    m_connectAttempts := 3 }

/-- What `node[key]` followed by `as<T>()` gives for one key of the handshake
response: the key is not defined, it is defined but not convertible to `T`
(`as<T>()` throws), or it has a value. -/
inductive YamlValue (α : Type) where
  | undefined
  | illTyped
  | value (v : α)
deriving DecidableEq, Repr

/-- The parsed handshake response, as far as the completion callback looks at it
(the YAML parser is an external library). -/
structure ConnDataNode where
  error : YamlValue (List Nat)
  sH : YamlValue Bool
  enhancedHostSupport : YamlValue Bool
  token : YamlValue (List Nat)
  protocol : YamlValue Nat
deriving DecidableEq, Repr

/-- The test `node[key].IsDefined()`. -/
def YamlValue.IsDefined {α : Type} : YamlValue α → Bool
  | YamlValue.undefined => false
  | _ => true

/-- The conversion `node[key].as<T>(fallback)`, which does not throw. -/
def YamlValue.asOr {α : Type} (fallback : α) : YamlValue α → α
  | YamlValue.value v => v
  | _ => fallback

/-- A failure branch of the completion callback that tells the subscribers:
`OnConnectionError(message)` and `m_connectionState = CS_IDLE`. -/
def failHandshake (e : NetLibrary) (message : String) : NetLibrary :=
  { e with
    m_connectionState := CS_IDLE,
    events := e.events ++ [Event.OnConnectionError message] }

/-- The handler `catch (YAML::Exception&)` of the completion callback. -/
def catchYamlException (e : NetLibrary) : NetLibrary :=
  { e with m_connectionState := CS_IDLE }

/-- The assignments of the completion callback from `m_token = ...` to
`m_connectionState = CS_INITRECEIVED`; a conversion that throws ends in the handler
with what was assigned before it. -/
def storeHandshake (e : NetLibrary) (node : ConnDataNode) : NetLibrary :=
  match node.token with
  | YamlValue.value token =>
    match node.protocol with
    | YamlValue.value protocol =>
      { e with
        m_token := token,
        m_serverProtocol := protocol,
        m_connectionState := CS_INITRECEIVED }
    | _ => catchYamlException { e with m_token := token }
  | _ => catchYamlException e

/-- The `try` block of the completion callback for a body that `YAML::Load` accepts. -/
def readHandshake (e : NetLibrary) (node : ConnDataNode) : NetLibrary :=
  if node.error.IsDefined then
    match node.error with
    | YamlValue.value message => failHandshake e (bytesToString message)
    | _ => catchYamlException e
  else if ¬ node.sH.IsDefined then
    failHandshake e
      ("Legacy servers are incompatible with this version of FiveM. " ++
        "Update the server to the latest files from fivem.net")
  else
    storeHandshake
      ((e.emit (Event.SetShAllowed (node.sH.asOr true))).emit
        (Event.SetEnhancedHostSupport
          (node.enhancedHostSupport.IsDefined && node.enhancedHostSupport.asOr false)))
      node

/-- The completion callback `handleAuthResult` that `NetLibrary::ConnectToServer`
hands to `DoPostRequest`: `result` and `body` are its arguments, `node` is what
`YAML::Load` makes of the body (`none` when loading the body throws). -/
def NetLibrary.handleAuthResult (e : NetLibrary) (result : Bool) (body : List Nat)
    (node : Option ConnDataNode) : NetLibrary :=
  if result = false then
    failHandshake e
      ("Failed handshake to server " ++ bytesToString e.m_currentServer.host ++ ":" ++
        toString e.m_currentServer.port ++ (if body.length > 0 then " - " else "") ++
        bytesToString body ++ ".")
  else
    match node with
    | none => catchYamlException e
    | some n => readHandshake e n

/-- An engine that has received "connectOK" from `sampleServer` and no server
message yet. -/
def connectedEngine : NetLibrary :=
  { create with m_connectionState := CS_CONNECTED, m_currentServer := sampleServer }

/-- An active engine on `sampleServer` that heard from it at 1000 ms. -/
def activeEngine : NetLibrary :=
  { create with
    m_connectionState := CS_ACTIVE,
    m_lastConnectionState := CS_ACTIVE,
    m_currentServer := sampleServer,
    m_lastReceivedAt := 1000 }

/-- An engine that has just called `ConnectToServer` for `sampleServer`. -/
def initingEngine : NetLibrary :=
  create.ConnectToServer (cstr "203.0.113.5") 30120 0 []

/-- A handshake response with `sH`, a token and protocol 4. -/
def sampleHandshake : ConnDataNode :=
  { error := YamlValue.undefined, sH := YamlValue.value true,
    enhancedHostSupport := YamlValue.undefined,
    token := YamlValue.value (cstr "tok"), protocol := YamlValue.value 4 }

/-- The response `sampleHandshake` without its token. -/
def tokenlessHandshake : ConnDataNode :=
  { sampleHandshake with token := YamlValue.undefined }

/-- The text "infoResponse", a line feed, and the info string `\world\gta5`. -/
def sampleInfoResponse : List Nat :=
  cstr "infoResponse" ++ [10, 92] ++ cstr "world" ++ [92] ++ cstr "gta5"

/-- The connection state in which a member function that can fault ends, if it
returns. -/
def Outcome.state : Outcome → Option ConnectionState
  | Outcome.ok e => some e.m_connectionState
  | Outcome.fault _ => none

/-- `NetLibrary::SendNetEvent`; `i` is the `int` argument. -/
def NetLibrary.SendNetEvent (e : NetLibrary) (eventName jsonString : List Nat) (i : Int) :
    NetLibrary :=
  let cmdType := if i = -1 then "msgNetEvent" else if i = -2 then "msgServerEvent"
    else "msgNetEvent"
  let i1 : Int := if i = -1 then (UINT16_MAX : Int) else i
  let buffer := NetBuffer.ofCapacity 100000
  let b1 := if i1 ≥ 0 then buffer.WriteUInt 2 i1.toNat else buffer
  let b2 := b1.WriteUInt 2 (eventName.length + 1)
  let b3 := b2.Write (eventName ++ [0])
  let b4 := b3.Write jsonString
  e.SendReliableCommand (cstr cmdType) b4.written

/-- Payload of a net event as the spec lays it out: the 16-bit target unless `i`
is -2 (`0xFFFF` for -1), the 16-bit length of the name plus one, the name and one
NUL byte, and the JSON bytes. -/
def netEventLayout (eventName jsonString : List Nat) (i : Int) : List Nat :=
  (if i = -2 then [] else if i = -1 then leBytes 2 0xFFFF else leBytes 2 i.toNat) ++
    leBytes 2 (eventName.length + 1) ++ eventName ++ [0] ++ jsonString

/-- The loop of `StripColors` over the bytes at `in`, with `limit` the decremented
`max`; the result is what is written to `out` before the closing NUL.  The test
`Q_IsColorString(in)` is `*in == '^' && *(in + 1) && isdigit(*(in + 1))`; memory
behind the list reads as NUL. -/
def stripLoop (limit : Int) : List Nat → Nat → List Nat
  | [], _ => []
  | [c], current =>
    if c ≠ 0 ∧ (current : Int) < limit then [c] else []
  | c :: d :: rest, current =>
    if c ≠ 0 ∧ (current : Int) < limit then
      if ¬ (c = 94 ∧ d ≠ 0 ∧ isdigit d = true) then
        c :: stripLoop limit (d :: rest) (current + 1)
      else stripLoop limit rest current
    else []

/-- `StripColors(in, out, max)`: the bytes that `out` holds when the function
returns, closing NUL included. -/
def StripColors (input : List Nat) (max : Int) : List Nat :=
  stripLoop (max - 1) input 0 ++ [0]

/-- The string `s` without its colour codes, as the spec words it: a byte is removed
when it is a `^` followed by an ASCII digit or an ASCII digit that follows a `^`
(`prev` is the byte before the string, 0 at its start); every other byte is kept. -/
def withoutColourCodes (prev : Nat) : List Nat → List Nat
  | [] => []
  | c :: rest =>
    if (c = 94 ∧ isdigit (rest.headD 0) = true) ∨ (prev = 94 ∧ isdigit c = true) then
      withoutColourCodes c rest
    else c :: withoutColourCodes c rest

/-- The info string `\k1\v1\k2\v2...\kn\vn` of a list of pairs of key and value. -/
def encodeInfo (pairs : List (List Nat × List Nat)) : List Nat :=
  (pairs.map (fun p => 92 :: (p.1 ++ 92 :: p.2))).flatten

/-- The value that the spec gives for `key`: that of the first pair whose key
equals `key` up to ASCII case, the empty string when there is none. -/
def lookupInfo (pairs : List (List Nat × List Nat)) (key : List Nat) : List Nat :=
  match pairs.find? (fun p => stricmpEq key p.1) with
  | some p => p.2
  | none => []

/-- The pairs of an info string as the spec admits them: no key and no value
contains a backslash or a NUL byte. -/
def wellFormedInfo (pairs : List (List Nat × List Nat)) : Prop :=
  ∀ p ∈ pairs, (∀ c ∈ p.1, c ≠ 92 ∧ c ≠ 0) ∧ (∀ c ∈ p.2, c ≠ 92 ∧ c ≠ 0)

/-- A q3-style info string with three pairs; the key `World` differs from the
queried key "world" in case only. -/
def sampleInfo : List (List Nat × List Nat) :=
  [(cstr "hostname", cstr "^1Alpha"), (cstr "World", cstr "mp1"), (cstr "world", cstr "x")]

/-- The "msgIQuit" command that `FinalizeDisconnect` pushes on the engine `e`. -/
def quitCommand (e : NetLibrary) : OutReliableCommand :=
  { type := HashRageString (cstr "msgIQuit"),
    id := (e.m_outReliableSequence + 1) % U32,
    command := e.g_disconnectReason ++ [0] }

/-- The engine `e` with an empty outgoing routing queue. -/
def withoutOutgoing (e : NetLibrary) : NetLibrary :=
  { e with m_outgoingPackets := [] }

/-- An active engine whose store holds one unacknowledged command of 23986 bytes:
with the four bytes of the acknowledgement and the ten bytes of its header the
command fills the 24000-byte frame buffer. -/
def bulkyEngine : NetLibrary :=
  { activeEngine with
    m_outReliableSequence := 1,
    m_outReliableCommands := [{ type := 1, id := 1, command := List.replicate 23986 7 }] }

/-- An active engine whose 32-bit sequence counter stands at its last value. -/
def wrappingEngine : NetLibrary :=
  { activeEngine with
    m_outReliableSequence := 4294967295,
    m_outReliableAcknowledged := 4294967295 }

/-- An active engine with one routing packet to send and the disconnect reason
"bye". -/
def leavingEngine : NetLibrary :=
  setDisconnectReason (activeEngine.RoutePacket [1] 4) (cstr "bye")

/-- The text that the case `CS_CONNECTING` of `RunFrame` hands to the net: the
format "connect token=%s&guid=%llu" filled with the token as a C string and the
GUID, cut to the 32763 bytes that the buffer of `SendOutOfBand` holds. -/
def connectText (e : NetLibrary) (guid : Nat) : List Nat :=
  (cstr "connect token=" ++ cstrAt e.m_token 0 ++ cstr "&guid=" ++ decimal guid).take 32763

/-- The engine in which a member function that can fault ends, if it returns. -/
def Outcome.engine : Outcome → Option NetLibrary
  | Outcome.ok e => some e
  | Outcome.fault _ => none

/-- A tick at 7000 ms in which the IPv4 socket holds "connectOK 42 17 99" from
`sampleServer`. -/
def connectOKTick : FrameInput :=
  { now := 7000, hook := [], gameLoaded := false, guid := 5, inet6 := [],
    inet4 := [{ source := sampleServer, message := none,
                data := [255, 255, 255, 255] ++ cstr "connectOK 42 17 99" }] }

/-- Two datagrams that one call of `ProcessPacketsInternal` finds on the socket: the
out-of-band text "connectOK 42 17 995" from another port of the server's host, then
the out-of-band text "connectOK 42 17 99" from `sampleServer`. -/
def shorterConnectOK : List Datagram :=
  [{ source := { host := cstr "203.0.113.5", port := 30121 }, message := none,
     data := [255, 255, 255, 255] ++ cstr "connectOK 42 17 995" },
   { source := sampleServer, message := none,
     data := [255, 255, 255, 255] ++ cstr "connectOK 42 17 99" }]

/-- An engine in `CS_CONNECTING` that has sent three connect texts, the last at
1000 ms; its token is "tok". -/
def retryingEngine : NetLibrary :=
  { connectingEngine with
    m_lastConnectionState := CS_CONNECTING,
    m_lastConnect := 1000,
    m_connectAttempts := 3,
    m_token := cstr "tok" }

/-! ## Properties -/

/-! ### Little-endian fields and reads -/

theorem leBytes_length (w v : Nat) : (leBytes w v).length = w := by
  induction w generalizing v with
  | zero => rfl
  | succ n ih => simp [leBytes, ih]

theorem leValue_leBytes (w v : Nat) : leValue (leBytes w v) = v % 256 ^ w := by
  induction w generalizing v with
  | zero => simp [leBytes, leValue, Nat.mod_one]
  | succ n ih =>
    simp only [leBytes, leValue, ih, Nat.mod_mod]
    rw [pow_succ', Nat.mod_mul]

theorem ReadBytes_append (b : NetBuffer) (bs rest : List Nat) (h : b.unread = bs ++ rest) :
    b.ReadBytes bs.length = (some bs, { b with unread := rest }) := by
  simp [NetBuffer.ReadBytes, h]

theorem ReadUInt_append (b : NetBuffer) (w : Nat) (bs rest : List Nat)
    (h : b.unread = bs ++ rest) (hw : bs.length = w) :
    b.ReadUInt w = (leValue bs, { b with unread := rest }) := by
  subst hw
  simp [NetBuffer.ReadUInt, ReadBytes_append b bs rest h]

theorem ReadUInt_leBytes (b : NetBuffer) (w v : Nat) (rest : List Nat)
    (h : b.unread = leBytes w v ++ rest) :
    b.ReadUInt w = (v % 256 ^ w, { b with unread := rest }) := by
  rw [ReadUInt_append b w _ rest h (leBytes_length w v), leValue_leBytes]

/-! ### Fields that the parse loop never writes -/

theorem parseRoute_untouched (e : NetLibrary) (msg : NetBuffer) (now : Nat) :
    Untouched (parseRoute e msg now).engine e := by
  unfold parseRoute
  dsimp only
  split <;> simp [Untouched, ParseStep.engine, EnqueueRoutedPacket]

theorem parseFrame_untouched (e : NetLibrary) (msg : NetBuffer) :
    Untouched (parseFrame e msg).engine e := by
  unfold parseFrame
  dsimp only
  split_ifs <;> simp [Untouched, ParseStep.engine]

theorem dispatchReliable_untouched (e : NetLibrary) (t id : Nat) (buf : List Nat) :
    Untouched (dispatchReliable e t id buf) e := by
  unfold dispatchReliable
  split_ifs <;> simp [Untouched, HandleReliableCommand, emit]

theorem parseReliable_untouched (e : NetLibrary) (t : Nat) (msg : NetBuffer) :
    Untouched (parseReliable e t msg).engine e := by
  unfold parseReliable
  dsimp only
  generalize readReliableHeader msg = hd
  split_ifs
  · simp [Untouched, ParseStep.engine]
  · split
    · simp [Untouched, ParseStep.engine]
    · exact dispatchReliable_untouched _ _ _ _

theorem parseStep_untouched (e : NetLibrary) (msg : NetBuffer) (now : Nat) :
    Untouched (parseStep e msg now).engine e := by
  unfold parseStep
  dsimp only
  split_ifs
  · simp [Untouched, ParseStep.engine]
  · exact parseRoute_untouched _ _ _
  · exact parseFrame_untouched _ _
  · exact parseReliable_untouched _ _ _
  · simp [Untouched, ParseStep.engine]

theorem Untouched_trans {a b c : NetLibrary} (h1 : Untouched a b) (h2 : Untouched b c) :
    Untouched a c := by
  unfold Untouched at *
  obtain ⟨a1, a2, a3, a4, a5, a6, a7, a8⟩ := h1
  obtain ⟨b1, b2, b3, b4, b5, b6, b7, b8⟩ := h2
  exact ⟨a1.trans b1, a2.trans b2, a3.trans b3, a4.trans b4, a5.trans b5, a6.trans b6,
    a7.trans b7, a8.trans b8⟩

theorem parseLoop_untouched (fuel : Nat) (e : NetLibrary) (msg : NetBuffer) (now : Nat)
    (r : NetLibrary) (h : parseLoop fuel e msg now = some r) : Untouched r e := by
  induction fuel generalizing e msg with
  | zero => simp [parseLoop] at h
  | succ n ih =>
    have hs := parseStep_untouched e msg now
    unfold parseLoop at h
    split at h
    · rename_i e1 heq
      rw [heq] at hs
      cases h
      exact hs
    · rename_i e1 m1 heq
      rw [heq] at hs
      exact Untouched_trans (ih e1 m1 h) hs

theorem Untouched_refl (a : NetLibrary) : Untouched a a := by
  simp [Untouched]

/-! ### The outbound store: pushes and acknowledgements (C1) -/

theorem SendReliableCommand_seq (e : NetLibrary) (t b : List Nat) :
    (e.SendReliableCommand t b).m_outReliableSequence = (e.m_outReliableSequence + 1) % U32 := by
  unfold SendReliableCommand GlobalError emit
  dsimp only
  split_ifs <;> rfl

theorem SendReliableCommand_store (e : NetLibrary) (t b : List Nat) :
    (e.SendReliableCommand t b).m_outReliableCommands = e.m_outReliableCommands ++
      [{ type := HashRageString t, id := (e.m_outReliableSequence + 1) % U32, command := b }] := by
  unfold SendReliableCommand GlobalError emit
  dsimp only
  split_ifs <;> rfl

theorem SendReliableCommand_acked (e : NetLibrary) (t b : List Nat) :
    (e.SendReliableCommand t b).m_outReliableAcknowledged = e.m_outReliableAcknowledged := by
  unfold SendReliableCommand GlobalError emit
  dsimp only
  split_ifs <;> rfl

theorem SendReliableCommand_events (e : NetLibrary) (t b : List Nat)
    (h : sub32 e.m_outReliableSequence e.m_outReliableAcknowledged ≤ MAX_RELIABLE_COMMANDS) :
    (e.SendReliableCommand t b).events = e.events := by
  unfold SendReliableCommand GlobalError emit
  dsimp only
  rw [if_neg (by omega)]

theorem sendAll_spec (cmds : List (List Nat × List Nat)) (e : NetLibrary)
    (h : e.m_outReliableSequence + cmds.length < U32) :
    (sendAll e cmds).m_outReliableCommands
        = e.m_outReliableCommands ++ numbered e.m_outReliableSequence cmds ∧
    (sendAll e cmds).m_outReliableSequence = e.m_outReliableSequence + cmds.length ∧
    (sendAll e cmds).m_outReliableAcknowledged = e.m_outReliableAcknowledged := by
  induction cmds generalizing e with
  | nil => simp [sendAll, numbered]
  | cons c cs ih =>
    have hlen : (c :: cs).length = cs.length + 1 := rfl
    have hmod : (e.m_outReliableSequence + 1) % U32 = e.m_outReliableSequence + 1 :=
      Nat.mod_eq_of_lt (by omega)
    have hstep := ih (e.SendReliableCommand c.1 c.2)
      (by rw [SendReliableCommand_seq, hmod]; omega)
    rw [SendReliableCommand_seq, SendReliableCommand_store, SendReliableCommand_acked, hmod]
      at hstep
    obtain ⟨h1, h2, h3⟩ := hstep
    have hs : sendAll e (c :: cs) = sendAll (e.SendReliableCommand c.1 c.2) cs := rfl
    rw [hs, h1, h2, h3]
    refine ⟨?_, by omega, rfl⟩
    simp [numbered]

theorem applyAck_store (e : NetLibrary) (a : Nat) :
    (applyAck e a).m_outReliableCommands =
      if a ≠ e.m_outReliableAcknowledged then
        e.m_outReliableCommands.filter (fun c => !decide (c.id ≤ a))
      else e.m_outReliableCommands := by
  unfold applyAck
  split_ifs <;> rfl

theorem applyAck_acked (e : NetLibrary) (a : Nat) :
    (applyAck e a).m_outReliableAcknowledged = a := by
  unfold applyAck
  split_ifs with h
  · rfl
  · exact (not_not.mp h).symm

theorem applyAck_seq (e : NetLibrary) (a : Nat) :
    (applyAck e a).m_outReliableSequence = e.m_outReliableSequence := by
  unfold applyAck
  split_ifs <;> rfl

theorem promote_store (e : NetLibrary) :
    (promote e).m_outReliableCommands = e.m_outReliableCommands := by
  unfold promote
  split_ifs <;> rfl

theorem promote_acked (e : NetLibrary) :
    (promote e).m_outReliableAcknowledged = e.m_outReliableAcknowledged := by
  unfold promote
  split_ifs <;> rfl

theorem promote_seq (e : NetLibrary) :
    (promote e).m_outReliableSequence = e.m_outReliableSequence := by
  unfold promote
  split_ifs <;> rfl

theorem ProcessServerMessage_untouched (e : NetLibrary) (msg : NetBuffer) (now : Nat) :
    Untouched (e.ProcessServerMessage msg now) (e.ackPhase (msg.ReadUInt 4).1 now) := by
  unfold ProcessServerMessage
  dsimp only
  split_ifs
  · exact Untouched_refl _
  · cases h : parseLoop ((msg.ReadUInt 4).2.unread.length / 4 + 2)
      (e.ackPhase (msg.ReadUInt 4).1 now) (msg.ReadUInt 4).2 now with
    | none => exact Untouched_refl _
    | some r => exact parseLoop_untouched _ _ _ _ _ h

/-- The store, the acknowledgement and the sequence counter after a server message
are those left by the acknowledgement part. -/
theorem ProcessServerMessage_outbound (e : NetLibrary) (msg : NetBuffer) (now : Nat) :
    (e.ProcessServerMessage msg now).m_outReliableCommands =
      (applyAck e (msg.ReadUInt 4).1).m_outReliableCommands ∧
    (e.ProcessServerMessage msg now).m_outReliableAcknowledged = (msg.ReadUInt 4).1 ∧
    (e.ProcessServerMessage msg now).m_outReliableSequence = e.m_outReliableSequence := by
  obtain ⟨h1, h2, h3, _⟩ := ProcessServerMessage_untouched e msg now
  unfold ackPhase at h1 h2 h3
  rw [h1, h2, h3, promote_store, promote_acked, promote_seq, applyAck_acked, applyAck_seq]
  refine ⟨?_, rfl, rfl⟩
  rw [applyAck_store, applyAck_store]

theorem filter_numbered (cmds : List (List Nat × List Nat)) (s a : Nat) :
    (numbered s cmds).filter (fun c => !decide (c.id ≤ a)) = (numbered s cmds).drop (a - s) := by
  induction cmds generalizing s with
  | nil => simp [numbered]
  | cons c cs ih =>
    by_cases h : s + 1 ≤ a
    · have hd : a - s = (a - (s + 1)) + 1 := by omega
      rw [hd]
      simp [numbered, List.filter_cons, h, ih (s + 1)]
    · have hd : a - s = 0 := by omega
      have hd1 : a - (s + 1) = 0 := by omega
      have := ih (s + 1)
      rw [hd1, List.drop_zero] at this
      rw [hd]
      simp [numbered, List.filter_cons, h, this]

theorem drop_range_from (a s n : Nat) :
    (List.range' s n).drop a = List.range' (s + a) (n - a) := by
  induction a generalizing s n with
  | zero => simp
  | succ a ih =>
    cases n with
    | zero => simp
    | succ n =>
      rw [List.range'_succ, List.drop_succ_cons, ih]
      congr 1 <;> omega

theorem numbered_ids (cmds : List (List Nat × List Nat)) (s : Nat) :
    (numbered s cmds).map (fun c => c.id) = List.range' (s + 1) cmds.length := by
  induction cmds generalizing s with
  | nil => simp [numbered]
  | cons c cs ih => simp [numbered, ih (s + 1), List.range'_succ]

theorem ackOf_leBytes (A : Nat) (rest : List Nat) (sentinel : Nat) (h : A < U32) :
    ((NetBuffer.ofBytes (leBytes 4 A ++ rest) sentinel).ReadUInt 4).1 = A := by
  rw [ReadUInt_leBytes _ 4 A rest rfl]
  exact Nat.mod_eq_of_lt h

/-- C1: from a fresh session, after `n <= MAX_RELIABLE_COMMANDS` pushes and a server
message whose leading ack is `A <= n`, the store holds exactly the commands with ids
`A+1 .. n` in push order with their payloads, and the acknowledgement is `A`. -/
theorem C1_ack_trims_window (e : NetLibrary) (cmds : List (List Nat × List Nat))
    (A : Nat) (rest : List Nat) (sentinel now : Nat)
    (hseq : e.m_outReliableSequence = 0) (hack : e.m_outReliableAcknowledged = 0)
    (hstore : e.m_outReliableCommands = [])
    (hn : cmds.length ≤ MAX_RELIABLE_COMMANDS) (hA : A ≤ cmds.length) :
    ((sendAll e cmds).ProcessServerMessage
        (NetBuffer.ofBytes (leBytes 4 A ++ rest) sentinel) now).m_outReliableCommands
      = (numbered 0 cmds).drop A ∧
    ((sendAll e cmds).ProcessServerMessage
        (NetBuffer.ofBytes (leBytes 4 A ++ rest) sentinel) now).m_outReliableCommands.map
          (fun c => c.id) = List.range' (A + 1) (cmds.length - A) ∧
    ((sendAll e cmds).ProcessServerMessage
        (NetBuffer.ofBytes (leBytes 4 A ++ rest) sentinel) now).m_outReliableAcknowledged = A := by
  have hmax : MAX_RELIABLE_COMMANDS = 64 := rfl
  have hU : U32 = 4294967296 := rfl
  obtain ⟨s1, _, s3⟩ := sendAll_spec cmds e (by omega)
  rw [hseq, hstore, List.nil_append] at s1
  rw [hack] at s3
  obtain ⟨p1, p2, _⟩ := ProcessServerMessage_outbound (sendAll e cmds)
    (NetBuffer.ofBytes (leBytes 4 A ++ rest) sentinel) now
  rw [ackOf_leBytes A rest sentinel (by omega)] at p1 p2
  have hst : (applyAck (sendAll e cmds) A).m_outReliableCommands = (numbered 0 cmds).drop A := by
    rw [applyAck_store, s1, s3]
    split_ifs with h0
    · rw [filter_numbered, Nat.sub_zero]
    · have : A = 0 := not_not.mp h0
      rw [this, List.drop_zero]
  rw [p1, p2, hst]
  refine ⟨rfl, ?_, rfl⟩
  rw [List.map_drop, numbered_ids, drop_range_from, Nat.add_comm]

/-- C1 at the scenario of the spec: ids 1, 2, 3 pushed on a fresh engine, ack 2
received; only the command with id 3 stays. -/
theorem C1_ack_trims_window_witness :
    [([1], [10]), ([2], [20, 21]), ([3], [])].length ≤ MAX_RELIABLE_COMMANDS ∧
    ((sendAll create [([1], [10]), ([2], [20, 21]), ([3], [])]).ProcessServerMessage
        (NetBuffer.ofBytes (leBytes 4 2 ++ [99]) 0) 0).m_outReliableCommands.map
          (fun c => c.id) = [3] ∧
    ((sendAll create [([1], [10]), ([2], [20, 21]), ([3], [])]).ProcessServerMessage
        (NetBuffer.ofBytes (leBytes 4 2 ++ [99]) 0) 0).m_outReliableAcknowledged = 2 :=
  ⟨by decide,
   (C1_ack_trims_window create [([1], [10]), ([2], [20, 21]), ([3], [])] 2 [99] 0 0 rfl rfl rfl
    (by decide) (by decide)).2⟩

/-! ### The window invariant over runs of the engine (C2, C3) -/

theorem ProcessSend_outbound (e : NetLibrary) (now : Nat) (hook : List Nat) :
    (e.ProcessSend now hook).m_outReliableCommands = e.m_outReliableCommands ∧
    (e.ProcessSend now hook).m_outReliableAcknowledged = e.m_outReliableAcknowledged ∧
    (e.ProcessSend now hook).m_outReliableSequence = e.m_outReliableSequence := by
  unfold ProcessSend
  split_ifs <;> simp

theorem forceSend_outbound (e : NetLibrary) (now : Nat) (hook : List Nat) :
    (e.forceSend now hook).m_outReliableCommands = e.m_outReliableCommands ∧
    (e.forceSend now hook).m_outReliableAcknowledged = e.m_outReliableAcknowledged ∧
    (e.forceSend now hook).m_outReliableSequence = e.m_outReliableSequence := by
  unfold forceSend
  obtain ⟨h1, h2, h3⟩ := ProcessSend_outbound { e with m_lastSend := 0 } now hook
  exact ⟨h1, h2, h3⟩

theorem finishDisconnect_outbound {e : NetLibrary} :
    (finishDisconnect e).m_outReliableCommands = e.m_outReliableCommands ∧
    (finishDisconnect e).m_outReliableAcknowledged = e.m_outReliableAcknowledged ∧
    (finishDisconnect e).m_outReliableSequence = e.m_outReliableSequence :=
  ⟨rfl, rfl, rfl⟩

theorem FinalizeDisconnect_outbound (e : NetLibrary) (now : Nat) (hook : List Nat) :
    (e.FinalizeDisconnect now hook).m_outReliableCommands =
        (if e.m_connectionState = CS_CONNECTING ∨ e.m_connectionState = CS_ACTIVE then
          e.SendReliableCommand (cstr "msgIQuit") (e.g_disconnectReason ++ [0]) else e
        ).m_outReliableCommands ∧
    (e.FinalizeDisconnect now hook).m_outReliableAcknowledged =
        (if e.m_connectionState = CS_CONNECTING ∨ e.m_connectionState = CS_ACTIVE then
          e.SendReliableCommand (cstr "msgIQuit") (e.g_disconnectReason ++ [0]) else e
        ).m_outReliableAcknowledged ∧
    (e.FinalizeDisconnect now hook).m_outReliableSequence =
        (if e.m_connectionState = CS_CONNECTING ∨ e.m_connectionState = CS_ACTIVE then
          e.SendReliableCommand (cstr "msgIQuit") (e.g_disconnectReason ++ [0]) else e
        ).m_outReliableSequence := by
  unfold FinalizeDisconnect
  split_ifs with h
  · obtain ⟨a1, a2, a3⟩ := forceSend_outbound
      (e.SendReliableCommand (cstr "msgIQuit") (e.g_disconnectReason ++ [0])) now hook
    obtain ⟨b1, b2, b3⟩ := forceSend_outbound
      ((e.SendReliableCommand (cstr "msgIQuit") (e.g_disconnectReason ++ [0])).forceSend
        now hook) now hook
    rw [finishDisconnect_outbound.1, finishDisconnect_outbound.2.1,
      finishDisconnect_outbound.2.2, b1, b2, b3, a1, a2, a3]
    exact ⟨rfl, rfl, rfl⟩
  · exact ⟨rfl, rfl, rfl⟩

theorem ConnectToServer_outbound (e : NetLibrary) (hostname : List Nat) (port now : Nat)
    (hook : List Nat) :
    (e.ConnectToServer hostname port now hook).m_outReliableCommands = [] ∧
    (e.ConnectToServer hostname port now hook).m_outReliableAcknowledged = 0 ∧
    (e.ConnectToServer hostname port now hook).m_outReliableSequence = 0 :=
  ⟨rfl, rfl, rfl⟩

theorem WindowInv_send (e : NetLibrary) (t b : List Nat) (h : WindowInv e)
    (hw : e.m_outReliableSequence + 1 < U32) : WindowInv (e.SendReliableCommand t b) := by
  unfold WindowInv at *
  rw [SendReliableCommand_seq, SendReliableCommand_store, SendReliableCommand_acked,
    Nat.mod_eq_of_lt hw]
  obtain ⟨h1, h2⟩ := h
  refine ⟨by omega, ?_⟩
  intro c hc
  rcases List.mem_append.mp hc with hc | hc
  · have := h2 c hc
    omega
  · rw [List.mem_singleton] at hc
    subst hc
    dsimp only
    omega

theorem WindowInv_message (e : NetLibrary) (msg : NetBuffer) (now : Nat) (h : WindowInv e)
    (hw : (msg.ReadUInt 4).1 ≤ e.m_outReliableSequence) :
    WindowInv (e.ProcessServerMessage msg now) := by
  obtain ⟨p1, p2, p3⟩ := ProcessServerMessage_outbound e msg now
  unfold WindowInv at *
  rw [p1, p2, p3, applyAck_store]
  obtain ⟨h1, h2⟩ := h
  refine ⟨hw, ?_⟩
  intro c hc
  split_ifs at hc with hne
  · rw [List.mem_filter] at hc
    have hid := (h2 c hc.1).2
    have hgt : ¬ c.id ≤ (msg.ReadUInt 4).1 := by simpa using hc.2
    omega
  · rw [not_not.mp hne]
    exact h2 c hc

theorem WindowInv_finalize (e : NetLibrary) (now : Nat) (hook : List Nat) (h : WindowInv e)
    (hw : e.m_outReliableSequence + 1 < U32) : WindowInv (e.FinalizeDisconnect now hook) := by
  obtain ⟨p1, p2, p3⟩ := FinalizeDisconnect_outbound e now hook
  have hs := WindowInv_send e (cstr "msgIQuit") (e.g_disconnectReason ++ [0]) h hw
  unfold WindowInv at *
  rw [p1, p2, p3]
  split_ifs
  · exact hs
  · exact h

theorem WindowInv_connect (e : NetLibrary) (hostname : List Nat) (port now : Nat)
    (hook : List Nat) : WindowInv (e.ConnectToServer hostname port now hook) := by
  obtain ⟨p1, p2, p3⟩ := ConnectToServer_outbound e hostname port now hook
  unfold WindowInv
  rw [p1, p2, p3]
  simp

theorem WindowInv_run (ops : List Op) (e : NetLibrary) (h : WindowInv e)
    (hw : wellBehavedRun e ops = true) : WindowInv (run e ops) := by
  induction ops generalizing e with
  | nil => exact h
  | cons op ops ih =>
    simp only [wellBehavedRun, Bool.and_eq_true] at hw
    obtain ⟨hop, hrest⟩ := hw
    have hstep : WindowInv (op.apply e) := by
      cases op with
      | connect hostname port now hook => exact WindowInv_connect e hostname port now hook
      | send t b =>
        exact WindowInv_send e t b h (by simpa [Op.wellBehaved] using hop)
      | serverMessage bytes sentinel now =>
        exact WindowInv_message e _ now h (by simpa [Op.wellBehaved, ackOf] using hop)
      | finalizeDisconnect now hook =>
        exact WindowInv_finalize e now hook h (by simpa [Op.wellBehaved] using hop)
    exact ih (op.apply e) hstep hrest

theorem WindowInv_create : WindowInv create := by
  simp [WindowInv, create]

/-- C2 as stated fails: a fresh engine that processes a server message with ack
`0xFFFFFFFF` and then pushes one command stores id 1 below the acknowledgement. -/
theorem C2_counterexample :
    ¬ (∀ c ∈ (run create [Op.serverMessage [255, 255, 255, 255] 0 0,
                          Op.send [109] [1]]).m_outReliableCommands,
        (run create [Op.serverMessage [255, 255, 255, 255] 0 0,
                     Op.send [109] [1]]).m_outReliableAcknowledged < c.id) := by
  decide

/-- C2 (amended): in every state reached from a fresh engine by connects, pushes,
server messages and disconnects in which each message acknowledges at most the
current sequence counter and no push wraps the 32-bit counter, every stored
command has an id above the acknowledgement. -/
theorem C2_stored_ids_above_ack (ops : List Op) (hw : wellBehavedRun create ops = true) :
    ∀ c ∈ (run create ops).m_outReliableCommands,
      (run create ops).m_outReliableAcknowledged < c.id :=
  fun c hc => ((WindowInv_run ops create WindowInv_create hw).2 c hc).1

/-- C2 (amended) at a concrete run: three pushes, ack 2, a further push. -/
theorem C2_stored_ids_above_ack_witness :
    wellBehavedRun create [Op.send [1] [10], Op.send [2] [20], Op.send [3] [],
      Op.serverMessage [2, 0, 0, 0] 0 7, Op.send [4] [40]] = true ∧
    ∀ c ∈ (run create [Op.send [1] [10], Op.send [2] [20], Op.send [3] [],
      Op.serverMessage [2, 0, 0, 0] 0 7, Op.send [4] [40]]).m_outReliableCommands,
      (run create [Op.send [1] [10], Op.send [2] [20], Op.send [3] [],
      Op.serverMessage [2, 0, 0, 0] 0 7, Op.send [4] [40]]).m_outReliableAcknowledged < c.id :=
  ⟨by decide, C2_stored_ids_above_ack _ (by decide)⟩

/-- C3 as stated fails: a fresh engine that processes a server message with ack 5
holds acknowledgement 5 above sequence counter 0. -/
theorem C3_counterexample :
    ¬ ((run create [Op.serverMessage [5, 0, 0, 0] 0 0]).m_outReliableAcknowledged ≤
       (run create [Op.serverMessage [5, 0, 0, 0] 0 0]).m_outReliableSequence) := by
  decide

/-- C3 (amended): in every state reached from a fresh engine by connects, pushes,
server messages and disconnects in which each message acknowledges at most the
current sequence counter and no push wraps the 32-bit counter, the acknowledgement
is at most the sequence counter. -/
theorem C3_ack_le_sequence (ops : List Op) (hw : wellBehavedRun create ops = true) :
    (run create ops).m_outReliableAcknowledged ≤ (run create ops).m_outReliableSequence :=
  (WindowInv_run ops create WindowInv_create hw).1

/-- C3 (amended) at a concrete run: connect, two pushes, ack 1, disconnect. -/
theorem C3_ack_le_sequence_witness :
    wellBehavedRun create [Op.connect [104] 30120 0 [], Op.send [1] [10], Op.send [2] [20],
      Op.serverMessage [1, 0, 0, 0] 0 7, Op.finalizeDisconnect 100 []] = true ∧
    (run create [Op.connect [104] 30120 0 [], Op.send [1] [10], Op.send [2] [20],
      Op.serverMessage [1, 0, 0, 0] 0 7, Op.finalizeDisconnect 100 []]).m_outReliableAcknowledged
    ≤ (run create [Op.connect [104] 30120 0 [], Op.send [1] [10], Op.send [2] [20],
      Op.serverMessage [1, 0, 0, 0] 0 7, Op.finalizeDisconnect 100 []]).m_outReliableSequence :=
  ⟨by decide, C3_ack_le_sequence _ (by decide)⟩

/-! ### Effect of one push (C8) and the overflow guard (C9) -/

/-- C8: when the overflow test passes and the sequence counter does not wrap,
`SendReliableCommand` raises the sequence counter by one, appends exactly one
command with the new id, the hash of the type name and the given payload at the
back of the store, keeps the stored commands and the acknowledgement, and reports
no error. -/
theorem C8_send_reliable_command (e : NetLibrary) (type payload : List Nat)
    (hwin : sub32 e.m_outReliableSequence e.m_outReliableAcknowledged ≤ MAX_RELIABLE_COMMANDS)
    (hseq : e.m_outReliableSequence < U32 - 1) :
    (e.SendReliableCommand type payload).m_outReliableSequence = e.m_outReliableSequence + 1 ∧
    (e.SendReliableCommand type payload).m_outReliableCommands =
      e.m_outReliableCommands ++
        [{ type := HashRageString type, id := e.m_outReliableSequence + 1, command := payload }] ∧
    (e.SendReliableCommand type payload).m_outReliableAcknowledged
      = e.m_outReliableAcknowledged ∧
    (e.SendReliableCommand type payload).events = e.events := by
  have hU : U32 = 4294967296 := rfl
  have hmod : (e.m_outReliableSequence + 1) % U32 = e.m_outReliableSequence + 1 :=
    Nat.mod_eq_of_lt (by omega)
  rw [SendReliableCommand_seq, SendReliableCommand_store, SendReliableCommand_acked,
    SendReliableCommand_events e type payload hwin, hmod]
  exact ⟨rfl, rfl, rfl, rfl⟩

/-- C8 on a store that already holds two commands; the payload has an embedded NUL. -/
theorem C8_send_reliable_command_witness :
    sub32 (sendAll create [([1], [10]), ([2], [20])]).m_outReliableSequence
      (sendAll create [([1], [10]), ([2], [20])]).m_outReliableAcknowledged
        ≤ MAX_RELIABLE_COMMANDS ∧
    ((sendAll create [([1], [10]), ([2], [20])]).SendReliableCommand (cstr "msgX")
      [7, 0, 8]).m_outReliableCommands.map (fun c => (c.id, c.command))
        = [(1, [10]), (2, [20]), (3, [7, 0, 8])] :=
  ⟨by decide, by
    rw [(C8_send_reliable_command (sendAll create [([1], [10]), ([2], [20])]) (cstr "msgX")
      [7, 0, 8] (by decide) (by decide)).2.1]
    decide⟩

theorem sub32_of_le (a b : Nat) (hb : b ≤ a) (ha : a < U32) : sub32 a b = a - b := by
  simp only [sub32, U32] at *
  omega

theorem sendAll_events (cmds : List (List Nat × List Nat)) (e : NetLibrary)
    (h0 : e.m_outReliableAcknowledged ≤ e.m_outReliableSequence)
    (hwin : e.m_outReliableSequence - e.m_outReliableAcknowledged + cmds.length
      ≤ MAX_RELIABLE_COMMANDS + 1)
    (hU : e.m_outReliableSequence + cmds.length < U32) :
    (sendAll e cmds).events = e.events := by
  induction cmds generalizing e with
  | nil => rfl
  | cons c cs ih =>
    have hlen : (c :: cs).length = cs.length + 1 := rfl
    have hmod : (e.m_outReliableSequence + 1) % U32 = e.m_outReliableSequence + 1 :=
      Nat.mod_eq_of_lt (by omega)
    have hs : sendAll e (c :: cs) = sendAll (e.SendReliableCommand c.1 c.2) cs := rfl
    have hev : (e.SendReliableCommand c.1 c.2).events = e.events :=
      SendReliableCommand_events e c.1 c.2 (by
        rw [sub32_of_le _ _ h0 (by omega)]
        omega)
    rw [hs, ih (e.SendReliableCommand c.1 c.2)
      (by rw [SendReliableCommand_seq, SendReliableCommand_acked, hmod]; omega)
      (by rw [SendReliableCommand_seq, SendReliableCommand_acked, hmod]; omega)
      (by rw [SendReliableCommand_seq, hmod]; omega), hev]

theorem numbered_length (cmds : List (List Nat × List Nat)) (s : Nat) :
    (numbered s cmds).length = cmds.length := by
  have := congrArg List.length (numbered_ids cmds s)
  simpa using this

/-- C9 fails on the code: 65 pushes on a fresh engine, with no acknowledgement in
between, report no overflow and leave `MAX_RELIABLE_COMMANDS + 1 = 65` commands in
the store. -/
theorem C9_store_exceeds_max :
    (sendAll create (List.replicate 65 ([109], [1]))).m_outReliableCommands.length
      = MAX_RELIABLE_COMMANDS + 1 ∧
    MAX_RELIABLE_COMMANDS <
      (sendAll create (List.replicate 65 ([109], [1]))).m_outReliableCommands.length ∧
    (sendAll create (List.replicate 65 ([109], [1]))).events = [] := by
  have hlen : (List.replicate 65 (([109], [1]) : List Nat × List Nat)).length = 65 :=
    List.length_replicate 65 _
  have hmax : MAX_RELIABLE_COMMANDS = 64 := rfl
  have hU : U32 = 4294967296 := rfl
  have h0 : create.m_outReliableSequence = 0 := rfl
  have h1 : create.m_outReliableAcknowledged = 0 := rfl
  have hst : create.m_outReliableCommands = [] := rfl
  obtain ⟨s1, _, _⟩ := sendAll_spec (List.replicate 65 ([109], [1])) create
    (by rw [hlen, h0, hU]; omega)
  have hev := sendAll_events (List.replicate 65 ([109], [1])) create
    (by rw [h0, h1]) (by rw [hlen, h0, h1, hmax]) (by rw [hlen, h0, hU]; omega)
  rw [s1, hev, hst, List.nil_append, numbered_length, hlen, hmax]
  exact ⟨rfl, by omega, rfl⟩

/-! ### The outbound frame (C7) -/

theorem put_written (b : NetBuffer) (bs : List Nat) : (b.put bs).written = b.written ++ bs := rfl

theorem put_capacity (b : NetBuffer) (bs : List Nat) : (b.put bs).capacity = b.capacity := rfl

theorem put_put (b : NetBuffer) (xs ys : List Nat) : (b.put xs).put ys = b.put (xs ++ ys) := by
  simp [NetBuffer.put, List.append_assoc]

theorem put_nil (b : NetBuffer) : b.put [] = b := by
  simp [NetBuffer.put]

theorem Write_fits (b : NetBuffer) (bs : List Nat)
    (h : b.written.length + bs.length ≤ b.capacity) : b.Write bs = b.put bs := by
  simp [NetBuffer.Write, NetBuffer.put, h]

theorem WriteUInt_fits (b : NetBuffer) (w v : Nat)
    (h : b.written.length + w ≤ b.capacity) : b.WriteUInt w v = b.put (leBytes w v) := by
  unfold NetBuffer.WriteUInt
  exact Write_fits b _ (by rw [leBytes_length]; exact h)

theorem Write_put (b : NetBuffer) (xs ys : List Nat)
    (h : b.written.length + xs.length + ys.length ≤ b.capacity) :
    (b.put xs).Write ys = b.put (xs ++ ys) := by
  rw [Write_fits _ _ (by rw [put_written, put_capacity, List.length_append]; exact h), put_put]

theorem WriteUInt_put (b : NetBuffer) (xs : List Nat) (w v : Nat)
    (h : b.written.length + xs.length + w ≤ b.capacity) :
    (b.put xs).WriteUInt w v = b.put (xs ++ leBytes w v) := by
  unfold NetBuffer.WriteUInt
  exact Write_put b xs _ (by rw [leBytes_length]; exact h)

theorem writeRoute_fits (b : NetBuffer) (p : RoutingPacket)
    (h : b.written.length + (layoutRoute p).length ≤ b.capacity) :
    writeRoute b p = b.put (layoutRoute p) := by
  simp only [layoutRoute, List.length_append, leBytes_length] at h
  unfold writeRoute
  rw [WriteUInt_fits b 4 _ (by omega),
    WriteUInt_put b _ 2 _ (by rw [leBytes_length]; omega),
    WriteUInt_put b _ 2 _ (by simp only [List.length_append, leBytes_length]; omega),
    Write_put b _ _ (by simp only [List.length_append, leBytes_length]; omega)]
  rfl

theorem writeReliable_fits (b : NetBuffer) (c : OutReliableCommand)
    (h : b.written.length + (layoutReliable c).length ≤ b.capacity) :
    writeReliable b c = b.put (layoutReliable c) := by
  unfold layoutReliable at h
  unfold writeReliable layoutReliable
  dsimp only
  have hU : UINT16_MAX = 65535 := rfl
  rw [hU]
  split_ifs with hl
  · rw [if_pos hl] at h
    simp only [List.length_append, leBytes_length] at h
    rw [WriteUInt_fits b 4 _ (by omega),
      WriteUInt_put b _ 4 _ (by rw [leBytes_length]; omega),
      WriteUInt_put b _ 4 _ (by simp only [List.length_append, leBytes_length]; omega),
      Write_put b _ _ (by simp only [List.length_append, leBytes_length]; omega)]
    simp only [List.append_assoc]
  · rw [if_neg hl] at h
    simp only [List.length_append, leBytes_length] at h
    rw [WriteUInt_fits b 4 _ (by omega),
      WriteUInt_put b _ 4 _ (by rw [leBytes_length]; omega),
      WriteUInt_put b _ 2 _ (by simp only [List.length_append, leBytes_length]; omega),
      Write_put b _ _ (by simp only [List.length_append, leBytes_length]; omega)]
    simp only [List.append_assoc]

theorem foldl_writeRoute_fits (ps : List RoutingPacket) (b : NetBuffer)
    (h : b.written.length + ((ps.map layoutRoute).flatten).length ≤ b.capacity) :
    ps.foldl writeRoute b = b.put (ps.map layoutRoute).flatten := by
  induction ps generalizing b with
  | nil => simp [put_nil]
  | cons p ps ih =>
    simp only [List.map_cons, List.flatten_cons, List.length_append] at h
    rw [List.foldl_cons, writeRoute_fits b p (by omega),
      ih _ (by rw [put_written, put_capacity, List.length_append]; omega), put_put]
    simp

theorem foldl_writeReliable_fits (cs : List OutReliableCommand) (b : NetBuffer)
    (h : b.written.length + ((cs.map layoutReliable).flatten).length ≤ b.capacity) :
    cs.foldl writeReliable b = b.put (cs.map layoutReliable).flatten := by
  induction cs generalizing b with
  | nil => simp [put_nil]
  | cons c cs ih =>
    simp only [List.map_cons, List.flatten_cons, List.length_append] at h
    rw [List.foldl_cons, writeReliable_fits b c (by omega),
      ih _ (by rw [put_written, put_capacity, List.length_append]; omega), put_put]
    simp

theorem buildFrame_fits (e : NetLibrary) (hook : List Nat)
    (h : (frameLayout e hook).length ≤ 24000) :
    (buildFrame e hook).written = frameLayout e hook := by
  unfold frameLayout at h
  simp only [List.length_append, leBytes_length] at h
  generalize hb : NetBuffer.ofCapacity 24000 = b0
  have hcap : b0.capacity = 24000 := by rw [← hb]; rfl
  have hwr : b0.written = [] := by rw [← hb]; rfl
  have h0 : b0.written.length = 0 := by rw [hwr]; rfl
  have e1 : (if e.m_serverProtocol ≥ 2 then
        (b0.WriteUInt 4 e.m_lastReceivedReliableCommand).WriteUInt 4 e.m_lastFrameNumber
      else b0.WriteUInt 4 e.m_lastReceivedReliableCommand)
      = b0.put (leBytes 4 e.m_lastReceivedReliableCommand ++
          (if e.m_serverProtocol ≥ 2 then leBytes 4 e.m_lastFrameNumber else [])) := by
    rw [WriteUInt_fits b0 4 _ (by rw [h0, hcap]; omega)]
    split_ifs with hp
    · rw [if_pos hp, leBytes_length] at h
      rw [WriteUInt_put b0 _ 4 _ (by rw [h0, hcap, leBytes_length]; omega)]
    · rw [List.append_nil]
  have e2 := foldl_writeRoute_fits e.m_outgoingPackets
    (b0.put (leBytes 4 e.m_lastReceivedReliableCommand ++
      (if e.m_serverProtocol ≥ 2 then leBytes 4 e.m_lastFrameNumber else [])))
    (by
      rw [put_written, put_capacity, hwr, hcap]
      simp only [List.nil_append, List.length_append, leBytes_length]; omega)
  rw [put_put] at e2
  have e3 := foldl_writeReliable_fits e.m_outReliableCommands
    (b0.put ((leBytes 4 e.m_lastReceivedReliableCommand ++
      (if e.m_serverProtocol ≥ 2 then leBytes 4 e.m_lastFrameNumber else [])) ++
      (e.m_outgoingPackets.map layoutRoute).flatten))
    (by
      rw [put_written, put_capacity, hwr, hcap]
      simp only [List.nil_append, List.length_append, leBytes_length]; omega)
  rw [put_put] at e3
  unfold buildFrame frameLayout
  dsimp only
  rw [hb, e1, e2, e3,
    Write_put b0 _ _ (by
      rw [h0, hcap]
      simp only [List.length_append, leBytes_length]; omega),
    WriteUInt_put b0 _ 4 _ (by
      rw [h0, hcap]
      simp only [List.length_append, leBytes_length]; omega),
    put_written, hwr]
  simp [MSG_END, List.append_assoc]

theorem length_le_flatten_map {α : Type} (f : α → List Nat) (xs : List α) (x : α)
    (hx : x ∈ xs) : (f x).length ≤ ((xs.map f).flatten).length := by
  induction xs with
  | nil => cases hx
  | cons y ys ih =>
    simp only [List.map_cons, List.flatten_cons, List.length_append]
    rcases List.mem_cons.mp hx with hxy | hxy
    · subst hxy
      omega
    · have := ih hxy
      omega

theorem leValue_leBytes_two (n : Nat) (h : n < 65536) : leValue (leBytes 2 n) = n := by
  rw [leValue_leBytes]
  exact Nat.mod_eq_of_lt (by norm_num; exact h)

/-- C7: for a `CS_ACTIVE` engine whose send cadence permits a send and whose frame
fits the 24000-byte buffer, `ProcessSend` hands exactly the specified layout to the
net channel (with every 16-bit length field holding the exact payload length),
empties the outgoing routing queue and leaves the reliable store unchanged. -/
theorem C7_outbound_frame_layout (e : NetLibrary) (now : Nat) (hook : List Nat)
    (hactive : e.m_connectionState = CS_ACTIVE)
    (hcadence : sub32 now e.m_lastSend ≥ 1000 / 60)
    (hfits : (frameLayout e hook).length ≤ 24000) :
    (e.ProcessSend now hook).events = e.events ++ [Event.NetChannelSend (frameLayout e hook)] ∧
    (e.ProcessSend now hook).m_outgoingPackets = [] ∧
    (e.ProcessSend now hook).m_outReliableCommands = e.m_outReliableCommands ∧
    (∀ p ∈ e.m_outgoingPackets, leValue (leBytes 2 p.payload.length) = p.payload.length) ∧
    (∀ c ∈ e.m_outReliableCommands,
      ¬ c.command.length > 65535 ∧ leValue (leBytes 2 c.command.length) = c.command.length) := by
  have hframe := buildFrame_fits e hook hfits
  have hsend : e.ProcessSend now hook =
      { e with
        m_outgoingPackets := [],
        m_lastSend := now,
        events := e.events ++ [Event.NetChannelSend (buildFrame e hook).written] } := by
    unfold ProcessSend
    rw [if_neg (not_not.mpr hcadence), if_neg (not_not.mpr hactive)]
  rw [hsend, hframe]
  refine ⟨rfl, rfl, rfl, ?_, ?_⟩
  · intro p hp
    have h1 := length_le_flatten_map layoutRoute e.m_outgoingPackets p hp
    unfold frameLayout at hfits
    simp only [List.length_append, leBytes_length] at hfits
    simp only [layoutRoute, List.length_append, leBytes_length] at h1
    exact leValue_leBytes_two _ (by omega)
  · intro c hc
    have h1 := length_le_flatten_map layoutReliable e.m_outReliableCommands c hc
    unfold frameLayout at hfits
    simp only [List.length_append, leBytes_length] at hfits
    simp only [layoutReliable, List.length_append, leBytes_length] at h1
    have hlen : c.command.length < 65536 := by omega
    exact ⟨by omega, leValue_leBytes_two _ hlen⟩

/-- C7 on an engine with one queued routing packet and two pending commands,
protocol 2, with one byte appended by `OnBuildMessage`. -/
theorem C7_outbound_frame_layout_witness :
    (sampleSender.ProcessSend 100 [42]).events =
      [Event.NetChannelSend
        [5, 0, 0, 0, 9, 0, 0, 0,
         91, 68, 56, 233, 7, 0, 3, 0, 1, 2, 3,
         66, 148, 46, 202, 1, 0, 0, 0, 2, 0, 4, 5,
         155, 129, 219, 0, 2, 0, 0, 0, 0, 0,
         42,
         99, 158, 86, 202]] := by
  rw [(C7_outbound_frame_layout sampleSender 100 [42] (by decide) (by decide) (by decide)).1]
  decide

/-! ### Inbound reliable ids only climb (C10) -/

theorem climbs_append (ids1 ids2 : List Nat) (a b c : Nat) (h1 : climbs a ids1 b)
    (h2 : climbs b ids2 c) : climbs a (ids1 ++ ids2) c := by
  induction ids1 generalizing a with
  | nil =>
    simp only [climbs] at h1
    subst h1
    simpa using h2
  | cons i ids ih =>
    simp only [climbs] at h1
    exact ⟨h1.1, ih i h1.2⟩

theorem climbs_le (ids : List Nat) (a b : Nat) (h : climbs a ids b) : a ≤ b := by
  induction ids generalizing a with
  | nil => simp only [climbs] at h; omega
  | cons i ids ih =>
    simp only [climbs] at h
    have := ih i h.2
    omega

theorem climbs_chain (ids : List Nat) (a b : Nat) (h : climbs a ids b) :
    List.Chain (· < ·) a ids ∧ b = (ids.getLast?).getD a := by
  induction ids generalizing a with
  | nil => simp only [climbs] at h; simp [h]
  | cons i ids ih =>
    simp only [climbs] at h
    obtain ⟨hc, hl⟩ := ih i h.2
    refine ⟨List.Chain.cons h.1 hc, ?_⟩
    rw [hl]
    cases ids with
    | nil => simp
    | cons j js =>
      rw [List.getLast?_cons_cons, List.getLast?_eq_getLast _ (List.cons_ne_nil j js)]
      rfl

theorem Advances_refl (a : NetLibrary) : Advances a a :=
  ⟨[], by simp, rfl⟩

theorem Advances_of_eq {a b : NetLibrary} (h1 : b.events = a.events)
    (h2 : b.m_lastReceivedReliableCommand = a.m_lastReceivedReliableCommand) : Advances a b :=
  ⟨[], by simp [h1], h2⟩

theorem Advances_trans {a b c : NetLibrary} (h1 : Advances a b) (h2 : Advances b c) :
    Advances a c := by
  obtain ⟨i1, e1, c1⟩ := h1
  obtain ⟨i2, e2, c2⟩ := h2
  exact ⟨i1 ++ i2, by rw [e2, e1, List.append_assoc], climbs_append i1 i2 _ _ _ c1 c2⟩

theorem dispatchedIds_handlers (hs : List (Nat × Nat)) (buf : List Nat) :
    dispatchedIds (hs.map (fun h => Event.ReliableHandler h.2 buf)) = [] := by
  induction hs with
  | nil => rfl
  | cons h hs ih => simp [dispatchedIds]

theorem dispatchReliable_advances (e : NetLibrary) (t id : Nat) (buf : List Nat) :
    Advances e (dispatchReliable e t id buf) := by
  unfold dispatchReliable
  split_ifs with h
  · refine ⟨[id], ?_, ⟨h, rfl⟩⟩
    show dispatchedIds ((e.events ++ [Event.ReliableDispatch t id buf]) ++ _) = _
    unfold dispatchedIds
    rw [List.filterMap_append, List.filterMap_append]
    have := dispatchedIds_handlers
      ((e.emit (Event.ReliableDispatch t id buf)).m_reliableHandlers.filter
        (fun h => h.1 == t)) buf
    unfold dispatchedIds at this
    rw [this]
    simp
  · exact Advances_refl e

theorem parseRoute_advances (e : NetLibrary) (msg : NetBuffer) (now : Nat) :
    Advances e (parseRoute e msg now).engine := by
  unfold parseRoute
  dsimp only
  split
  · exact Advances_refl e
  · exact Advances_of_eq rfl rfl

theorem parseFrame_advances (e : NetLibrary) (msg : NetBuffer) :
    Advances e (parseFrame e msg).engine := by
  unfold parseFrame
  dsimp only
  split_ifs
  · exact Advances_of_eq rfl rfl
  · exact Advances_of_eq rfl rfl

theorem parseReliable_advances (e : NetLibrary) (t : Nat) (msg : NetBuffer) :
    Advances e (parseReliable e t msg).engine := by
  unfold parseReliable
  dsimp only
  generalize readReliableHeader msg = hd
  split_ifs
  · exact Advances_refl e
  · split
    · exact Advances_refl e
    · exact dispatchReliable_advances _ _ _ _

theorem parseStep_advances (e : NetLibrary) (msg : NetBuffer) (now : Nat) :
    Advances e (parseStep e msg now).engine := by
  unfold parseStep
  dsimp only
  split_ifs
  · exact Advances_refl e
  · exact parseRoute_advances _ _ _
  · exact parseFrame_advances _ _
  · exact parseReliable_advances _ _ _
  · exact Advances_refl e

theorem parseLoop_advances (fuel : Nat) (e : NetLibrary) (msg : NetBuffer) (now : Nat)
    (r : NetLibrary) (h : parseLoop fuel e msg now = some r) : Advances e r := by
  induction fuel generalizing e msg with
  | zero => simp [parseLoop] at h
  | succ n ih =>
    have hs := parseStep_advances e msg now
    unfold parseLoop at h
    split at h
    · rename_i e1 heq
      rw [heq] at hs
      cases h
      exact hs
    · rename_i e1 m1 heq
      rw [heq] at hs
      exact Advances_trans hs (ih e1 m1 h)

theorem applyAck_inbound (e : NetLibrary) (a : Nat) :
    (applyAck e a).events = e.events ∧
    (applyAck e a).m_lastReceivedReliableCommand = e.m_lastReceivedReliableCommand ∧
    (applyAck e a).m_connectionState = e.m_connectionState ∧
    (applyAck e a).m_serverProtocol = e.m_serverProtocol := by
  unfold applyAck
  split_ifs <;> exact ⟨rfl, rfl, rfl, rfl⟩

theorem promote_inbound (e : NetLibrary) :
    (promote e).events = e.events ∧
    (promote e).m_lastReceivedReliableCommand = e.m_lastReceivedReliableCommand ∧
    (promote e).m_serverProtocol = e.m_serverProtocol := by
  unfold promote
  split_ifs <;> exact ⟨rfl, rfl, rfl⟩

theorem ackPhase_inbound (e : NetLibrary) (a now : Nat) :
    (e.ackPhase a now).events = e.events ∧
    (e.ackPhase a now).m_lastReceivedReliableCommand = e.m_lastReceivedReliableCommand ∧
    (e.ackPhase a now).m_serverProtocol = e.m_serverProtocol := by
  unfold ackPhase
  rw [(promote_inbound _).1, (promote_inbound _).2.1, (promote_inbound _).2.2,
    (applyAck_inbound _ _).1, (applyAck_inbound _ _).2.1, (applyAck_inbound _ _).2.2.2]
  exact ⟨rfl, rfl, rfl⟩

theorem ProcessServerMessage_advances (e : NetLibrary) (msg : NetBuffer) (now : Nat) :
    Advances e (e.ProcessServerMessage msg now) := by
  have h0 : Advances e (e.ackPhase (msg.ReadUInt 4).1 now) :=
    Advances_of_eq (ackPhase_inbound _ _ _).1 (ackPhase_inbound _ _ _).2.1
  unfold ProcessServerMessage
  dsimp only
  split_ifs
  · exact h0
  · cases h : parseLoop ((msg.ReadUInt 4).2.unread.length / 4 + 2)
      (e.ackPhase (msg.ReadUInt 4).1 now) (msg.ReadUInt 4).2 now with
    | none => exact h0
    | some r => exact Advances_trans h0 (parseLoop_advances _ _ _ _ _ h)

theorem processAll_append (e : NetLibrary) (xs ys : List (List Nat × Nat × Nat)) :
    processAll e (xs ++ ys) = processAll (processAll e xs) ys := by
  simp [processAll, List.foldl_append]

theorem processAll_advances (msgs : List (List Nat × Nat × Nat)) (e : NetLibrary) :
    Advances e (processAll e msgs) := by
  induction msgs generalizing e with
  | nil => exact Advances_refl e
  | cons m ms ih =>
    exact Advances_trans
      (ProcessServerMessage_advances e (NetBuffer.ofBytes m.1 m.2.1) m.2.2) (ih _)

/-- C10: over any sequence of `ProcessServerMessage` calls, the last received
reliable id never decreases from one call to a later one, the ids handed to the
reliable handlers climb strictly (each above the one before and above the id held
at the start), and the last received id equals the id dispatched last; the dispatch
block itself leaves the last received id at the id it has just dispatched. -/
theorem C10_inbound_ids_monotone (e : NetLibrary) (msgs : List (List Nat × Nat × Nat)) :
    (∀ j k, j ≤ k →
      (processAll e (msgs.take j)).m_lastReceivedReliableCommand ≤
        (processAll e (msgs.take k)).m_lastReceivedReliableCommand) ∧
    (∃ ids, dispatchedIds (processAll e msgs).events = dispatchedIds e.events ++ ids ∧
      List.Chain (· < ·) e.m_lastReceivedReliableCommand ids ∧
      (processAll e msgs).m_lastReceivedReliableCommand =
        (ids.getLast?).getD e.m_lastReceivedReliableCommand) ∧
    (∀ (a : NetLibrary) (t id : Nat) (buf : List Nat),
      a.m_lastReceivedReliableCommand < id →
        (dispatchReliable a t id buf).m_lastReceivedReliableCommand = id) := by
  refine ⟨?_, ?_, ?_⟩
  rotate_left 2
  · intro a t id buf h
    unfold dispatchReliable
    rw [if_pos h]
  · intro j k hjk
    have hsplit : msgs.take k = msgs.take j ++ (msgs.take k).drop j := by
      have : (msgs.take k).take j = msgs.take j := by
        rw [List.take_take, Nat.min_eq_left hjk]
      rw [← this, List.take_append_drop]
    rw [hsplit, processAll_append]
    obtain ⟨ids, _, hc⟩ := processAll_advances ((msgs.take k).drop j) (processAll e (msgs.take j))
    exact climbs_le ids _ _ hc
  · obtain ⟨ids, hd, hc⟩ := processAll_advances msgs e
    exact ⟨ids, hd, (climbs_chain ids _ _ hc).1, (climbs_chain ids _ _ hc).2⟩

/-! ### The parse loop leaves within its fuel -/

theorem Behind_refl (b : NetBuffer) : Behind b b := ⟨le_refl _, id⟩

theorem Behind_trans {a b c : NetBuffer} (h1 : Behind a b) (h2 : Behind b c) : Behind a c :=
  ⟨le_trans h1.1 h2.1, fun h => h1.2 (h2.2 h)⟩

theorem ReadBytes_behind (b : NetBuffer) (n : Nat) : Behind (b.ReadBytes n).2 b := by
  unfold NetBuffer.ReadBytes
  split_ifs
  · exact ⟨by simp, id⟩
  · exact ⟨le_refl _, fun _ => rfl⟩

theorem ReadUInt_snd (w : Nat) (b : NetBuffer) : (b.ReadUInt w).2 = (b.ReadBytes w).2 := by
  unfold NetBuffer.ReadUInt
  split <;> simp_all

theorem ReadUInt_behind (w : Nat) (b : NetBuffer) : Behind (b.ReadUInt w).2 b := by
  rw [ReadUInt_snd]
  exact ReadBytes_behind b w

theorem remainingPasses_mono {b1 b : NetBuffer} (h : Behind b1 b) :
    remainingPasses b1 ≤ remainingPasses b := by
  unfold remainingPasses NetBuffer.End
  obtain ⟨h1, h2⟩ := h
  by_cases hx : b.exhausted = true
  · simp [h2 hx]
  · by_cases hx1 : b1.exhausted = true
    · simp [hx1]
    · cases hb1 : b1.unread with
      | nil => simp
      | cons x xs =>
        cases hb : b.unread with
        | nil => rw [hb1, hb] at h1; simp at h1
        | cons y ys =>
          rw [hb1, hb] at h1
          simp only [Bool.not_eq_true] at hx hx1
          simp only [hx, hx1, List.isEmpty_cons, Bool.or_self, Bool.false_eq_true, if_false]
          have := Nat.div_le_div_right (c := 4) h1
          omega

theorem ReadUInt_four_lt (b : NetBuffer) (h : b.End = false) :
    remainingPasses (b.ReadUInt 4).2 < remainingPasses b := by
  rw [ReadUInt_snd]
  unfold NetBuffer.End at h
  simp only [Bool.or_eq_false_iff] at h
  obtain ⟨hx, hne⟩ := h
  unfold NetBuffer.ReadBytes
  split_ifs with hlen
  · unfold remainingPasses NetBuffer.End
    simp only [hx, hne, Bool.or_self, Bool.false_eq_true, if_false, Bool.false_or]
    split_ifs
    · omega
    · simp only [List.length_drop]
      omega
  · unfold remainingPasses NetBuffer.End
    simp [hx, hne]

theorem readReliableHeader_behind (msg : NetBuffer) : Behind (readReliableHeader msg).rest msg := by
  unfold readReliableHeader
  dsimp only
  split_ifs
  · exact Behind_trans (ReadUInt_behind 4 _) (ReadUInt_behind 4 msg)
  · exact Behind_trans (ReadUInt_behind 2 _) (ReadUInt_behind 4 msg)

theorem parseRoute_behind (e e1 : NetLibrary) (msg m1 : NetBuffer) (now : Nat)
    (h : parseRoute e msg now = ParseStep.next e1 m1) : Behind m1 msg := by
  unfold parseRoute at h
  dsimp only at h
  split at h
  · cases h
  · injection h with _ hm
    rw [← hm]
    exact Behind_trans (ReadBytes_behind _ _)
      (Behind_trans (ReadUInt_behind 2 _) (ReadUInt_behind 2 msg))

theorem parseFrame_behind (e e1 : NetLibrary) (msg m1 : NetBuffer)
    (h : parseFrame e msg = ParseStep.next e1 m1) : Behind m1 msg := by
  unfold parseFrame at h
  dsimp only at h
  split_ifs at h
  · injection h with _ hm
    rw [← hm]
    exact Behind_trans (ReadUInt_behind 4 _) (ReadUInt_behind 4 msg)
  · injection h with _ hm
    rw [← hm]
    exact ReadUInt_behind 4 msg

theorem parseReliable_behind (e e1 : NetLibrary) (t : Nat) (msg m1 : NetBuffer)
    (h : parseReliable e t msg = ParseStep.next e1 m1) : Behind m1 msg := by
  unfold parseReliable at h
  dsimp only at h
  split_ifs at h
  split at h
  · cases h
  · injection h with _ hm
    rw [← hm]
    exact Behind_trans (ReadBytes_behind _ _) (readReliableHeader_behind msg)

theorem parseStep_next_lt (e e1 : NetLibrary) (msg m1 : NetBuffer) (now : Nat)
    (h : parseStep e msg now = ParseStep.next e1 m1) :
    remainingPasses m1 < remainingPasses msg := by
  unfold parseStep at h
  dsimp only at h
  split_ifs at h with hend
  · exact lt_of_le_of_lt (remainingPasses_mono (parseRoute_behind _ _ _ _ _ h))
      (ReadUInt_four_lt msg (by simpa using hend))
  · exact lt_of_le_of_lt (remainingPasses_mono (parseFrame_behind _ _ _ _ h))
      (ReadUInt_four_lt msg (by simpa using hend))
  · exact lt_of_le_of_lt (remainingPasses_mono (parseReliable_behind _ _ _ _ _ h))
      (ReadUInt_four_lt msg (by simpa using hend))

/-- The parse loop leaves within the passes it is given: with more fuel than
`remainingPasses` it returns a result. -/
theorem parseLoop_total (fuel : Nat) (e : NetLibrary) (msg : NetBuffer) (now : Nat)
    (h : remainingPasses msg < fuel) : ∃ r, parseLoop fuel e msg now = some r := by
  induction fuel generalizing e msg with
  | zero => omega
  | succ n ih =>
    unfold parseLoop
    cases hs : parseStep e msg now with
    | stop e1 => exact ⟨e1, rfl⟩
    | next e1 m1 =>
      have := parseStep_next_lt e e1 msg m1 now hs
      exact ih e1 m1 (by omega)

theorem remainingPasses_le (b : NetBuffer) : remainingPasses b ≤ b.unread.length / 4 + 1 := by
  unfold remainingPasses
  split_ifs <;> omega

/-- When the engine is active after the acknowledgement part, the result of
`ProcessServerMessage` is the result of the parse loop. -/
theorem ProcessServerMessage_active (e : NetLibrary) (msg : NetBuffer) (now : Nat)
    (h : (e.ackPhase (msg.ReadUInt 4).1 now).m_connectionState = CS_ACTIVE) :
    parseLoop ((msg.ReadUInt 4).2.unread.length / 4 + 2)
        (e.ackPhase (msg.ReadUInt 4).1 now) (msg.ReadUInt 4).2 now
      = some (e.ProcessServerMessage msg now) := by
  obtain ⟨r, hr⟩ := parseLoop_total ((msg.ReadUInt 4).2.unread.length / 4 + 2)
    (e.ackPhase (msg.ReadUInt 4).1 now)
    (msg.ReadUInt 4).2 now (by have := remainingPasses_le (msg.ReadUInt 4).2; omega)
  rw [hr]
  unfold ProcessServerMessage
  dsimp only
  rw [if_neg (not_not.mpr h), hr]
  rfl

theorem ProcessServerMessage_inactive (e : NetLibrary) (msg : NetBuffer) (now : Nat)
    (h : (e.ackPhase (msg.ReadUInt 4).1 now).m_connectionState ≠ CS_ACTIVE) :
    e.ProcessServerMessage msg now = e.ackPhase (msg.ReadUInt 4).1 now := by
  unfold ProcessServerMessage
  dsimp only
  rw [if_pos h]

/-! ### Replaying a message (C4) -/

theorem dispatchReliable_last_ge (e : NetLibrary) (t id : Nat) (buf : List Nat) :
    id ≤ (dispatchReliable e t id buf).m_lastReceivedReliableCommand := by
  unfold dispatchReliable
  split_ifs with h
  · exact le_refl _
  · omega

theorem dispatchReliable_of_le (e : NetLibrary) (t id : Nat) (buf : List Nat)
    (h : id ≤ e.m_lastReceivedReliableCommand) : dispatchReliable e t id buf = e := by
  unfold dispatchReliable
  rw [if_neg (by omega)]

theorem parseStep_stop_eq (e e1 : NetLibrary) (msg : NetBuffer) (now : Nat)
    (h : parseStep e msg now = ParseStep.stop e1) : e1 = e := by
  unfold parseStep at h
  dsimp only at h
  split_ifs at h
  · injection h with h; exact h.symm
  · unfold parseRoute at h
    dsimp only at h
    split at h
    · injection h with h; exact h.symm
    · cases h
  · unfold parseFrame at h
    dsimp only at h
    split_ifs at h
  · unfold parseReliable at h
    dsimp only at h
    split_ifs at h
    · injection h with h; exact h.symm
    · split at h
      · injection h with h; exact h.symm
      · cases h
  · injection h with h; exact h.symm

/-- A second engine that agrees with the first on the last received id leaves the
loop where the first one does. -/
theorem parseStep_stop_replay (eA eB x : NetLibrary) (msg : NetBuffer) (now1 now2 : Nat)
    (hl : eB.m_lastReceivedReliableCommand = eA.m_lastReceivedReliableCommand)
    (h : parseStep eA msg now1 = ParseStep.stop x) :
    parseStep eB msg now2 = ParseStep.stop eB := by
  unfold parseStep at h ⊢
  dsimp only at h ⊢
  split_ifs at h ⊢
  · rfl
  · unfold parseRoute at h ⊢
    dsimp only at h ⊢
    split at h
    · rfl
    · cases h
  · unfold parseFrame at h
    dsimp only at h
    split_ifs at h
  · unfold parseReliable at h ⊢
    dsimp only at h ⊢
    rw [hl]
    split_ifs at h ⊢
    · rfl
    · split at h
      · rfl
      · cases h
  · rfl

/-- A second engine whose last received id is at least the id that the first one
holds after its pass neither dispatches nor changes in its own pass, and reads on
from the same place. -/
theorem parseStep_next_replay (eA eB eA1 eB1 : NetLibrary) (msg mA mB : NetBuffer)
    (now1 now2 : Nat)
    (hp : eB.m_serverProtocol = eA.m_serverProtocol)
    (hl : eA1.m_lastReceivedReliableCommand ≤ eB.m_lastReceivedReliableCommand)
    (hA : parseStep eA msg now1 = ParseStep.next eA1 mA)
    (hB : parseStep eB msg now2 = ParseStep.next eB1 mB) :
    mB = mA ∧ eB1.events = eB.events ∧
      eB1.m_lastReceivedReliableCommand = eB.m_lastReceivedReliableCommand := by
  unfold parseStep at hA hB
  dsimp only at hA hB
  split_ifs at hA hB
  · unfold parseRoute at hA hB
    dsimp only at hA hB
    split at hA
    · cases hA
    · rename_i buf hbuf
      rw [hbuf] at hB
      injection hA with _ hmA
      injection hB with heB hmB
      rw [← heB, ← hmA, ← hmB]
      exact ⟨rfl, rfl, rfl⟩
  · unfold parseFrame at hA hB
    dsimp only at hA hB
    rw [hp] at hB
    split_ifs at hA hB
    · injection hA with _ hmA
      injection hB with heB hmB
      rw [← heB, ← hmA, ← hmB]
      exact ⟨rfl, rfl, rfl⟩
    · injection hA with _ hmA
      injection hB with heB hmB
      rw [← heB, ← hmA, ← hmB]
      exact ⟨rfl, rfl, rfl⟩
  · unfold parseReliable at hA hB
    dsimp only at hA hB
    split_ifs at hA hB
    split at hA
    · cases hA
    · rename_i buf hbuf
      rw [hbuf] at hB
      injection hA with heA hmA
      injection hB with heB hmB
      have hid := dispatchReliable_last_ge eA (msg.ReadUInt 4).1
        (readReliableHeader (msg.ReadUInt 4).2).id buf
      rw [heA] at hid
      rw [dispatchReliable_of_le eB _ _ _ (le_trans hid hl)] at heB
      rw [← heB, ← hmA, ← hmB]
      exact ⟨rfl, rfl, rfl⟩

theorem parseLoop_replay (fuel : Nat) (eA eB rA rB : NetLibrary) (msg : NetBuffer)
    (now1 now2 : Nat)
    (hp : eB.m_serverProtocol = eA.m_serverProtocol)
    (hl : eB.m_lastReceivedReliableCommand = rA.m_lastReceivedReliableCommand)
    (hA : parseLoop fuel eA msg now1 = some rA)
    (hB : parseLoop fuel eB msg now2 = some rB) :
    rB.events = eB.events ∧
      rB.m_lastReceivedReliableCommand = eB.m_lastReceivedReliableCommand := by
  induction fuel generalizing eA eB msg with
  | zero => simp [parseLoop] at hA
  | succ n ih =>
    unfold parseLoop at hA hB
    cases hsA : parseStep eA msg now1 with
    | stop x =>
      rw [hsA] at hA
      injection hA with hA
      have hx := parseStep_stop_eq eA x msg now1 hsA
      rw [← hA, hx] at hl
      rw [parseStep_stop_replay eA eB x msg now1 now2 hl hsA] at hB
      injection hB with hB
      rw [← hB]
      exact ⟨rfl, rfl⟩
    | next eA1 mA =>
      rw [hsA] at hA
      dsimp only at hA
      cases hsB : parseStep eB msg now2 with
      | stop y =>
        rw [hsB] at hB
        injection hB with hB
        rw [← hB, parseStep_stop_eq eB y msg now2 hsB]
        exact ⟨rfl, rfl⟩
      | next eB1 mB =>
        rw [hsB] at hB
        dsimp only at hB
        obtain ⟨ids, _, hc⟩ := parseLoop_advances n eA1 mA now1 rA hA
        have hle := climbs_le ids _ _ hc
        obtain ⟨hm, hev, hlast⟩ := parseStep_next_replay eA eB eA1 eB1 msg mA mB now1 now2 hp
          (by rw [hl]; exact hle) hsA hsB
        have hpA : eA1.m_serverProtocol = eA.m_serverProtocol := by
          have := parseStep_untouched eA msg now1
          rw [hsA] at this
          exact this.2.2.2.2.1
        have hpB : eB1.m_serverProtocol = eB.m_serverProtocol := by
          have := parseStep_untouched eB msg now2
          rw [hsB] at this
          exact this.2.2.2.2.1
        rw [hm] at hB
        obtain ⟨r1, r2⟩ := ih eA1 eB1 mA (by rw [hpB, hpA, hp]) (by rw [hlast, hl]) hA hB
        rw [r1, r2, hev, hlast]
        exact ⟨rfl, rfl⟩

theorem promote_state (e : NetLibrary) :
    (promote e).m_connectionState =
      if e.m_connectionState = CS_CONNECTED then CS_ACTIVE else e.m_connectionState := by
  unfold promote
  split_ifs <;> rfl

theorem ackPhase_state (e : NetLibrary) (a now : Nat) :
    (e.ackPhase a now).m_connectionState =
      if e.m_connectionState = CS_CONNECTED then CS_ACTIVE else e.m_connectionState := by
  unfold ackPhase
  rw [promote_state, (applyAck_inbound _ _).2.2.1]

/-- C4: running `ProcessServerMessage` twice in succession on the same decoded
message makes no outgoing call during the second run (in particular no reliable
handler is invoked) and leaves the last received reliable id as the first run set
it. -/
theorem C4_replay_is_silent (e : NetLibrary) (bytes : List Nat) (sentinel now1 now2 : Nat) :
    ((e.ProcessServerMessage (NetBuffer.ofBytes bytes sentinel) now1).ProcessServerMessage
        (NetBuffer.ofBytes bytes sentinel) now2).events
      = (e.ProcessServerMessage (NetBuffer.ofBytes bytes sentinel) now1).events ∧
    ((e.ProcessServerMessage (NetBuffer.ofBytes bytes sentinel) now1).ProcessServerMessage
        (NetBuffer.ofBytes bytes sentinel) now2).m_lastReceivedReliableCommand
      = (e.ProcessServerMessage (NetBuffer.ofBytes bytes sentinel) now1
        ).m_lastReceivedReliableCommand := by
  generalize hmsg : NetBuffer.ofBytes bytes sentinel = msg
  generalize he1 : e.ProcessServerMessage msg now1 = e1
  have hu1 := ProcessServerMessage_untouched e msg now1
  rw [he1] at hu1
  have hst1 : e1.m_connectionState = (e.ackPhase (msg.ReadUInt 4).1 now1).m_connectionState :=
    hu1.2.2.2.1
  have hst2 := ackPhase_state e1 (msg.ReadUInt 4).1 now2
  by_cases hact : (e.ackPhase (msg.ReadUInt 4).1 now1).m_connectionState = CS_ACTIVE
  · have hA := ProcessServerMessage_active e msg now1 hact
    rw [he1] at hA
    have hact2 : (e1.ackPhase (msg.ReadUInt 4).1 now2).m_connectionState = CS_ACTIVE := by
      rw [hst2, hst1, hact]
      rfl
    have hB := ProcessServerMessage_active e1 msg now2 hact2
    obtain ⟨q1, q2, q3⟩ := ackPhase_inbound e1 (msg.ReadUInt 4).1 now2
    obtain ⟨r1, r2⟩ := parseLoop_replay _ (e.ackPhase (msg.ReadUInt 4).1 now1)
      (e1.ackPhase (msg.ReadUInt 4).1 now2) e1 _ (msg.ReadUInt 4).2 now1 now2
      (by rw [q3]; exact hu1.2.2.2.2.1) q2 hA hB
    rw [r1, r2, q1, q2]
    exact ⟨rfl, rfl⟩
  · have hne : e1.m_connectionState ≠ CS_CONNECTED := by
      rw [hst1, ackPhase_state]
      split_ifs with hc
      · decide
      · exact hc
    have hinact2 : (e1.ackPhase (msg.ReadUInt 4).1 now2).m_connectionState ≠ CS_ACTIVE := by
      rw [hst2, if_neg hne, hst1]
      exact hact
    rw [ProcessServerMessage_inactive e1 msg now2 hinact2]
    exact ⟨(ackPhase_inbound _ _ _).1, (ackPhase_inbound _ _ _).2.1⟩

/-! ### Decoding the wire form of message elements (C5) -/

theorem End_false (b : NetBuffer) (x : Nat) (xs : List Nat) (hx : b.exhausted = false)
    (hb : b.unread = x :: xs) : b.End = false := by
  simp [NetBuffer.End, hx, hb]

theorem leBytes_succ_ne_nil (w v : Nat) : ∃ x xs, leBytes (w + 1) v = x :: xs :=
  ⟨v % 256, leBytes w (v / 256), rfl⟩

theorem and_highbit_of_lt (id : Nat) (h : id < 2147483648) : id &&& 0x80000000 = 0 := by
  have h31 : (2147483648 : Nat) = 2 ^ 31 := by norm_num
  have hx : (0x80000000 : Nat) = 2 ^ 31 := by norm_num
  rw [hx, Nat.and_two_pow, Nat.testBit_lt_two_pow (by rw [← h31]; exact h)]
  rfl

theorem or_highbit_of_lt (id : Nat) (h : id < 2147483648) :
    id ||| 0x80000000 = id + 2147483648 := by
  have hx : (0x80000000 : Nat) = 2 ^ 31 * 1 := by norm_num
  have h31 : (2147483648 : Nat) = 2 ^ 31 := by norm_num
  rw [Nat.lor_comm, hx, ← Nat.mul_add_lt_is_or (by rw [← h31]; exact h) 1]
  omega

theorem and_highbit_of_ge (id : Nat) (h : id < 2147483648) :
    (id + 2147483648) &&& 0x80000000 ≠ 0 := by
  have hx : (0x80000000 : Nat) = 2 ^ 31 := by norm_num
  have h31 : (2147483648 : Nat) = 2 ^ 31 := by norm_num
  rw [hx, Nat.and_two_pow, Nat.add_comm, Nat.testBit_two_pow_add_eq,
    Nat.testBit_lt_two_pow h]
  decide

theorem and_lowbits_of_ge (id : Nat) (h : id < 2147483648) :
    (id + 2147483648) &&& 0x7FFFFFFF = id := by
  have hx : (0x7FFFFFFF : Nat) = 2 ^ 31 - 1 := by norm_num
  rw [hx, Nat.and_pow_two_sub_one_eq_mod]
  norm_num
  omega

theorem parseStep_route (e : NetLibrary) (b : NetBuffer) (now netID : Nat)
    (payload tail : List Nat) (hx : b.exhausted = false)
    (hb : b.unread = encodeItem e.m_serverProtocol (ServerItem.route netID payload) ++ tail)
    (hwf : (ServerItem.route netID payload).wf) :
    parseStep e b now =
      ParseStep.next (e.EnqueueRoutedPacket netID payload now) { b with unread := tail } := by
  obtain ⟨hn, hl⟩ := hwf
  have hb1 : b.unread = leBytes 4 MSG_ROUTE ++
      (leBytes 2 netID ++ (leBytes 2 payload.length ++ (payload ++ tail))) := by
    rw [hb]
    simp [encodeItem, layoutRoute, MSG_ROUTE, List.append_assoc]
  have hend : b.End = false := by
    obtain ⟨x, xs, hxs⟩ := leBytes_succ_ne_nil 3 MSG_ROUTE
    exact End_false b x _ hx (by rw [hb1, hxs]; rfl)
  have r0 := ReadUInt_leBytes b 4 MSG_ROUTE _ hb1
  have r1 := ReadUInt_leBytes
    { b with unread := leBytes 2 netID ++ (leBytes 2 payload.length ++ (payload ++ tail)) }
    2 netID _ rfl
  have r2 := ReadUInt_leBytes
    { b with unread := leBytes 2 payload.length ++ (payload ++ tail) }
    2 payload.length _ rfl
  have r3 := ReadBytes_append { b with unread := payload ++ tail } payload tail rfl
  have m0 : MSG_ROUTE % 256 ^ 4 = MSG_ROUTE := by decide
  have m1 : netID % 256 ^ 2 = netID := Nat.mod_eq_of_lt (by norm_num; exact hn)
  have m2 : payload.length % 256 ^ 2 = payload.length := Nat.mod_eq_of_lt (by norm_num; exact hl)
  rw [m0] at r0
  rw [m1] at r1
  rw [m2] at r2
  unfold parseStep
  rw [hend]
  simp only [Bool.false_eq_true, if_false, r0, if_true]
  unfold parseRoute
  simp only [r1, r2, r3]

theorem parseStep_frame (e : NetLibrary) (b : NetBuffer) (now frameNum ping : Nat)
    (tail : List Nat) (hx : b.exhausted = false)
    (hb : b.unread = encodeItem e.m_serverProtocol (ServerItem.frame frameNum ping) ++ tail)
    (hwf : (ServerItem.frame frameNum ping).wf) :
    parseStep e b now =
      ParseStep.next { e with m_lastFrameNumber := frameNum } { b with unread := tail } := by
  have hn : frameNum < U32 := hwf
  have m0 : MSG_FRAME % 256 ^ 4 = MSG_FRAME := by decide
  have m1 : frameNum % 256 ^ 4 = frameNum := Nat.mod_eq_of_lt (by norm_num; exact hn)
  have hne : ¬ MSG_FRAME = MSG_ROUTE := by decide
  by_cases hp : e.m_serverProtocol ≥ 3
  · have hb1 : b.unread = leBytes 4 MSG_FRAME ++
        (leBytes 4 frameNum ++ (leBytes 4 ping ++ tail)) := by
      rw [hb]
      simp [encodeItem, hp, List.append_assoc]
    have hend : b.End = false := by
      obtain ⟨x, xs, hxs⟩ := leBytes_succ_ne_nil 3 MSG_FRAME
      exact End_false b x _ hx (by rw [hb1, hxs]; rfl)
    have r0 := ReadUInt_leBytes b 4 MSG_FRAME _ hb1
    have r1 := ReadUInt_leBytes
      { b with unread := leBytes 4 frameNum ++ (leBytes 4 ping ++ tail) } 4 frameNum _ rfl
    have r2 := ReadUInt_leBytes { b with unread := leBytes 4 ping ++ tail } 4 ping _ rfl
    rw [m0] at r0
    rw [m1] at r1
    unfold parseStep
    rw [hend]
    simp only [Bool.false_eq_true, if_false, r0, if_true, hne]
    unfold parseFrame
    simp only [r1, r2, hp, if_true]
  · have hb1 : b.unread = leBytes 4 MSG_FRAME ++ (leBytes 4 frameNum ++ tail) := by
      rw [hb]
      simp [encodeItem, hp, List.append_assoc]
    have hend : b.End = false := by
      obtain ⟨x, xs, hxs⟩ := leBytes_succ_ne_nil 3 MSG_FRAME
      exact End_false b x _ hx (by rw [hb1, hxs]; rfl)
    have r0 := ReadUInt_leBytes b 4 MSG_FRAME _ hb1
    have r1 := ReadUInt_leBytes { b with unread := leBytes 4 frameNum ++ tail } 4 frameNum _ rfl
    rw [m0] at r0
    rw [m1] at r1
    unfold parseStep
    rw [hend]
    simp only [Bool.false_eq_true, if_false, r0, if_true, hne]
    unfold parseFrame
    simp only [r1, hp, if_false]

theorem readReliableHeader_layout (b : NetBuffer) (id : Nat) (payload tail : List Nat)
    (hid : id < 2147483648) (hlen : payload.length < U32)
    (hb : b.unread =
      (if payload.length > 65535 then
        leBytes 4 (id ||| 0x80000000) ++ leBytes 4 payload.length
      else leBytes 4 id ++ leBytes 2 payload.length) ++ (payload ++ tail)) :
    readReliableHeader b =
      { id := id, size := payload.length, rest := { b with unread := payload ++ tail } } := by
  have hU : U32 = 4294967296 := rfl
  by_cases hl : payload.length > 65535
  · rw [if_pos hl, or_highbit_of_lt id hid, List.append_assoc] at hb
    have r0 := ReadUInt_leBytes b 4 (id + 2147483648) _ hb
    have r1 := ReadUInt_leBytes { b with unread := leBytes 4 payload.length ++ (payload ++ tail) }
      4 payload.length _ rfl
    have m0 : (id + 2147483648) % 256 ^ 4 = id + 2147483648 :=
      Nat.mod_eq_of_lt (by norm_num; omega)
    have m1 : payload.length % 256 ^ 4 = payload.length :=
      Nat.mod_eq_of_lt (by norm_num; omega)
    rw [m0] at r0
    rw [m1] at r1
    unfold readReliableHeader
    simp only [r0, r1, if_pos (and_highbit_of_ge id hid), and_lowbits_of_ge id hid]
  · rw [if_neg hl, List.append_assoc] at hb
    have r0 := ReadUInt_leBytes b 4 id _ hb
    have r1 := ReadUInt_leBytes { b with unread := leBytes 2 payload.length ++ (payload ++ tail) }
      2 payload.length _ rfl
    have m0 : id % 256 ^ 4 = id := Nat.mod_eq_of_lt (by norm_num; omega)
    have m1 : payload.length % 256 ^ 2 = payload.length :=
      Nat.mod_eq_of_lt (by norm_num; omega)
    rw [m0] at r0
    rw [m1] at r1
    unfold readReliableHeader
    simp only [r0, r1, and_highbit_of_lt id hid, ne_eq, not_true_eq_false, if_false]

theorem parseStep_reliable (e : NetLibrary) (b : NetBuffer) (now t id : Nat)
    (payload tail : List Nat) (hx : b.exhausted = false)
    (hb : b.unread = encodeItem e.m_serverProtocol (ServerItem.reliable t id payload) ++ tail)
    (hwf : (ServerItem.reliable t id payload).wf) :
    parseStep e b now =
      if id > (e.m_lastReceivedReliableCommand + 64) % U32 then ParseStep.stop e
      else ParseStep.next (dispatchReliable e t id payload) { b with unread := tail } := by
  obtain ⟨ht, hr, hf, hE, hid, hlen⟩ := hwf
  have hb1 : b.unread = leBytes 4 t ++
      ((if payload.length > 65535 then
        leBytes 4 (id ||| 0x80000000) ++ leBytes 4 payload.length
      else leBytes 4 id ++ leBytes 2 payload.length) ++ (payload ++ tail)) := by
    rw [hb]
    simp only [encodeItem, layoutReliable, List.append_assoc]
  have hend : b.End = false := by
    obtain ⟨x, xs, hxs⟩ := leBytes_succ_ne_nil 3 t
    exact End_false b x _ hx (by rw [hb1, hxs]; rfl)
  have r0 := ReadUInt_leBytes b 4 t _ hb1
  have m0 : t % 256 ^ 4 = t := Nat.mod_eq_of_lt (by norm_num; exact ht)
  rw [m0] at r0
  have r1 := readReliableHeader_layout
    { b with unread := (if payload.length > 65535 then
        leBytes 4 (id ||| 0x80000000) ++ leBytes 4 payload.length
      else leBytes 4 id ++ leBytes 2 payload.length) ++ (payload ++ tail) }
    id payload tail hid hlen rfl
  have r2 := ReadBytes_append { b with unread := payload ++ tail } payload tail rfl
  unfold parseStep
  rw [hend]
  simp only [Bool.false_eq_true, if_false, r0, hr, hf, hE, ne_eq, not_false_eq_true, if_true]
  unfold parseReliable
  simp only [r1]
  split_ifs
  · rfl
  · simp only [r2]

theorem parseStep_item (e : NetLibrary) (b : NetBuffer) (now : Nat) (it : ServerItem)
    (tail : List Nat) (hx : b.exhausted = false)
    (hb : b.unread = encodeItem e.m_serverProtocol it ++ tail) (hwf : it.wf)
    (hacc : accepts e it) :
    parseStep e b now = ParseStep.next (applyItem e now it) { b with unread := tail } := by
  cases it with
  | route netID payload => exact parseStep_route e b now netID payload tail hx hb hwf
  | frame frameNum ping => exact parseStep_frame e b now frameNum ping tail hx hb hwf
  | reliable t id payload =>
    rw [parseStep_reliable e b now t id payload tail hx hb hwf, if_neg hacc]
    rfl

theorem applyItem_protocol (e : NetLibrary) (now : Nat) (it : ServerItem) :
    (applyItem e now it).m_serverProtocol = e.m_serverProtocol := by
  cases it with
  | route netID payload => rfl
  | frame frameNum ping => rfl
  | reliable t id payload => exact (dispatchReliable_untouched e t id payload).2.2.2.2.1

/-- Decoding follows encoding: over the wire form of elements that it accepts, the
parse loop does what `applyItems` says and reads on behind them. -/
theorem parseLoop_items (items : List ServerItem) (e : NetLibrary) (b : NetBuffer)
    (now : Nat) (tail : List Nat) (fuel : Nat) (r : NetLibrary)
    (hx : b.exhausted = false)
    (hb : b.unread = encodeItems e.m_serverProtocol items ++ tail)
    (hwf : ∀ it ∈ items, it.wf) (hacc : acceptsAll now e items)
    (h : parseLoop fuel e b now = some r) :
    ∃ fuel1, parseLoop fuel1 (applyItems e now items) { b with unread := tail } now = some r := by
  induction items generalizing e b fuel with
  | nil =>
    refine ⟨fuel, ?_⟩
    have ht : b.unread = tail := by
      rw [hb]
      simp [encodeItems]
    have : ({ b with unread := tail } : NetBuffer) = b := by
      rw [← ht]
    rw [this]
    exact h
  | cons it its ih =>
    cases fuel with
    | zero => simp [parseLoop] at h
    | succ n =>
      have hb1 : b.unread = encodeItem e.m_serverProtocol it ++
          (encodeItems e.m_serverProtocol its ++ tail) := by
        rw [hb]
        simp [encodeItems, List.append_assoc]
      unfold parseLoop at h
      rw [parseStep_item e b now it _ hx hb1 (hwf it (List.mem_cons_self it its)) hacc.1] at h
      dsimp only at h
      exact ih (applyItem e now it)
        { b with unread := encodeItems e.m_serverProtocol its ++ tail } n hx
        (by rw [applyItem_protocol])
        (fun x hx1 => hwf x (List.mem_cons_of_mem it hx1)) hacc.2 h

theorem parseStep_end (e : NetLibrary) (b : NetBuffer) (now : Nat) (tail : List Nat)
    (hx : b.exhausted = false) (hb : b.unread = leBytes 4 MSG_END ++ tail) :
    parseStep e b now = ParseStep.stop e := by
  have hend : b.End = false := by
    obtain ⟨x, xs, hxs⟩ := leBytes_succ_ne_nil 3 MSG_END
    exact End_false b x _ hx (by rw [hb, hxs]; rfl)
  have r0 := ReadUInt_leBytes b 4 MSG_END _ hb
  have m0 : MSG_END % 256 ^ 4 = MSG_END := by decide
  have h1 : ¬ MSG_END = MSG_ROUTE := by decide
  have h2 : ¬ MSG_END = MSG_FRAME := by decide
  rw [m0] at r0
  unfold parseStep
  rw [hend]
  simp only [Bool.false_eq_true, if_false, r0, h1, h2, ne_eq, not_true_eq_false]

theorem parseLoop_stop (fuel : Nat) (e r : NetLibrary) (b : NetBuffer) (now : Nat)
    (hs : parseStep e b now = ParseStep.stop e) (h : parseLoop fuel e b now = some r) :
    r = e := by
  cases fuel with
  | zero => simp [parseLoop] at h
  | succ n =>
    unfold parseLoop at h
    rw [hs] at h
    injection h with h
    exact h.symm

theorem stale_items (items : List ServerItem) (e : NetLibrary) (now : Nat)
    (hU : e.m_lastReceivedReliableCommand + 64 < U32)
    (hst : ∀ it ∈ items, it.stale e.m_lastReceivedReliableCommand) :
    acceptsAll now e items ∧
    (applyItems e now items).events = e.events ∧
    (applyItems e now items).m_lastReceivedReliableCommand = e.m_lastReceivedReliableCommand ∧
    (applyItems e now items).m_serverProtocol = e.m_serverProtocol := by
  induction items generalizing e with
  | nil => exact ⟨trivial, rfl, rfl, rfl⟩
  | cons it its ih =>
    have hit := hst it (List.mem_cons_self it its)
    have hstep : accepts e it ∧ (applyItem e now it).events = e.events ∧
        (applyItem e now it).m_lastReceivedReliableCommand = e.m_lastReceivedReliableCommand := by
      cases it with
      | route netID payload => exact ⟨trivial, rfl, rfl⟩
      | frame frameNum ping => exact ⟨trivial, rfl, rfl⟩
      | reliable t id payload =>
        have hid : id ≤ e.m_lastReceivedReliableCommand := hit
        refine ⟨?_, ?_, ?_⟩
        · show ¬ id > (e.m_lastReceivedReliableCommand + 64) % U32
          rw [Nat.mod_eq_of_lt hU]
          omega
        · show (dispatchReliable e t id payload).events = e.events
          rw [dispatchReliable_of_le e t id payload hid]
        · show (dispatchReliable e t id payload).m_lastReceivedReliableCommand = _
          rw [dispatchReliable_of_le e t id payload hid]
    obtain ⟨h1, h2, h3⟩ := hstep
    obtain ⟨a1, a2, a3, a4⟩ := ih (applyItem e now it) (by rw [h3]; exact hU)
      (fun x hx => by rw [h3]; exact hst x (List.mem_cons_of_mem it hx))
    refine ⟨⟨h1, a1⟩, ?_, ?_, ?_⟩
    · show (applyItems (applyItem e now it) now its).events = _
      rw [a2, h2]
    · show (applyItems (applyItem e now it) now its).m_lastReceivedReliableCommand = _
      rw [a3, h3]
    · show (applyItems (applyItem e now it) now its).m_serverProtocol = _
      rw [a4, applyItem_protocol]

/-- C5 as stated fails: on an engine with last received id 10 and the handler 1
registered for the message type 77, a message holding the new command id 11 of type
77 followed by the far-ahead command id 100 has the handler 1 invoked with the
payload of id 11 before the parse stops. -/
theorem C5_counterexample :
    listeningReceiver.m_connectionState = CS_ACTIVE ∧
    ServerItem.reliable 78 100 [] ∈ [ServerItem.reliable 77 11 [1], ServerItem.reliable 78 100 []] ∧
    100 > listeningReceiver.m_lastReceivedReliableCommand + 64 ∧
    (listeningReceiver.ProcessServerMessage
      (NetBuffer.ofBytes
        (leBytes 4 0 ++ encodeItems 0 [ServerItem.reliable 77 11 [1], ServerItem.reliable 78 100 []]
          ++ leBytes 4 MSG_END) 0) 0).events
      = [Event.ReliableDispatch 77 11 [1], Event.ReliableHandler 1 [1]] := by
  decide

/-- C5 (amended): when an active engine processes a message in which a reliable
command has an id above the last received id plus 64, and everything before that
command in the message is a routing packet, a frame marker or a command already
processed, then no outgoing call is made (no reliable handler is invoked) and the
last received id stays as it was. -/
theorem C5_far_future_drops (e : NetLibrary) (ack sentinel now : Nat) (pre : List ServerItem)
    (t id : Nat) (payload rest : List Nat)
    (hact : e.m_connectionState = CS_ACTIVE)
    (hpre : ∀ it ∈ pre, it.wf ∧ it.stale e.m_lastReceivedReliableCommand)
    (hwf : (ServerItem.reliable t id payload).wf)
    (hfar : id > e.m_lastReceivedReliableCommand + 64) :
    (e.ProcessServerMessage
      (NetBuffer.ofBytes
        (leBytes 4 ack ++ encodeItems e.m_serverProtocol pre ++
          encodeItem e.m_serverProtocol (ServerItem.reliable t id payload) ++ rest)
        sentinel) now).events = e.events ∧
    (e.ProcessServerMessage
      (NetBuffer.ofBytes
        (leBytes 4 ack ++ encodeItems e.m_serverProtocol pre ++
          encodeItem e.m_serverProtocol (ServerItem.reliable t id payload) ++ rest)
        sentinel) now).m_lastReceivedReliableCommand = e.m_lastReceivedReliableCommand := by
  have hU : U32 = 4294967296 := rfl
  have hid : id < 2147483648 := hwf.2.2.2.2.1
  generalize hmsg : NetBuffer.ofBytes
    (leBytes 4 ack ++ encodeItems e.m_serverProtocol pre ++
      encodeItem e.m_serverProtocol (ServerItem.reliable t id payload) ++ rest) sentinel = msg
  have hun : msg.unread = leBytes 4 ack ++ (encodeItems e.m_serverProtocol pre ++
      (encodeItem e.m_serverProtocol (ServerItem.reliable t id payload) ++ rest)) := by
    rw [← hmsg]
    simp [NetBuffer.ofBytes, List.append_assoc]
  have hex : msg.exhausted = false := by rw [← hmsg]; rfl
  have r0 := ReadUInt_leBytes msg 4 ack _ hun
  obtain ⟨q1, q2, q3⟩ := ackPhase_inbound e (msg.ReadUInt 4).1 now
  have hst : (e.ackPhase (msg.ReadUInt 4).1 now).m_connectionState = CS_ACTIVE := by
    rw [ackPhase_state, hact]
    rfl
  have hloop := ProcessServerMessage_active e msg now hst
  generalize e.ProcessServerMessage msg now = r at hloop ⊢
  generalize e.ackPhase (msg.ReadUInt 4).1 now = e2 at q1 q2 q3 hloop
  rw [r0] at hloop
  dsimp only at hloop
  obtain ⟨a1, a2, a3, a4⟩ := stale_items pre e2 now (by rw [q2]; omega)
    (fun it hit => by rw [q2]; exact (hpre it hit).2)
  obtain ⟨fuel1, hl1⟩ := parseLoop_items pre e2
    { msg with unread := encodeItems e.m_serverProtocol pre ++
      (encodeItem e.m_serverProtocol (ServerItem.reliable t id payload) ++ rest) }
    now (encodeItem e.m_serverProtocol (ServerItem.reliable t id payload) ++ rest) _ r hex
    (by rw [q3]) (fun it hit => (hpre it hit).1) a1 hloop
  have hs := parseStep_reliable (applyItems e2 now pre)
    { msg with unread := encodeItem e.m_serverProtocol (ServerItem.reliable t id payload) ++ rest }
    now t id payload rest hex (by rw [a4, q3]) hwf
  rw [if_pos (by rw [a3, q2, Nat.mod_eq_of_lt (by omega)]; exact hfar)] at hs
  have hr := parseLoop_stop fuel1 _ r _ now hs hl1
  rw [hr, a2, a3, q1, q2]
  exact ⟨rfl, rfl⟩

/-- C5 (amended) at the scenario of the spec: last received id 10, a message with a
routing packet, the duplicate id 10 and the far-ahead id 100. -/
theorem C5_far_future_drops_witness :
    (sampleReceiver.ProcessServerMessage
      (NetBuffer.ofBytes
        (leBytes 4 0 ++ encodeItems sampleReceiver.m_serverProtocol
            [ServerItem.route 3 [7, 7], ServerItem.reliable 77 10 [1]] ++
          encodeItem sampleReceiver.m_serverProtocol (ServerItem.reliable 78 100 [2]) ++
          leBytes 4 MSG_END)
        0) 0).events = sampleReceiver.events ∧
    (sampleReceiver.ProcessServerMessage
      (NetBuffer.ofBytes
        (leBytes 4 0 ++ encodeItems sampleReceiver.m_serverProtocol
            [ServerItem.route 3 [7, 7], ServerItem.reliable 77 10 [1]] ++
          encodeItem sampleReceiver.m_serverProtocol (ServerItem.reliable 78 100 [2]) ++
          leBytes 4 MSG_END)
        0) 0).m_lastReceivedReliableCommand = 10 :=
  C5_far_future_drops sampleReceiver 0 0 0
    [ServerItem.route 3 [7, 7], ServerItem.reliable 77 10 [1]] 78 100 [2] (leBytes 4 MSG_END)
    (by decide)
    (by
      intro it hit
      simp only [List.mem_cons, List.mem_singleton, List.not_mem_nil, or_false] at hit
      rcases hit with h | h <;> subst h <;> unfold ServerItem.wf ServerItem.stale <;> decide)
    (by unfold ServerItem.wf; decide) (by decide)

/-! ### Outbound frame read by the inbound decoder (C6) -/

theorem encodeItems_routes (q : Nat) (ps : List RoutingPacket) :
    encodeItems q (ps.map (fun p => ServerItem.route p.netID p.payload))
      = (ps.map layoutRoute).flatten := by
  induction ps with
  | nil => rfl
  | cons p ps ih =>
    unfold encodeItems at ih ⊢
    simp only [List.map_cons, List.flatten_cons, ih]
    rfl

theorem encodeItems_reliables (q : Nat) (cs : List OutReliableCommand) :
    encodeItems q (cs.map (fun c => ServerItem.reliable c.type c.id c.command))
      = (cs.map layoutReliable).flatten := by
  induction cs with
  | nil => rfl
  | cons c cs ih =>
    unfold encodeItems at ih ⊢
    simp only [List.map_cons, List.flatten_cons, ih]
    rfl

theorem encodeItems_append (q : Nat) (xs ys : List ServerItem) :
    encodeItems q (xs ++ ys) = encodeItems q xs ++ encodeItems q ys := by
  simp [encodeItems]

theorem frameLayout_items (e : NetLibrary) (q : Nat) (hp : e.m_serverProtocol < 2) :
    frameLayout e [] = leBytes 4 e.m_lastReceivedReliableCommand ++
      (encodeItems q (frameItems e) ++ leBytes 4 MSG_END) := by
  unfold frameLayout frameItems
  rw [encodeItems_append, encodeItems_routes, encodeItems_reliables, if_neg (by omega)]
  simp [MSG_END, List.append_assoc]

theorem applyItems_append (e : NetLibrary) (now : Nat) (xs ys : List ServerItem) :
    applyItems e now (xs ++ ys) = applyItems (applyItems e now xs) now ys := by
  simp [applyItems, List.foldl_append]

theorem acceptsAll_append (now : Nat) (xs ys : List ServerItem) (e : NetLibrary)
    (h1 : acceptsAll now e xs) (h2 : acceptsAll now (applyItems e now xs) ys) :
    acceptsAll now e (xs ++ ys) := by
  induction xs generalizing e with
  | nil => exact h2
  | cons x xs ih => exact ⟨h1.1, ih (applyItem e now x) h1.2 h2⟩

theorem applyItems_routes (ps : List RoutingPacket) (e : NetLibrary) (now : Nat) :
    acceptsAll now e (ps.map (fun p => ServerItem.route p.netID p.payload)) ∧
    (applyItems e now (ps.map (fun p => ServerItem.route p.netID p.payload))).m_incomingPackets
      = e.m_incomingPackets ++ ps.map (fun p => { p with genTime := now }) ∧
    (applyItems e now (ps.map (fun p => ServerItem.route p.netID p.payload))).events
      = e.events ∧
    (applyItems e now
        (ps.map (fun p => ServerItem.route p.netID p.payload))).m_lastReceivedReliableCommand
      = e.m_lastReceivedReliableCommand ∧
    (applyItems e now (ps.map (fun p => ServerItem.route p.netID p.payload))).m_lastFrameNumber
      = e.m_lastFrameNumber := by
  induction ps generalizing e with
  | nil => exact ⟨trivial, by simp [applyItems], rfl, rfl, rfl⟩
  | cons p ps ih =>
    obtain ⟨a1, a2, a3, a4, a5⟩ := ih (e.EnqueueRoutedPacket p.netID p.payload now)
    refine ⟨⟨trivial, a1⟩, ?_, ?_, ?_, ?_⟩
    · show (applyItems (e.EnqueueRoutedPacket p.netID p.payload now) now _).m_incomingPackets = _
      rw [a2]
      simp [EnqueueRoutedPacket]
    · show (applyItems (e.EnqueueRoutedPacket p.netID p.payload now) now _).events = _
      rw [a3]
      rfl
    · show (applyItems (e.EnqueueRoutedPacket p.netID p.payload now) now
        _).m_lastReceivedReliableCommand = _
      rw [a4]
      rfl
    · show (applyItems (e.EnqueueRoutedPacket p.netID p.payload now) now _).m_lastFrameNumber = _
      rw [a5]
      rfl

theorem dispatched_handlers (hs : List (Nat × Nat)) (buf : List Nat) :
    dispatched (hs.map (fun h => Event.ReliableHandler h.2 buf)) = [] := by
  induction hs with
  | nil => rfl
  | cons h hs ih => simp [dispatched]

theorem dispatchReliable_new (e : NetLibrary) (t id : Nat) (buf : List Nat)
    (h : id > e.m_lastReceivedReliableCommand) :
    dispatched (dispatchReliable e t id buf).events
      = dispatched e.events ++ [{ type := t, id := id, command := buf }] ∧
    (dispatchReliable e t id buf).m_lastReceivedReliableCommand = id ∧
    (dispatchReliable e t id buf).m_incomingPackets = e.m_incomingPackets ∧
    (dispatchReliable e t id buf).m_lastFrameNumber = e.m_lastFrameNumber := by
  unfold dispatchReliable
  rw [if_pos h]
  refine ⟨?_, rfl, rfl, rfl⟩
  show dispatched ((e.events ++ [Event.ReliableDispatch t id buf]) ++ _) = _
  unfold dispatched
  rw [List.filterMap_append, List.filterMap_append]
  have := dispatched_handlers
    ((e.emit (Event.ReliableDispatch t id buf)).m_reliableHandlers.filter
      (fun h => h.1 == t)) buf
  unfold dispatched at this
  rw [this]
  simp

theorem applyItems_reliables (cs : List OutReliableCommand) (e : NetLibrary) (now : Nat)
    (hl : e.m_lastReceivedReliableCommand < 2147483648)
    (hid : ∀ c ∈ cs, c.id < 2147483648)
    (hch : List.Chain (fun a b => a < b ∧ b ≤ a + 64) e.m_lastReceivedReliableCommand
      (cs.map (fun c => c.id))) :
    acceptsAll now e (cs.map (fun c => ServerItem.reliable c.type c.id c.command)) ∧
    dispatched
        (applyItems e now (cs.map (fun c => ServerItem.reliable c.type c.id c.command))).events
      = dispatched e.events ++ cs ∧
    (applyItems e now
        (cs.map (fun c => ServerItem.reliable c.type c.id c.command))).m_lastReceivedReliableCommand
      = ((cs.map (fun c => c.id)).getLast?).getD e.m_lastReceivedReliableCommand ∧
    (applyItems e now
        (cs.map (fun c => ServerItem.reliable c.type c.id c.command))).m_incomingPackets
      = e.m_incomingPackets ∧
    (applyItems e now
        (cs.map (fun c => ServerItem.reliable c.type c.id c.command))).m_lastFrameNumber
      = e.m_lastFrameNumber := by
  have hU : U32 = 4294967296 := rfl
  induction cs generalizing e with
  | nil => exact ⟨trivial, by simp [applyItems], rfl, rfl, rfl⟩
  | cons c cs ih =>
    rw [List.map_cons, List.chain_cons] at hch
    obtain ⟨⟨hlt, hle⟩, hrest⟩ := hch
    obtain ⟨d1, d2, d3, d4⟩ := dispatchReliable_new e c.type c.id c.command hlt
    have hcid := hid c (List.mem_cons_self c cs)
    obtain ⟨a1, a2, a3, a4, a5⟩ := ih (dispatchReliable e c.type c.id c.command)
      (by rw [d2]; exact hcid) (fun x hx => hid x (List.mem_cons_of_mem c hx))
      (by rw [d2]; exact hrest)
    refine ⟨⟨?_, a1⟩, ?_, ?_, ?_, ?_⟩
    · show ¬ c.id > (e.m_lastReceivedReliableCommand + 64) % U32
      rw [Nat.mod_eq_of_lt (by omega)]
      omega
    · show dispatched (applyItems (dispatchReliable e c.type c.id c.command) now _).events = _
      rw [a2, d1]
      simp
    · show (applyItems (dispatchReliable e c.type c.id c.command) now
        _).m_lastReceivedReliableCommand = _
      rw [a3, d2]
      cases cs with
      | nil => simp
      | cons c2 cs2 =>
        simp only [List.map_cons]
        rw [List.getLast?_cons_cons, List.getLast?_eq_getLast _ (List.cons_ne_nil _ _)]
        rfl
    · show (applyItems (dispatchReliable e c.type c.id c.command) now _).m_incomingPackets = _
      rw [a4, d3]
    · show (applyItems (dispatchReliable e c.type c.id c.command) now _).m_lastFrameNumber = _
      rw [a5, d4]

theorem ackPhase_queues (e : NetLibrary) (a now : Nat) :
    (e.ackPhase a now).m_incomingPackets = e.m_incomingPackets ∧
    (e.ackPhase a now).m_lastFrameNumber = e.m_lastFrameNumber := by
  unfold ackPhase promote applyAck
  split_ifs <;> exact ⟨rfl, rfl⟩

theorem frameItems_wf (e : NetLibrary) (hfits : (frameLayout e []).length ≤ 24000)
    (hroutes : ∀ p ∈ e.m_outgoingPackets, p.netID < 65536)
    (hcmds : ∀ c ∈ e.m_outReliableCommands,
      c.type < U32 ∧ c.type ≠ MSG_ROUTE ∧ c.type ≠ MSG_FRAME ∧ c.type ≠ MSG_END ∧
      c.id < 2147483648) :
    ∀ it ∈ frameItems e, it.wf := by
  have hU : U32 = 4294967296 := rfl
  intro it hit
  unfold frameLayout at hfits
  simp only [List.length_append, leBytes_length] at hfits
  unfold frameItems at hit
  rcases List.mem_append.mp hit with h | h
  · obtain ⟨p, hp, rfl⟩ := List.mem_map.mp h
    have h1 := length_le_flatten_map layoutRoute e.m_outgoingPackets p hp
    simp only [layoutRoute, List.length_append, leBytes_length] at h1
    exact ⟨hroutes p hp, by omega⟩
  · obtain ⟨c, hc, rfl⟩ := List.mem_map.mp h
    have h1 := length_le_flatten_map layoutReliable e.m_outReliableCommands c hc
    simp only [layoutReliable, List.length_append, leBytes_length] at h1
    obtain ⟨c1, c2, c3, c4, c5⟩ := hcmds c hc
    exact ⟨c1, c2, c3, c4, c5, by omega⟩

/-- C6 as stated fails: the frame that a protocol-2 sender assembles (frame number 9,
one routing packet, two reliable commands) is not read back by the decoder: it
takes the frame number for a message type, stops, and yields neither the frame
number nor the routing packet nor the commands. -/
theorem C6_counterexample :
    ¬ ((freshReceiver.ProcessServerMessage
          (NetBuffer.ofBytes (buildFrame sampleSender []).written 0) 0).m_lastFrameNumber
        = sampleSender.m_lastFrameNumber ∧
      (freshReceiver.ProcessServerMessage
          (NetBuffer.ofBytes (buildFrame sampleSender []).written 0) 0).m_incomingPackets.map
            (fun p => (p.netID, p.payload))
        = sampleSender.m_outgoingPackets.map (fun p => (p.netID, p.payload)) ∧
      dispatched (freshReceiver.ProcessServerMessage
          (NetBuffer.ofBytes (buildFrame sampleSender []).written 0) 0).events
        = sampleSender.m_outReliableCommands) := by
  decide

/-- C6 (amended): for a sender below protocol 2 (whose frame carries no frame
number), with no bytes appended by `OnBuildMessage`, whose frame fits the buffer,
whose reliable commands have types other than the three reserved message types and
ids below 2^31 that climb from 0 in steps of at most 64, the frame assembled by
`ProcessSend`, parsed by `ProcessServerMessage` on an active engine with last
received id 0, yields the identical ack, the routing packets in the same order and
the reliable commands (type, id, payload) in the same order; the frame number of the
receiver is left as it was. -/
theorem C6_frame_round_trip (S R : NetLibrary) (sentinel now : Nat)
    (hproto : S.m_serverProtocol < 2)
    (hack : S.m_lastReceivedReliableCommand < U32)
    (hroutes : ∀ p ∈ S.m_outgoingPackets, p.netID < 65536)
    (hcmds : ∀ c ∈ S.m_outReliableCommands,
      c.type < U32 ∧ c.type ≠ MSG_ROUTE ∧ c.type ≠ MSG_FRAME ∧ c.type ≠ MSG_END ∧
      c.id < 2147483648)
    (hids : List.Chain (fun a b => a < b ∧ b ≤ a + 64) 0
      (S.m_outReliableCommands.map (fun c => c.id)))
    (hfits : (frameLayout S []).length ≤ 24000)
    (hR : R.m_connectionState = CS_ACTIVE)
    (hlast : R.m_lastReceivedReliableCommand = 0) :
    (R.ProcessServerMessage (NetBuffer.ofBytes (buildFrame S []).written sentinel)
        now).m_outReliableAcknowledged = S.m_lastReceivedReliableCommand ∧
    (R.ProcessServerMessage (NetBuffer.ofBytes (buildFrame S []).written sentinel)
        now).m_incomingPackets
      = R.m_incomingPackets ++ S.m_outgoingPackets.map (fun p => { p with genTime := now }) ∧
    dispatched (R.ProcessServerMessage (NetBuffer.ofBytes (buildFrame S []).written sentinel)
        now).events
      = dispatched R.events ++ S.m_outReliableCommands ∧
    (R.ProcessServerMessage (NetBuffer.ofBytes (buildFrame S []).written sentinel)
        now).m_lastReceivedReliableCommand
      = ((S.m_outReliableCommands.map (fun c => c.id)).getLast?).getD 0 ∧
    (R.ProcessServerMessage (NetBuffer.ofBytes (buildFrame S []).written sentinel)
        now).m_lastFrameNumber = R.m_lastFrameNumber := by
  have hU : U32 = 4294967296 := rfl
  generalize hmsg : NetBuffer.ofBytes (buildFrame S []).written sentinel = msg
  have hex : msg.exhausted = false := by rw [← hmsg]; rfl
  have hun : msg.unread = leBytes 4 S.m_lastReceivedReliableCommand ++
      (encodeItems R.m_serverProtocol (frameItems S) ++ leBytes 4 MSG_END) := by
    rw [← hmsg, buildFrame_fits S [] hfits, ← frameLayout_items S _ hproto]
    rfl
  have r0 := ReadUInt_leBytes msg 4 S.m_lastReceivedReliableCommand _ hun
  rw [Nat.mod_eq_of_lt (by norm_num; omega)] at r0
  obtain ⟨_, o2, _⟩ := ProcessServerMessage_outbound R msg now
  obtain ⟨q1, q2, q3⟩ := ackPhase_inbound R (msg.ReadUInt 4).1 now
  obtain ⟨q4, q5⟩ := ackPhase_queues R (msg.ReadUInt 4).1 now
  have hst : (R.ackPhase (msg.ReadUInt 4).1 now).m_connectionState = CS_ACTIVE := by
    rw [ackPhase_state, hR]
    rfl
  have hloop := ProcessServerMessage_active R msg now hst
  generalize R.ProcessServerMessage msg now = r at hloop o2 ⊢
  generalize R.ackPhase (msg.ReadUInt 4).1 now = R2 at q1 q2 q3 q4 q5 hloop
  rw [r0] at hloop o2
  dsimp only at hloop o2
  obtain ⟨b1, b2, b3, b4, b5⟩ := applyItems_routes S.m_outgoingPackets R2 now
  obtain ⟨c1, c2, c3, c4, c5⟩ := applyItems_reliables S.m_outReliableCommands
    (applyItems R2 now (S.m_outgoingPackets.map (fun p => ServerItem.route p.netID p.payload)))
    now (by rw [b4, q2, hlast]; omega) (fun c hc => (hcmds c hc).2.2.2.2)
    (by rw [b4, q2, hlast]; exact hids)
  have hacc : acceptsAll now R2 (frameItems S) := acceptsAll_append now _ _ R2 b1 c1
  obtain ⟨fuel1, hl1⟩ := parseLoop_items (frameItems S) R2
    { msg with unread := encodeItems R.m_serverProtocol (frameItems S) ++ leBytes 4 MSG_END }
    now (leBytes 4 MSG_END) _ r hex (by rw [q3])
    (frameItems_wf S hfits hroutes hcmds) hacc hloop
  have hs := parseStep_end (applyItems R2 now (frameItems S))
    { msg with unread := leBytes 4 MSG_END } now [] hex (by simp)
  have hr := parseLoop_stop fuel1 _ r _ now hs hl1
  have hsplit : applyItems R2 now (frameItems S) =
      applyItems
        (applyItems R2 now (S.m_outgoingPackets.map (fun p => ServerItem.route p.netID p.payload)))
        now (S.m_outReliableCommands.map (fun c => ServerItem.reliable c.type c.id c.command)) := by
    unfold frameItems
    rw [applyItems_append]
  refine ⟨o2, ?_⟩
  rw [hr, hsplit, c2, c3, c4, c5, b2, b3, b4, b5, q1, q2, q4, q5, hlast]
  exact ⟨rfl, rfl, rfl, rfl⟩

/-- C6 (amended) for a protocol-1 sender with one routing packet and two commands. -/
theorem C6_frame_round_trip_witness :
    (freshReceiver.ProcessServerMessage
        (NetBuffer.ofBytes (buildFrame legacySender []).written 0) 3).m_outReliableAcknowledged
      = 5 ∧
    (freshReceiver.ProcessServerMessage
        (NetBuffer.ofBytes (buildFrame legacySender []).written 0) 3).m_incomingPackets
      = [{ netID := 7, payload := [1, 2, 3], genTime := 3 }] ∧
    (dispatched (freshReceiver.ProcessServerMessage
        (NetBuffer.ofBytes (buildFrame legacySender []).written 0) 3).events).map
          (fun c => (c.id, c.command))
      = [(1, [4, 5]), (2, [])] := by
  have hchain : List.Chain (fun a b => a < b ∧ b ≤ a + 64) 0
      (legacySender.m_outReliableCommands.map (fun c => c.id)) := by
    show List.Chain (fun a b => a < b ∧ b ≤ a + 64) 0 [1, 2]
    exact List.Chain.cons ⟨by decide, by decide⟩
      (List.Chain.cons ⟨by decide, by decide⟩ List.Chain.nil)
  have h := C6_frame_round_trip legacySender freshReceiver 0 3 (by decide) (by decide)
    (by decide) (by decide) hchain (by decide) (by decide) (by decide)
  rw [h.1, h.2.1, h.2.2.1]
  decide

/-- C10 at the duplicate scenario of the spec: the command id 5 delivered twice is
dispatched once and the last received id ends at 5. -/
theorem C10_inbound_ids_monotone_witness :
    (processAll freshReceiver
        ([(sampleMessage, 0, 1), (sampleMessage, 0, 2)].take 1)).m_lastReceivedReliableCommand ≤
      (processAll freshReceiver
        ([(sampleMessage, 0, 1), (sampleMessage, 0, 2)].take 2)).m_lastReceivedReliableCommand ∧
    dispatchedIds (processAll freshReceiver
        [(sampleMessage, 0, 1), (sampleMessage, 0, 2)]).events = [5] ∧
    (processAll freshReceiver
        [(sampleMessage, 0, 1), (sampleMessage, 0, 2)]).m_lastReceivedReliableCommand = 5 :=
  ⟨(C10_inbound_ids_monotone freshReceiver [(sampleMessage, 0, 1), (sampleMessage, 0, 2)]).1
      1 2 (by decide),
    by decide, by decide⟩

/-! ### The test of the connection state and the session reset (C11, C17) -/

theorem ackPhase_untouched_state (e : NetLibrary) (a now : Nat)
    (h1 : e.m_connectionState ≠ CS_CONNECTED) :
    (e.ackPhase a now).m_connectionState = e.m_connectionState := by
  rw [ackPhase_state, if_neg h1]

theorem ackPhase_outbound (e : NetLibrary) (a now : Nat) :
    (e.ackPhase a now).m_outReliableCommands = (applyAck e a).m_outReliableCommands ∧
    (e.ackPhase a now).m_outReliableAcknowledged = a := by
  unfold ackPhase
  rw [promote_store, promote_acked, applyAck_acked, applyAck_store, applyAck_store]
  exact ⟨rfl, rfl⟩

/-- C11: a connected engine is made active before the parse loop runs on the
message body (the loop starts from the active engine and the result is active);
an engine that is neither connected nor active gets only the acknowledgement
applied: no routing packet is enqueued, no outgoing call is made, and the last
received id, the frame number and the connection state stay as they were. -/
theorem C11_gameplay_needs_active (e : NetLibrary) (msg : NetBuffer) (now : Nat) :
    (e.m_connectionState = CS_CONNECTED →
      (e.ackPhase (msg.ReadUInt 4).1 now).m_connectionState = CS_ACTIVE ∧
      parseLoop ((msg.ReadUInt 4).2.unread.length / 4 + 2)
          (e.ackPhase (msg.ReadUInt 4).1 now) (msg.ReadUInt 4).2 now
        = some (e.ProcessServerMessage msg now) ∧
      (e.ProcessServerMessage msg now).m_connectionState = CS_ACTIVE) ∧
    (e.m_connectionState ≠ CS_CONNECTED → e.m_connectionState ≠ CS_ACTIVE →
      (e.ProcessServerMessage msg now).m_incomingPackets = e.m_incomingPackets ∧
      (e.ProcessServerMessage msg now).events = e.events ∧
      (e.ProcessServerMessage msg now).m_lastReceivedReliableCommand
        = e.m_lastReceivedReliableCommand ∧
      (e.ProcessServerMessage msg now).m_lastFrameNumber = e.m_lastFrameNumber ∧
      (e.ProcessServerMessage msg now).m_connectionState = e.m_connectionState ∧
      (e.ProcessServerMessage msg now).m_outReliableCommands
        = (applyAck e (msg.ReadUInt 4).1).m_outReliableCommands ∧
      (e.ProcessServerMessage msg now).m_outReliableAcknowledged = (msg.ReadUInt 4).1) := by
  constructor
  · intro hc
    have hst : (e.ackPhase (msg.ReadUInt 4).1 now).m_connectionState = CS_ACTIVE := by
      rw [ackPhase_state, if_pos hc]
    refine ⟨hst, ProcessServerMessage_active e msg now hst, ?_⟩
    rw [(ProcessServerMessage_untouched e msg now).2.2.2.1, hst]
  · intro h1 h2
    have hst := ackPhase_untouched_state e (msg.ReadUInt 4).1 now h1
    rw [ProcessServerMessage_inactive e msg now (by rw [hst]; exact h2)]
    obtain ⟨q1, q2, _⟩ := ackPhase_inbound e (msg.ReadUInt 4).1 now
    obtain ⟨q4, q5⟩ := ackPhase_queues e (msg.ReadUInt 4).1 now
    obtain ⟨o1, o2⟩ := ackPhase_outbound e (msg.ReadUInt 4).1 now
    exact ⟨q4, q1, q2, q5, hst, o1, o2⟩

/-- C11 on a connected engine (the first message makes it active and its routing
packet is enqueued) and on a fetching engine (the same message changes nothing
but the acknowledgement). -/
theorem C11_gameplay_needs_active_witness :
    (connectedEngine.ProcessServerMessage
      (NetBuffer.ofBytes (leBytes 4 0 ++ encodeItems 0 [ServerItem.route 3 [7]]) 0)
      5).m_connectionState = CS_ACTIVE ∧
    (fetchingEngine.ProcessServerMessage
      (NetBuffer.ofBytes (leBytes 4 0 ++ encodeItems 0 [ServerItem.route 3 [7]]) 0)
      5).m_incomingPackets = [] ∧
    (connectedEngine.ProcessServerMessage
      (NetBuffer.ofBytes (leBytes 4 0 ++ encodeItems 0 [ServerItem.route 3 [7]]) 0)
      5).m_incomingPackets = [{ netID := 3, payload := [7], genTime := 5 }] :=
  ⟨((C11_gameplay_needs_active connectedEngine
      (NetBuffer.ofBytes (leBytes 4 0 ++ encodeItems 0 [ServerItem.route 3 [7]]) 0) 5).1
      (by decide)).2.2,
   ((C11_gameplay_needs_active fetchingEngine
      (NetBuffer.ofBytes (leBytes 4 0 ++ encodeItems 0 [ServerItem.route 3 [7]]) 0) 5).2
      (by decide) (by decide)).1,
   by decide⟩

/-- C17: whatever the engine state was, when `ConnectToServer` returns (before the
completion callback of the HTTP request runs) the connection state is
`CS_INITING`, the outbound sequence and acknowledgement, the last received reliable
id and the last frame number are 0, and the outbound reliable store is empty. -/
theorem C17_connect_resets_session (e : NetLibrary) (hostname : List Nat) (port now : Nat)
    (hook : List Nat) :
    (e.ConnectToServer hostname port now hook).m_connectionState = CS_INITING ∧
    (e.ConnectToServer hostname port now hook).m_outReliableSequence = 0 ∧
    (e.ConnectToServer hostname port now hook).m_outReliableAcknowledged = 0 ∧
    (e.ConnectToServer hostname port now hook).m_lastReceivedReliableCommand = 0 ∧
    (e.ConnectToServer hostname port now hook).m_lastFrameNumber = 0 ∧
    (e.ConnectToServer hostname port now hook).m_outReliableCommands = [] ∧
    (e.ConnectToServer hostname port now hook).m_currentServer
      = { host := hostname, port := port } :=
  ⟨rfl, rfl, rfl, rfl, rfl, rfl, rfl⟩

/-! ### Ticks, timeouts and disconnects (C13 to C16) -/

theorem ProcessSend_session (e : NetLibrary) (now : Nat) (hook : List Nat) :
    (e.ProcessSend now hook).m_connectionState = e.m_connectionState ∧
    (e.ProcessSend now hook).m_lastReceivedAt = e.m_lastReceivedAt ∧
    (e.ProcessSend now hook).m_currentServer = e.m_currentServer ∧
    (e.ProcessSend now hook).m_incomingPackets = e.m_incomingPackets ∧
    (e.ProcessSend now hook).m_connectAttempts = e.m_connectAttempts ∧
    (e.ProcessSend now hook).m_lastConnect = e.m_lastConnect := by
  unfold ProcessSend
  split_ifs <;> exact ⟨rfl, rfl, rfl, rfl, rfl, rfl⟩

theorem ProcessSend_of_inactive (e : NetLibrary) (now : Nat) (hook : List Nat)
    (h : e.m_connectionState ≠ CS_ACTIVE) : e.ProcessSend now hook = e := by
  unfold ProcessSend
  split_ifs <;> rfl

theorem forceSend_session (e : NetLibrary) (now : Nat) (hook : List Nat) :
    (e.forceSend now hook).m_connectionState = e.m_connectionState ∧
    (e.forceSend now hook).m_currentServer = e.m_currentServer ∧
    (e.forceSend now hook).m_incomingPackets = e.m_incomingPackets := by
  unfold forceSend
  obtain ⟨h1, _, h3, h4, _⟩ := ProcessSend_session { e with m_lastSend := 0 } now hook
  exact ⟨h1, h3, h4⟩

theorem forceSend_outgoing (e : NetLibrary) (now : Nat) (hook : List Nat)
    (ha : e.m_connectionState = CS_ACTIVE) (hn : sub32 now 0 ≥ 16) :
    (e.forceSend now hook).m_outgoingPackets = [] := by
  unfold forceSend ProcessSend
  dsimp only
  rw [if_neg (by simpa using hn), if_neg (by simpa using ha)]

theorem SendReliableCommand_session (e : NetLibrary) (t b : List Nat) :
    (e.SendReliableCommand t b).m_connectionState = e.m_connectionState ∧
    (e.SendReliableCommand t b).m_currentServer = e.m_currentServer ∧
    (e.SendReliableCommand t b).m_incomingPackets = e.m_incomingPackets := by
  unfold SendReliableCommand GlobalError emit
  dsimp only
  split_ifs <;> exact ⟨rfl, rfl, rfl⟩

theorem finishDisconnect_queues (e : NetLibrary) :
    (finishDisconnect e).m_incomingPackets = e.m_incomingPackets ∧
    (finishDisconnect e).m_outgoingPackets = e.m_outgoingPackets :=
  ⟨rfl, rfl⟩

theorem FinalizeDisconnect_open (e : NetLibrary) (now : Nat) (hook : List Nat)
    (h : e.m_connectionState = CS_CONNECTING ∨ e.m_connectionState = CS_ACTIVE) :
    e.FinalizeDisconnect now hook = finishDisconnect
      (forceSend
        (forceSend (e.SendReliableCommand (cstr "msgIQuit") (e.g_disconnectReason ++ [0]))
          now hook)
        now hook) := by
  unfold FinalizeDisconnect
  rw [if_pos h]

theorem FinalizeDisconnect_closed (e : NetLibrary) (now : Nat) (hook : List Nat)
    (h : ¬ (e.m_connectionState = CS_CONNECTING ∨ e.m_connectionState = CS_ACTIVE)) :
    e.FinalizeDisconnect now hook = e := by
  unfold FinalizeDisconnect
  rw [if_neg h]

theorem FinalizeDisconnect_idle (e : NetLibrary) (now : Nat) (hook : List Nat)
    (h : e.m_connectionState = CS_CONNECTING ∨ e.m_connectionState = CS_ACTIVE) :
    (e.FinalizeDisconnect now hook).m_connectionState = CS_IDLE ∧
    (e.FinalizeDisconnect now hook).events.getLast? =
      some (Event.OnFinalizeDisconnect e.m_currentServer) := by
  rw [FinalizeDisconnect_open e now hook h]
  refine ⟨rfl, ?_⟩
  have hs : (forceSend
        (forceSend (e.SendReliableCommand (cstr "msgIQuit") (e.g_disconnectReason ++ [0]))
          now hook) now hook).m_currentServer = e.m_currentServer := by
    rw [(forceSend_session _ now hook).2.1, (forceSend_session _ now hook).2.1,
      (SendReliableCommand_session e _ _).2.1]
  show (_ ++ [Event.OnFinalizeDisconnect _]).getLast? = _
  rw [List.getLast?_append, hs]
  rfl

theorem FinalizeDisconnect_incoming (e : NetLibrary) (now : Nat) (hook : List Nat) :
    (e.FinalizeDisconnect now hook).m_incomingPackets = e.m_incomingPackets := by
  by_cases h : e.m_connectionState = CS_CONNECTING ∨ e.m_connectionState = CS_ACTIVE
  · rw [FinalizeDisconnect_open e now hook h]
    rw [(finishDisconnect_queues _).1, (forceSend_session _ now hook).2.2, (forceSend_session _ now hook).2.2,
      (SendReliableCommand_session e _ _).2.2]
  · rw [FinalizeDisconnect_closed e now hook h]

theorem FinalizeDisconnect_outgoing (e : NetLibrary) (now : Nat) (hook : List Nat)
    (ha : e.m_connectionState = CS_ACTIVE) (hn : sub32 now 0 ≥ 16) :
    (e.FinalizeDisconnect now hook).m_outgoingPackets = [] := by
  rw [FinalizeDisconnect_open e now hook (Or.inr ha)]
  rw [(finishDisconnect_queues _).2]
  apply forceSend_outgoing _ now hook _ hn
  rw [(forceSend_session _ now hook).1, (SendReliableCommand_session e _ _).1, ha]

theorem announceState_session (e : NetLibrary) :
    (announceState e).m_connectionState = e.m_connectionState ∧
    (announceState e).m_lastReceivedAt = e.m_lastReceivedAt ∧
    (announceState e).m_connectAttempts = e.m_connectAttempts ∧
    (announceState e).m_lastConnect = e.m_lastConnect := by
  unfold announceState
  split_ifs <;> exact ⟨rfl, rfl, rfl, rfl⟩

theorem RunFrame_quiet (e : NetLibrary) (i : FrameInput) (h4 : i.inet4 = [])
    (h6 : i.inet6 = []) :
    e.RunFrame i =
      Outcome.ok (tickState ((announceState e).ProcessSend i.now i.hook) i.now i.hook i.guid) := by
  unfold RunFrame ProcessPackets
  rw [h4, h6]
  rfl

theorem attempt_session (e : NetLibrary) (now : Nat) (text : List Nat) (what : String) :
    (attempt e now text what).m_connectionState = e.m_connectionState ∧
    (attempt e now text what).m_connectAttempts = e.m_connectAttempts + 1 := by
  unfold attempt SendOutOfBand GlobalError emit
  dsimp only
  split_ifs <;> exact ⟨rfl, rfl⟩

theorem emit_session (e : NetLibrary) (ev : Event) :
    (e.emit ev).m_connectionState = e.m_connectionState ∧
    (e.emit ev).m_connectAttempts = e.m_connectAttempts ∧
    (e.emit ev).events = e.events ++ [ev] :=
  ⟨rfl, rfl, rfl⟩

theorem GlobalError_session (e : NetLibrary) (message : String) :
    (e.GlobalError message).m_connectionState = e.m_connectionState ∧
    (e.GlobalError message).m_connectAttempts = e.m_connectAttempts ∧
    (e.GlobalError message).events = e.events ++ [Event.GlobalError message] :=
  ⟨rfl, rfl, rfl⟩

theorem setDisconnectReason_session (e : NetLibrary) (reason : List Nat) :
    (setDisconnectReason e reason).m_connectionState = e.m_connectionState ∧
    (setDisconnectReason e reason).m_connectAttempts = e.m_connectAttempts ∧
    (setDisconnectReason e reason).events = e.events ∧
    (setDisconnectReason e reason).m_currentServer = e.m_currentServer :=
  ⟨rfl, rfl, rfl, rfl⟩

theorem timeOut_open (e : NetLibrary) (now : Nat) (hook reason : List Nat) (error : String)
    (h : e.m_connectionState = CS_CONNECTING ∨ e.m_connectionState = CS_ACTIVE) :
    (timeOut e now hook reason error).m_connectionState = CS_IDLE ∧
    (timeOut e now hook reason error).events =
      (FinalizeDisconnect (setDisconnectReason e reason) now hook).events ++
        [Event.OnConnectionTimedOut, Event.GlobalError error] := by
  unfold timeOut
  rw [(GlobalError_session _ _).1, (GlobalError_session _ _).2.2, (emit_session _ _).1,
    (emit_session _ _).2.2, (FinalizeDisconnect_idle (setDisconnectReason e reason) now hook h).1,
    List.append_assoc]
  exact ⟨rfl, rfl⟩

theorem tickState_active (e : NetLibrary) (now : Nat) (hook : List Nat) (guid : Nat)
    (h : e.m_connectionState = CS_ACTIVE) :
    tickState e now hook guid = tickActive e now hook := by
  unfold tickState
  rw [h]

theorem announceState_events (e : NetLibrary) :
    ∃ added, (announceState e).events = e.events ++ added ∧
      Event.OnConnectionTimedOut ∉ added := by
  unfold announceState
  split_ifs
  · exact ⟨[Event.OnStateChanged e.m_connectionState e.m_lastConnectionState], rfl, by simp⟩
  · exact ⟨[], (List.append_nil _).symm, by simp⟩

theorem ProcessSend_events (e : NetLibrary) (now : Nat) (hook : List Nat) :
    ∃ added, (e.ProcessSend now hook).events = e.events ++ added ∧
      Event.OnConnectionTimedOut ∉ added := by
  unfold ProcessSend
  split_ifs <;>
    first
    | exact ⟨[], (List.append_nil _).symm, by simp⟩
    | exact ⟨[Event.NetChannelSend (buildFrame e hook).written], rfl, by simp⟩

/-- C16: on a tick without datagrams an active engine is timed out exactly when
`(now - m_lastReceivedAt) mod 2^32 > 15000`: then the tick ends in `CS_IDLE` and the
last two calls it makes are `OnConnectionTimedOut` and the global error; otherwise
the tick ends in `CS_ACTIVE` and the calls it adds do not include
`OnConnectionTimedOut`. -/
theorem C16_active_timeout (e : NetLibrary) (i : FrameInput)
    (hs : e.m_connectionState = CS_ACTIVE) (h4 : i.inet4 = []) (h6 : i.inet6 = []) :
    ∃ e1, e.RunFrame i = Outcome.ok e1 ∧
      (sub32 i.now e.m_lastReceivedAt > 15000 →
        e1.m_connectionState = CS_IDLE ∧
        ∃ before, e1.events = before ++ [Event.OnConnectionTimedOut,
          Event.GlobalError "Server connection timed out after 15 seconds."]) ∧
      (¬ sub32 i.now e.m_lastReceivedAt > 15000 →
        e1.m_connectionState = CS_ACTIVE ∧
        ∃ added, e1.events = e.events ++ added ∧ Event.OnConnectionTimedOut ∉ added) := by
  have ha : ((announceState e).ProcessSend i.now i.hook).m_connectionState = CS_ACTIVE := by
    rw [(ProcessSend_session _ _ _).1, (announceState_session e).1, hs]
  have hr : ((announceState e).ProcessSend i.now i.hook).m_lastReceivedAt
      = e.m_lastReceivedAt := by
    rw [(ProcessSend_session _ _ _).2.1, (announceState_session e).2.1]
  refine ⟨_, RunFrame_quiet e i h4 h6, ?_, ?_⟩
  · intro hc
    rw [tickState_active _ _ _ _ ha]
    unfold tickActive
    rw [hr, if_pos hc]
    obtain ⟨t1, t2⟩ := timeOut_open ((announceState e).ProcessSend i.now i.hook) i.now i.hook
      (cstr "Connection timed out.") "Server connection timed out after 15 seconds."
      (Or.inr ha)
    exact ⟨t1, _, t2⟩
  · intro hc
    rw [tickState_active _ _ _ _ ha]
    unfold tickActive
    rw [hr, if_neg hc]
    refine ⟨ha, ?_⟩
    obtain ⟨a1, b1, c1⟩ := announceState_events e
    obtain ⟨a2, b2, c2⟩ := ProcessSend_events (announceState e) i.now i.hook
    refine ⟨a1 ++ a2, ?_, ?_⟩
    · rw [b2, b1, List.append_assoc]
    · simp [c1, c2]

/-- C16 at the boundary: the tick at 16001 ms (15001 ms of silence) times
`activeEngine` out, the tick at 16000 ms (15000 ms of silence) does not. -/
theorem C16_active_timeout_witness :
    (∃ e1, activeEngine.RunFrame (quietTick 16001) = Outcome.ok e1 ∧
      (sub32 (quietTick 16001).now activeEngine.m_lastReceivedAt > 15000 →
        e1.m_connectionState = CS_IDLE ∧
        ∃ before, e1.events = before ++ [Event.OnConnectionTimedOut,
          Event.GlobalError "Server connection timed out after 15 seconds."]) ∧
      (¬ sub32 (quietTick 16001).now activeEngine.m_lastReceivedAt > 15000 →
        e1.m_connectionState = CS_ACTIVE ∧
        ∃ added, e1.events = activeEngine.events ++ added ∧
          Event.OnConnectionTimedOut ∉ added)) ∧
    sub32 (quietTick 16001).now activeEngine.m_lastReceivedAt > 15000 ∧
    ¬ sub32 (quietTick 16000).now activeEngine.m_lastReceivedAt > 15000 :=
  ⟨C16_active_timeout activeEngine (quietTick 16001) rfl rfl rfl, by decide, by decide⟩

theorem Disconnect_session (e : NetLibrary) (reason : List Nat) :
    (e.Disconnect reason).m_connectionState = e.m_connectionState ∧
    (e.Disconnect reason).m_currentServer = e.m_currentServer ∧
    (e.Disconnect reason).events = e.events ++ [Event.OnAttemptDisconnect reason] :=
  ⟨rfl, rfl, rfl⟩

/-- C14 refuted as stated: on an idle engine `Disconnect` followed by
`FinalizeDisconnect` makes the single call `OnAttemptDisconnect`;
`OnFinalizeDisconnect` is not emitted. -/
theorem C14_counterexample :
    ((create.Disconnect (cstr "bye")).FinalizeDisconnect 100 []).events
      = [Event.OnAttemptDisconnect (cstr "bye")] ∧
    Event.OnFinalizeDisconnect NetAddress.empty ∉
      ((create.Disconnect (cstr "bye")).FinalizeDisconnect 100 []).events := by
  decide

/-- C14 amended: from `CS_CONNECTING` and from `CS_ACTIVE`, `Disconnect(reason)`
followed by `FinalizeDisconnect` ends in `CS_IDLE` with `OnFinalizeDisconnect` of
the server as the last call made; from `CS_IDLE` the state stays `CS_IDLE` and the
only call made is `OnAttemptDisconnect`. -/
theorem C14_disconnect_then_finalize (e : NetLibrary) (reason : List Nat) (now : Nat)
    (hook : List Nat) :
    ((e.m_connectionState = CS_CONNECTING ∨ e.m_connectionState = CS_ACTIVE) →
      ((e.Disconnect reason).FinalizeDisconnect now hook).m_connectionState = CS_IDLE ∧
      ((e.Disconnect reason).FinalizeDisconnect now hook).events.getLast? =
        some (Event.OnFinalizeDisconnect e.m_currentServer)) ∧
    (e.m_connectionState = CS_IDLE →
      ((e.Disconnect reason).FinalizeDisconnect now hook).m_connectionState = CS_IDLE ∧
      ((e.Disconnect reason).FinalizeDisconnect now hook).events =
        e.events ++ [Event.OnAttemptDisconnect reason]) := by
  constructor
  · intro h
    exact FinalizeDisconnect_idle (e.Disconnect reason) now hook h
  · intro h
    rw [FinalizeDisconnect_closed (e.Disconnect reason) now hook
      (by rw [(Disconnect_session e reason).1, h]; decide)]
    exact ⟨h, rfl⟩

/-- C14 amended, on `activeEngine` and on the idle engine `create`. -/
theorem C14_disconnect_then_finalize_witness :
    ((activeEngine.Disconnect (cstr "bye")).FinalizeDisconnect 100 []).m_connectionState
      = CS_IDLE ∧
    ((activeEngine.Disconnect (cstr "bye")).FinalizeDisconnect 100 []).events.getLast? =
      some (Event.OnFinalizeDisconnect sampleServer) ∧
    ((create.Disconnect (cstr "bye")).FinalizeDisconnect 100 []).m_connectionState = CS_IDLE :=
  ⟨((C14_disconnect_then_finalize activeEngine (cstr "bye") 100 []).1 (Or.inr rfl)).1,
   ((C14_disconnect_then_finalize activeEngine (cstr "bye") 100 []).1 (Or.inr rfl)).2,
   ((C14_disconnect_then_finalize create (cstr "bye") 100 []).2 rfl).1⟩

/-- C15 refuted as stated: after `FinalizeDisconnect` on an active engine the
outbound reliable store holds the "msgIQuit" command (id 1), and a routing packet
that was waiting in the incoming queue is still there. -/
theorem C15_counterexample :
    ((freshReceiver.FinalizeDisconnect 100 []).m_outReliableCommands.map
      (fun c => c.id)) = [1] ∧
    ((freshReceiver.EnqueueRoutedPacket 3 [7] 5).FinalizeDisconnect 100 []).m_incomingPackets
      = [{ netID := 3, payload := [7], genTime := 5 }] := by
  decide

/-- C15 amended: `FinalizeDisconnect` never changes the incoming routing queue;
on an active engine whose clock reads at least 16 ms it leaves the outgoing routing
queue empty; from `CS_CONNECTING` and `CS_ACTIVE` the outbound reliable store is the
old store followed by the "msgIQuit" command with the next id and the reason bytes
followed by one NUL byte; from every other state the engine is unchanged.  The
store is emptied by the next `ConnectToServer`. -/
theorem C15_finalize_queues (e : NetLibrary) (now : Nat) (hook : List Nat) :
    (e.FinalizeDisconnect now hook).m_incomingPackets = e.m_incomingPackets ∧
    (e.m_connectionState = CS_ACTIVE → sub32 now 0 ≥ 16 →
      (e.FinalizeDisconnect now hook).m_outgoingPackets = []) ∧
    ((e.m_connectionState = CS_CONNECTING ∨ e.m_connectionState = CS_ACTIVE) →
      (e.FinalizeDisconnect now hook).m_outReliableCommands = e.m_outReliableCommands ++
        [{ type := HashRageString (cstr "msgIQuit"),
           id := (e.m_outReliableSequence + 1) % U32,
           command := e.g_disconnectReason ++ [0] }]) ∧
    (¬ (e.m_connectionState = CS_CONNECTING ∨ e.m_connectionState = CS_ACTIVE) →
      e.FinalizeDisconnect now hook = e) ∧
    (∀ (hostname : List Nat) (port later : Nat) (hook2 : List Nat),
      ((e.FinalizeDisconnect now hook).ConnectToServer hostname port later
        hook2).m_outReliableCommands = []) := by
  refine ⟨FinalizeDisconnect_incoming e now hook, FinalizeDisconnect_outgoing e now hook, ?_,
    FinalizeDisconnect_closed e now hook, fun _ _ _ _ => rfl⟩
  intro h
  rw [(FinalizeDisconnect_outbound e now hook).1, if_pos h, SendReliableCommand_store]

/-- C15 amended, on `activeEngine` with one routing packet in each queue. -/
theorem C15_finalize_queues_witness :
    ((((activeEngine.EnqueueRoutedPacket 3 [7] 5).RoutePacket [1] 4).FinalizeDisconnect
      100 []).m_outgoingPackets = []) ∧
    ((((activeEngine.EnqueueRoutedPacket 3 [7] 5).RoutePacket [1] 4).FinalizeDisconnect
      100 []).m_incomingPackets = [{ netID := 3, payload := [7], genTime := 5 }]) :=
  ⟨(C15_finalize_queues ((activeEngine.EnqueueRoutedPacket 3 [7] 5).RoutePacket [1] 4)
      100 []).2.1 rfl (by decide),
   by rw [(C15_finalize_queues ((activeEngine.EnqueueRoutedPacket 3 [7] 5).RoutePacket [1] 4)
      100 []).1]; rfl⟩

/-! ### The "connectOK" text (C18, C19) -/

theorem splitAtSpace_of_no_space (s : List Nat) (h : s.count 32 = 0) :
    splitAtSpace s = none := by
  unfold splitAtSpace
  have hd : s.dropWhile (fun c => c != 32) = [] := by
    rw [List.dropWhile_eq_nil_iff]
    intro x hx
    have : x ≠ 32 := fun hxe => by
      subst hxe
      exact absurd (List.count_pos_iff.mpr hx) (by omega)
    simpa using this
  rw [hd]

theorem splitAtSpace_count (s a b : List Nat) (h : splitAtSpace s = some (a, b)) :
    s.count 32 = b.count 32 + 1 := by
  unfold splitAtSpace at h
  split at h
  · exact absurd h (by simp)
  · rename_i c behind hd
    have hb : behind = b := by
      simp only [Option.some.injEq, Prod.mk.injEq] at h
      exact h.2
    have hc : c = 32 := by
      have := List.head_dropWhile_not (fun c => c != 32) s (by rw [hd]; simp)
      simp only [hd, List.head_cons] at this
      simpa using this
    have hs : s = s.takeWhile (fun c => c != 32) ++ c :: behind := by
      rw [← hd, List.takeWhile_append_dropWhile]
    have ht : (s.takeWhile (fun c => c != 32)).count 32 = 0 := by
      rw [List.count_eq_zero]
      intro hm
      have := List.mem_takeWhile_imp hm
      simp at this
    rw [hs, List.count_append, ht, hc, hb]
    simp

theorem connectOK_not_infoResponse (oob : List Nat)
    (hc : startsWithNoCase oob (cstr "connectOK") = true) :
    startsWithNoCase oob (cstr "infoResponse") = false := by
  unfold startsWithNoCase at *
  cases oob with
  | nil => exact absurd hc (by decide)
  | cons x rest =>
    have h1 : (cstr "connectOK").map ToLower = 99 :: [111, 110, 110, 101, 99, 116, 111, 107] := by
      decide
    have h2 : (cstr "infoResponse").map ToLower
        = 105 :: [110, 102, 111, 114, 101, 115, 112, 111, 110, 115, 101] := by decide
    have l1 : (cstr "connectOK").length = 8 + 1 := by decide
    have l2 : (cstr "infoResponse").length = 11 + 1 := by decide
    rw [h1, l1, List.take_succ_cons, List.map_cons] at hc
    rw [h2, l2, List.take_succ_cons, List.map_cons]
    have hx : ToLower x = 99 := by
      have := beq_iff_eq.mp hc
      exact (List.cons.inj this).1
    rw [hx]
    rfl

/-- C19 (the code does otherwise): a text from the current server that begins with
"connectOK" and has fewer than two spaces in the C string behind its tenth byte
makes `ProcessOOB` write through the null pointer that `strchr` returned, whatever
the `length` argument is. -/
theorem C19_connectOK_missing_separator (e : NetLibrary) (oob : List Nat) (length : Nat)
    (gameLoaded : Bool)
    (hc : startsWithNoCase oob (cstr "connectOK") = true)
    (hn : (cstrAt oob 10).count 32 < 2) :
    e.ProcessOOB e.m_currentServer oob length gameLoaded
      = Outcome.fault Fault.nullDereference := by
  unfold ProcessOOB
  rw [if_pos rfl, connectOK_not_infoResponse oob hc, hc]
  simp only [Bool.false_eq_true, if_false, if_true]
  unfold oobConnectOK
  cases h1 : splitAtSpace (cstrAt oob 10) with
  | none => rfl
  | some p =>
    obtain ⟨a, behind⟩ := p
    have hcount := splitAtSpace_count _ _ _ h1
    dsimp only
    rw [splitAtSpace_of_no_space behind (by omega)]

/-- C19 on the texts "connectOK 42" and "connectOK" sent to `connectingEngine` by
its server. -/
theorem C19_connectOK_missing_separator_witness :
    connectingEngine.ProcessOOB sampleServer (cstr "connectOK 42") 12 false
      = Outcome.fault Fault.nullDereference ∧
    connectingEngine.ProcessOOB sampleServer (cstr "connectOK") 9 false
      = Outcome.fault Fault.nullDereference :=
  ⟨C19_connectOK_missing_separator connectingEngine (cstr "connectOK 42") 12 false
      (by decide) (by decide),
   C19_connectOK_missing_separator connectingEngine (cstr "connectOK") 9 false
      (by decide) (by decide)⟩

theorem digitChar_value (k : Nat) (h : k < 10) :
    (Nat.digitChar k).toNat - 48 = k ∧ isdigit (Nat.digitChar k).toNat = true := by
  interval_cases k <;> exact ⟨by decide, by decide⟩

theorem toDigitsCore_value (fuel : Nat) : ∀ (n : Nat) (ds : List Char), n < fuel →
    ((Nat.toDigitsCore 10 fuel n ds).map Char.toNat).foldl (fun acc c => 10 * acc + (c - 48)) 0
      = (ds.map Char.toNat).foldl (fun acc c => 10 * acc + (c - 48)) n := by
  induction fuel with
  | zero => intro n ds h; omega
  | succ fuel ih =>
    intro n ds h
    unfold Nat.toDigitsCore
    dsimp only
    have hd := (digitChar_value (n % 10) (Nat.mod_lt _ (by decide))).1
    split_ifs with h0
    · rw [List.map_cons, List.foldl_cons, hd]
      have : n % 10 = n := by omega
      rw [Nat.mul_zero, Nat.zero_add, this]
    · rw [ih (n / 10) _ (by omega), List.map_cons, List.foldl_cons, hd]
      have : 10 * (n / 10) + n % 10 = n := Nat.div_add_mod n 10
      rw [this]

theorem toDigitsCore_isdigit (fuel : Nat) : ∀ (n : Nat) (ds : List Char),
    (∀ c ∈ ds, isdigit c.toNat = true) →
    ∀ c ∈ Nat.toDigitsCore 10 fuel n ds, isdigit c.toNat = true := by
  induction fuel with
  | zero => intro n ds h; exact h
  | succ fuel ih =>
    intro n ds h
    unfold Nat.toDigitsCore
    dsimp only
    have hd := (digitChar_value (n % 10) (Nat.mod_lt _ (by decide))).2
    have hcons : ∀ c ∈ Nat.digitChar (n % 10) :: ds, isdigit c.toNat = true := by
      intro c hc
      rcases List.mem_cons.mp hc with rfl | hc
      · exact hd
      · exact h c hc
    split_ifs with h0
    · exact hcons
    · exact ih (n / 10) _ hcons

theorem digitsValue_decimal (n : Nat) : digitsValue (decimal n) = n := by
  unfold digitsValue decimal Nat.toDigits
  rw [toDigitsCore_value (n + 1) n [] (by omega)]
  rfl

theorem isdigit_decimal (n : Nat) : ∀ c ∈ decimal n, isdigit c = true := by
  intro c hc
  unfold decimal Nat.toDigits at hc
  obtain ⟨ch, hch, rfl⟩ := List.mem_map.mp hc
  exact toDigitsCore_isdigit (n + 1) n [] (by simp) ch hch

theorem atoi_digits (ds : List Nat) (h : ∀ c ∈ ds, isdigit c = true) :
    atoi ds = toInt32 (max (-9223372036854775808)
      (min (digitsValue ds : Int) 9223372036854775807)) := by
  have htake : ds.takeWhile isdigit = ds := by
    rw [List.takeWhile_eq_self_iff]
    exact h
  unfold atoi
  cases ds with
  | nil => rfl
  | cons d t =>
    have hd : isdigit d = true := h d (List.mem_cons_self _ _)
    have hr : 48 ≤ d ∧ d ≤ 57 := by
      unfold isdigit at hd
      simpa using hd
    have hsp : isspace d = false := by
      unfold isspace
      have h1 : (d == 32) = false := by simpa using (show d ≠ 32 by omega)
      have h2 : (decide (d ≤ 13)) = false := by simpa using (show 13 < d by omega)
      rw [h1, h2]
      simp
    have hdrop : (d :: t).dropWhile isspace = d :: t := by
      rw [List.dropWhile_cons, hsp]
      rfl
    have h45 : ((some d : Option Nat) == some 45) = false := by
      simpa using (show d ≠ 45 by omega)
    have h43 : ((some d : Option Nat) == some 43) = false := by
      simpa using (show d ≠ 43 by omega)
    dsimp only
    rw [hdrop, List.head?_cons, h45, h43]
    simp only [Bool.or_self, Bool.false_eq_true, if_false, htake]

theorem atoi_unsigned16 (ds : List Nat) (h : ∀ c ∈ ds, isdigit c = true)
    (hv : digitsValue ds < 65536) : toUnsigned 16 (atoi ds) = digitsValue ds := by
  rw [atoi_digits ds h]
  unfold toUnsigned toInt32
  omega

theorem atoi_unsigned32 (ds : List Nat) (h : ∀ c ∈ ds, isdigit c = true)
    (hv : digitsValue ds < 4294967296) : toUnsigned 32 (atoi ds) = digitsValue ds := by
  rw [atoi_digits ds h]
  unfold toUnsigned toInt32
  omega

theorem digit_bounds (ds : List Nat) (h : ∀ c ∈ ds, isdigit c = true) :
    ∀ c ∈ ds, 48 ≤ c ∧ c ≤ 57 := by
  intro c hc
  have := h c hc
  unfold isdigit at this
  simpa using this

theorem splitAtSpace_digits (ds rest : List Nat) (h : ∀ c ∈ ds, isdigit c = true) :
    splitAtSpace (ds ++ 32 :: rest) = some (ds, rest) := by
  have hb := digit_bounds ds h
  have hp : ∀ c ∈ ds, (c != 32) = true := by
    intro c hc
    have := hb c hc
    simpa using (show c ≠ 32 by omega)
  have hdrop : (ds ++ 32 :: rest).dropWhile (fun c => c != 32) = 32 :: rest := by
    rw [List.dropWhile_append_of_pos hp]
    rfl
  have htake : (ds ++ 32 :: rest).takeWhile (fun c => c != 32) = ds := by
    rw [List.takeWhile_append_of_pos hp]
    simp
  unfold splitAtSpace
  rw [hdrop, htake]

theorem cstrAt_connectOK (body tail : List Nat) (h : ∀ c ∈ body, c ≠ 0)
    (ht : tail.headD 0 = 0) :
    cstrAt (cstr "connectOK " ++ body ++ tail) 10 = body := by
  unfold cstrAt
  have hl : (cstr "connectOK ").length = 10 := by decide
  have hp : ∀ c ∈ body, (c != 0) = true := by
    intro c hc
    simpa using h c hc
  rw [List.append_assoc, List.drop_left' hl, List.takeWhile_append_of_pos hp]
  cases tail with
  | nil => simp
  | cons x t =>
    have hx : x = 0 := ht
    subst hx
    simp

theorem toUnsigned_natCast (bits n : Nat) (h : n < 2 ^ bits) :
    toUnsigned bits (n : Int) = n := by
  unfold toUnsigned
  have : ((n : Int) % (2 ^ bits : Int)) = (n : Int) := by
    apply Int.emod_eq_of_lt (by omega)
    exact_mod_cast h
  rw [this]
  rfl

theorem acceptConnectOK_fields (e : NetLibrary) (a b c : Int) :
    (acceptConnectOK e a b c).m_serverNetID = toUnsigned 16 a ∧
    (acceptConnectOK e a b c).m_hostNetID = toUnsigned 16 b ∧
    (acceptConnectOK e a b c).m_hostBase = toUnsigned 32 c ∧
    (acceptConnectOK e a b c).m_lastReceivedReliableCommand = 0 ∧
    (acceptConnectOK e a b c).m_connectionState = CS_CONNECTED :=
  ⟨rfl, rfl, rfl, rfl, rfl⟩

theorem ProcessOOB_connectOK_digits (e : NetLibrary) (da db dc tail : List Nat)
    (length : Nat) (gameLoaded : Bool)
    (ha : ∀ c ∈ da, isdigit c = true) (hb : ∀ c ∈ db, isdigit c = true)
    (hc : ∀ c ∈ dc, isdigit c = true) (ht : tail.headD 0 = 0) :
    e.ProcessOOB e.m_currentServer
        (cstr "connectOK " ++ (da ++ 32 :: (db ++ 32 :: dc)) ++ tail) length gameLoaded =
      Outcome.ok (acceptConnectOK e (atoi da) (atoi db) (atoi dc)) := by
  have hstart : startsWithNoCase (cstr "connectOK " ++ (da ++ 32 :: (db ++ 32 :: dc)) ++ tail)
      (cstr "connectOK") = true := by
    unfold startsWithNoCase
    have : cstr "connectOK " = cstr "connectOK" ++ [32] := by decide
    rw [this, List.append_assoc, List.append_assoc, List.take_left]
    exact beq_self_eq_true _
  have hbody : ∀ c ∈ da ++ 32 :: (db ++ 32 :: dc), c ≠ 0 := by
    intro c hm
    have ba := digit_bounds da ha
    have bb := digit_bounds db hb
    have bc := digit_bounds dc hc
    simp only [List.mem_append, List.mem_cons] at hm
    rcases hm with h | h | h | h | h
    · have := ba c h; omega
    · omega
    · have := bb c h; omega
    · omega
    · have := bc c h; omega
  unfold ProcessOOB
  rw [if_pos rfl, connectOK_not_infoResponse _ hstart, hstart]
  simp only [Bool.false_eq_true, if_false, if_true]
  unfold oobConnectOK
  rw [cstrAt_connectOK _ _ hbody ht, splitAtSpace_digits da _ ha]
  dsimp only
  rw [splitAtSpace_digits db _ hb]

theorem digitsValue_snoc (ds : List Nat) (d : Nat) :
    digitsValue (ds ++ [d]) = 10 * digitsValue ds + (d - 48) := by
  unfold digitsValue
  rw [List.foldl_append]
  rfl

/-- C18 (the code does otherwise behind a longer datagram): for `a` and `b` below
2^16 and `c` below 2^32, the text "connectOK a b c" in decimal from the current
server sets the three fields, zeroes the last received reliable id and connects
when the byte behind the text is NUL.  The branch does not look at the `length`
argument: when the byte behind the text is a digit `d` and a NUL follows, the host
base is set to the value of the digits of `c` followed by `d`.  That is what the
receive buffer, cleared once for all datagrams of a call, holds behind the text
"connectOK 42 17 99" that follows the longer datagram "connectOK 42 17 995" of
another sender: the host base becomes 995.  Above 2^31 - 1 the value of `c` rests
on the result that the model of `atoi` takes outside the range of `int`. -/
theorem C18_connectOK_fields (e : NetLibrary) (a b c : Nat) (tail : List Nat) (length : Nat)
    (gameLoaded : Bool) (ha : a < 65536) (hb : b < 65536) (hc : c < 4294967296) :
    (tail.headD 0 = 0 →
      ∃ e1, e.ProcessOOB e.m_currentServer
          (cstr "connectOK " ++ (decimal a ++ 32 :: (decimal b ++ 32 :: decimal c)) ++ tail)
          length gameLoaded = Outcome.ok e1 ∧
        e1.m_serverNetID = a ∧ e1.m_hostNetID = b ∧ e1.m_hostBase = c ∧
        e1.m_lastReceivedReliableCommand = 0 ∧ e1.m_connectionState = CS_CONNECTED) ∧
    (∀ d, isdigit d = true → 10 * c + (d - 48) < 4294967296 →
      ∃ e1, e.ProcessOOB e.m_currentServer
          (cstr "connectOK " ++ (decimal a ++ 32 :: (decimal b ++ 32 :: decimal c))
            ++ d :: 0 :: tail)
          length gameLoaded = Outcome.ok e1 ∧
        e1.m_serverNetID = a ∧ e1.m_hostNetID = b ∧ e1.m_hostBase = 10 * c + (d - 48) ∧
        e1.m_lastReceivedReliableCommand = 0 ∧ e1.m_connectionState = CS_CONNECTED) ∧
    (∃ e2, connectingEngine.ProcessPacketsInternal 0 false shorterConnectOK = Outcome.ok e2 ∧
      e2.m_serverNetID = 42 ∧ e2.m_hostNetID = 17 ∧ e2.m_hostBase = 995 ∧
      e2.m_connectionState = CS_CONNECTED) := by
  have hA := atoi_unsigned16 (decimal a) (isdigit_decimal a)
    (by rw [digitsValue_decimal]; exact ha)
  have hB := atoi_unsigned16 (decimal b) (isdigit_decimal b)
    (by rw [digitsValue_decimal]; exact hb)
  rw [digitsValue_decimal] at hA hB
  refine ⟨?_, ?_, ?_⟩
  · intro ht
    have hC := atoi_unsigned32 (decimal c) (isdigit_decimal c)
      (by rw [digitsValue_decimal]; exact hc)
    rw [digitsValue_decimal] at hC
    refine ⟨_, ProcessOOB_connectOK_digits e (decimal a) (decimal b) (decimal c) tail length
      gameLoaded (isdigit_decimal a) (isdigit_decimal b) (isdigit_decimal c) ht, ?_⟩
    obtain ⟨f1, f2, f3, f4, f5⟩ :=
      acceptConnectOK_fields e (atoi (decimal a)) (atoi (decimal b)) (atoi (decimal c))
    rw [f1, f2, f3, hA, hB, hC]
    exact ⟨rfl, rfl, rfl, f4, f5⟩
  · intro d hd hv
    have hdig : ∀ x ∈ decimal c ++ [d], isdigit x = true := by
      intro x hx
      rcases List.mem_append.mp hx with h | h
      · exact isdigit_decimal c x h
      · rw [List.mem_singleton.mp h]
        exact hd
    have hC := atoi_unsigned32 (decimal c ++ [d]) hdig
      (by rw [digitsValue_snoc, digitsValue_decimal]; exact hv)
    rw [digitsValue_snoc, digitsValue_decimal] at hC
    have hrun := ProcessOOB_connectOK_digits e (decimal a) (decimal b) (decimal c ++ [d])
      (0 :: tail) length gameLoaded (isdigit_decimal a) (isdigit_decimal b) hdig rfl
    have hmem : cstr "connectOK " ++ (decimal a ++ 32 :: (decimal b ++ 32 :: decimal c))
          ++ d :: 0 :: tail
        = cstr "connectOK " ++ (decimal a ++ 32 :: (decimal b ++ 32 :: (decimal c ++ [d])))
          ++ 0 :: tail := by
      simp
    rw [hmem]
    refine ⟨_, hrun, ?_⟩
    obtain ⟨f1, f2, f3, f4, f5⟩ :=
      acceptConnectOK_fields e (atoi (decimal a)) (atoi (decimal b)) (atoi (decimal c ++ [d]))
    rw [f1, f2, f3, hA, hB, hC]
    exact ⟨rfl, rfl, rfl, f4, f5⟩
  · exact ⟨_, rfl, by decide⟩

/-- C18 on `connectingEngine`: the text "connectOK 42 17 99" with nothing behind it
sets the host base to 99, the same text in front of the stale byte "5" sets it to
995, and 995 is not 99. -/
theorem C18_connectOK_fields_witness :
    (∃ e1, connectingEngine.ProcessOOB sampleServer (cstr "connectOK 42 17 99") 18 false
        = Outcome.ok e1 ∧
      e1.m_serverNetID = 42 ∧ e1.m_hostNetID = 17 ∧ e1.m_hostBase = 99 ∧
      e1.m_lastReceivedReliableCommand = 0 ∧ e1.m_connectionState = CS_CONNECTED) ∧
    (∃ e1, connectingEngine.ProcessOOB sampleServer (cstr "connectOK 42 17 995" ++ [0]) 18
        false = Outcome.ok e1 ∧
      e1.m_serverNetID = 42 ∧ e1.m_hostNetID = 17 ∧ e1.m_hostBase = 995 ∧
      e1.m_lastReceivedReliableCommand = 0 ∧ e1.m_connectionState = CS_CONNECTED) ∧
    (995 : Nat) ≠ 99 :=
  ⟨(C18_connectOK_fields connectingEngine 42 17 99 [] 18 false (by decide) (by decide)
      (by decide)).1 rfl,
   (C18_connectOK_fields connectingEngine 42 17 99 [] 18 false (by decide) (by decide)
      (by decide)).2.1 53 (by decide) (by decide),
   by decide⟩

/-! ### The completion of the HTTP handshake (C20) -/

theorem failHandshake_session (e : NetLibrary) (message : String) :
    (failHandshake e message).m_connectionState = CS_IDLE ∧
    (failHandshake e message).events = e.events ++ [Event.OnConnectionError message] :=
  ⟨rfl, rfl⟩

theorem catchYamlException_session (e : NetLibrary) :
    (catchYamlException e).m_connectionState = CS_IDLE ∧
    (catchYamlException e).events = e.events :=
  ⟨rfl, rfl⟩

theorem storeHandshake_throws (e : NetLibrary) (n : ConnDataNode)
    (h : (∀ t, n.token ≠ YamlValue.value t) ∨ (∀ p, n.protocol ≠ YamlValue.value p)) :
    (storeHandshake e n).m_connectionState = CS_IDLE ∧
    (storeHandshake e n).events = e.events := by
  unfold storeHandshake
  cases ht : n.token with
  | undefined => exact ⟨rfl, rfl⟩
  | illTyped => exact ⟨rfl, rfl⟩
  | value t =>
    cases hp : n.protocol with
    | undefined => exact ⟨rfl, rfl⟩
    | illTyped => exact ⟨rfl, rfl⟩
    | value p =>
      rcases h with h | h
      · exact absurd ht (h t)
      · exact absurd hp (h p)

theorem storeHandshake_stores (e : NetLibrary) (n : ConnDataNode) (t : List Nat) (p : Nat)
    (ht : n.token = YamlValue.value t) (hp : n.protocol = YamlValue.value p) :
    (storeHandshake e n).m_connectionState = CS_INITRECEIVED ∧
    (storeHandshake e n).m_token = t ∧
    (storeHandshake e n).m_serverProtocol = p := by
  unfold storeHandshake
  rw [ht, hp]
  exact ⟨rfl, rfl, rfl⟩

/-- C20 (the code does otherwise): the completion callback of the handshake ends in
`CS_IDLE` with `OnConnectionError` when the HTTP request failed, when the body has
an `error` string, and when it lacks `sH`; it ends in `CS_INITRECEIVED` with the
token and the protocol stored when both are present and well typed.  When the body
is not YAML, or the token or the protocol is missing or ill typed, the handler of
`YAML::Exception` sets `CS_IDLE` and `OnConnectionError` is not emitted. -/
theorem C20_handshake_completion (e : NetLibrary) (body : List Nat) :
    (∀ node, (e.handleAuthResult false body node).m_connectionState = CS_IDLE ∧
      ∃ message, (e.handleAuthResult false body node).events
        = e.events ++ [Event.OnConnectionError message]) ∧
    ((e.handleAuthResult true body none).m_connectionState = CS_IDLE ∧
      (e.handleAuthResult true body none).events = e.events) ∧
    (∀ n message, n.error = YamlValue.value message →
      (e.handleAuthResult true body (some n)).m_connectionState = CS_IDLE ∧
      (e.handleAuthResult true body (some n)).events
        = e.events ++ [Event.OnConnectionError (bytesToString message)]) ∧
    (∀ n, n.error = YamlValue.undefined → n.sH = YamlValue.undefined →
      (e.handleAuthResult true body (some n)).m_connectionState = CS_IDLE ∧
      ∃ message, (e.handleAuthResult true body (some n)).events
        = e.events ++ [Event.OnConnectionError message]) ∧
    (∀ n, n.error = YamlValue.undefined → n.sH ≠ YamlValue.undefined →
      ((∀ t, n.token ≠ YamlValue.value t) ∨ (∀ p, n.protocol ≠ YamlValue.value p)) →
      (e.handleAuthResult true body (some n)).m_connectionState = CS_IDLE ∧
      (e.handleAuthResult true body (some n)).events = e.events ++
        [Event.SetShAllowed (n.sH.asOr true),
          Event.SetEnhancedHostSupport
            (n.enhancedHostSupport.IsDefined && n.enhancedHostSupport.asOr false)]) ∧
    (∀ n t p, n.error = YamlValue.undefined → n.sH ≠ YamlValue.undefined →
      n.token = YamlValue.value t → n.protocol = YamlValue.value p →
      (e.handleAuthResult true body (some n)).m_connectionState = CS_INITRECEIVED ∧
      (e.handleAuthResult true body (some n)).m_token = t ∧
      (e.handleAuthResult true body (some n)).m_serverProtocol = p) := by
  have hdef : ∀ n : ConnDataNode, n.sH ≠ YamlValue.undefined → n.sH.IsDefined = true := by
    intro n h
    cases hs : n.sH with
    | undefined => exact absurd hs h
    | illTyped => rfl
    | value v => rfl
  refine ⟨?_, ⟨rfl, rfl⟩, ?_, ?_, ?_, ?_⟩
  · intro node
    unfold handleAuthResult
    rw [if_pos rfl]
    exact ⟨rfl, _, rfl⟩
  · intro n message he
    unfold handleAuthResult readHandshake
    rw [if_neg (by decide)]
    dsimp only
    rw [he]
    exact ⟨rfl, rfl⟩
  · intro n he hs
    unfold handleAuthResult readHandshake
    rw [if_neg (by decide)]
    dsimp only
    rw [he, hs]
    exact ⟨rfl, _, rfl⟩
  · intro n he hs h
    unfold handleAuthResult readHandshake
    rw [if_neg (by decide)]
    dsimp only
    rw [he, if_neg (by decide), if_neg (by rw [hdef n hs]; decide)]
    obtain ⟨s1, s2⟩ := storeHandshake_throws
      ((e.emit (Event.SetShAllowed (n.sH.asOr true))).emit
        (Event.SetEnhancedHostSupport
          (n.enhancedHostSupport.IsDefined && n.enhancedHostSupport.asOr false))) n h
    rw [s1, s2, (emit_session _ _).2.2, (emit_session _ _).2.2, List.append_assoc]
    exact ⟨rfl, rfl⟩
  · intro n t p he hs ht hp
    unfold handleAuthResult readHandshake
    rw [if_neg (by decide)]
    dsimp only
    rw [he, if_neg (by decide), if_neg (by rw [hdef n hs]; decide)]
    exact storeHandshake_stores _ n t p ht hp

/-- C20 on `initingEngine`: a body that is not YAML and a response without a token
end in `CS_IDLE` without `OnConnectionError`; the response `sampleHandshake` ends
in `CS_INITRECEIVED` with its token and protocol stored. -/
theorem C20_handshake_completion_witness :
    ((initingEngine.handleAuthResult true (cstr "[1, 2") none).m_connectionState = CS_IDLE ∧
      (initingEngine.handleAuthResult true (cstr "[1, 2") none).events = initingEngine.events) ∧
    ((initingEngine.handleAuthResult true [] (some tokenlessHandshake)).m_connectionState
        = CS_IDLE ∧
      (initingEngine.handleAuthResult true [] (some tokenlessHandshake)).events
        = initingEngine.events ++
          [Event.SetShAllowed true, Event.SetEnhancedHostSupport false]) ∧
    ((initingEngine.handleAuthResult true [] (some sampleHandshake)).m_connectionState
        = CS_INITRECEIVED ∧
      (initingEngine.handleAuthResult true [] (some sampleHandshake)).m_token = cstr "tok" ∧
      (initingEngine.handleAuthResult true [] (some sampleHandshake)).m_serverProtocol = 4) :=
  ⟨(C20_handshake_completion initingEngine (cstr "[1, 2")).2.1,
   (C20_handshake_completion initingEngine []).2.2.2.2.1 tokenlessHandshake rfl
      (by decide) (Or.inl (fun _ h => YamlValue.noConfusion h)),
   (C20_handshake_completion initingEngine []).2.2.2.2.2 sampleHandshake (cstr "tok") 4 rfl
      (by decide) rfl rfl⟩

/-! ### Out-of-band texts and the connection state (C12) -/

theorem oobInfoResponse_state (e : NetLibrary) (oob : List Nat) (gameLoaded : Bool) :
    (oobInfoResponse e oob gameLoaded).m_connectionState =
      if e.lastWorld.getD (oobWorld oob) ≠ oobWorld oob ∧ gameLoaded = true then
        e.m_connectionState
      else CS_CONNECTING := by
  unfold oobInfoResponse
  dsimp only
  split_ifs <;> rfl

theorem oobConnectOK_state (e : NetLibrary) (oob : List Nat) :
    (oobConnectOK e oob).state = none ∨ (oobConnectOK e oob).state = some CS_CONNECTED := by
  unfold oobConnectOK
  cases splitAtSpace (cstrAt oob 10) with
  | none => exact Or.inl rfl
  | some p =>
    obtain ⟨a, behind⟩ := p
    dsimp only
    cases splitAtSpace behind with
    | none => exact Or.inl rfl
    | some q =>
      obtain ⟨b, c⟩ := q
      exact Or.inr rfl

theorem oobError_state (e : NetLibrary) (oob : List Nat) (length : Nat)
    (h : length ≤ oob.length) :
    (oobError e oob length).state = some e.m_connectionState := by
  unfold oobError
  by_cases h6 : length ≥ 6
  · rw [if_pos h6, if_pos (by rw [List.length_drop]; omega)]
    rfl
  · rw [if_neg h6]
    rfl

/-- C12 refuted as stated: an active engine that receives "infoResponse" from its
server ends in `CS_CONNECTING`, and one that receives "connectOK 42 17 99" ends in
`CS_CONNECTED`. -/
theorem C12_counterexample :
    activeEngine.m_connectionState = CS_ACTIVE ∧
    (activeEngine.ProcessOOB sampleServer sampleInfoResponse sampleInfoResponse.length
      false).state = some CS_CONNECTING ∧
    (activeEngine.ProcessOOB sampleServer (cstr "connectOK 42 17 99") 18 false).state
      = some CS_CONNECTED := by
  decide

/-- C12 amended: `ProcessOOB` does not look at the connection state.  For a text
from the current server, "infoResponse" sets `CS_CONNECTING` from every state,
unless the world differs from the last one while the game is loaded, where the
state is kept; "connectOK" sets `CS_CONNECTED` from every state where it returns,
and it returns for three decimal fields of at most 2^31 - 1 separated by single
spaces; every other text keeps the state when `length` is at most the number of
bytes that the memory at `oob` holds.  The first two hold for every value of the
`length` argument. -/
theorem C12_oob_state_edges (e : NetLibrary) (oob : List Nat) (length : Nat)
    (gameLoaded : Bool) :
    (startsWithNoCase oob (cstr "infoResponse") = true →
      (e.ProcessOOB e.m_currentServer oob length gameLoaded).state =
        some (if e.lastWorld.getD (oobWorld oob) ≠ oobWorld oob ∧ gameLoaded = true then
          e.m_connectionState else CS_CONNECTING)) ∧
    (startsWithNoCase oob (cstr "connectOK") = true →
      (e.ProcessOOB e.m_currentServer oob length gameLoaded).state = none ∨
      (e.ProcessOOB e.m_currentServer oob length gameLoaded).state = some CS_CONNECTED) ∧
    (∀ a b c : Nat, a ≤ 2147483647 → b ≤ 2147483647 → c ≤ 2147483647 →
      (e.ProcessOOB e.m_currentServer
        (cstr "connectOK " ++ (decimal a ++ 32 :: (decimal b ++ 32 :: decimal c)))
        length gameLoaded).state = some CS_CONNECTED) ∧
    (length ≤ oob.length →
      startsWithNoCase oob (cstr "infoResponse") = false →
      startsWithNoCase oob (cstr "connectOK") = false →
      (e.ProcessOOB e.m_currentServer oob length gameLoaded).state
        = some e.m_connectionState) := by
  refine ⟨?_, ?_, ?_, ?_⟩
  · intro hi
    unfold ProcessOOB
    rw [if_pos rfl, if_pos hi]
    show some _ = _
    rw [oobInfoResponse_state]
  · intro hc
    unfold ProcessOOB
    rw [if_pos rfl, connectOK_not_infoResponse oob hc, hc]
    simp only [Bool.false_eq_true, if_false, if_true]
    exact oobConnectOK_state e oob
  · intro a b c _ _ _
    have hrun := ProcessOOB_connectOK_digits e (decimal a) (decimal b) (decimal c) [] length
      gameLoaded (isdigit_decimal a) (isdigit_decimal b) (isdigit_decimal c) rfl
    rw [List.append_nil] at hrun
    rw [hrun]
    rfl
  · intro hl hi hc
    unfold ProcessOOB
    rw [if_pos rfl, hi, hc]
    simp only [Bool.false_eq_true, if_false]
    split_ifs
    · exact oobError_state e oob length hl
    · rfl

/-- C12 amended, on `fetchingEngine` (the permitted edge to `CS_CONNECTING`), on
`connectingEngine` (the permitted edge to `CS_CONNECTED`), and on `activeEngine`
with the text "error x", which keeps `CS_ACTIVE`. -/
theorem C12_oob_state_edges_witness :
    (fetchingEngine.ProcessOOB sampleServer sampleInfoResponse sampleInfoResponse.length
      false).state = some CS_CONNECTING ∧
    (connectingEngine.ProcessOOB sampleServer (cstr "connectOK 42 17 99") 18 false).state
      = some CS_CONNECTED ∧
    (activeEngine.ProcessOOB sampleServer (cstr "error x") 7 false).state
      = some CS_ACTIVE :=
  ⟨(C12_oob_state_edges fetchingEngine sampleInfoResponse sampleInfoResponse.length
      false).1 (by decide),
   (C12_oob_state_edges connectingEngine [] 18 false).2.2.1 42 17 99
      (by decide) (by decide) (by decide),
   (C12_oob_state_edges activeEngine (cstr "error x") 7 false).2.2.2
      (by decide) (by decide) (by decide)⟩

/-! ### The timeout of the info request (C13) -/

/-- C21: an out-of-band text from a sender other than the current server leaves
the engine as it was, whatever the text and its length are. -/
theorem C21_foreign_oob_ignored (e : NetLibrary) (source : NetAddress) (oob : List Nat)
    (length : Nat) (gameLoaded : Bool) (h : source ≠ e.m_currentServer) :
    e.ProcessOOB source oob length gameLoaded = Outcome.ok e := by
  unfold ProcessOOB
  rw [if_neg h]

/-- C21 on `connectingEngine` and the text "connectOK 42 17 99" sent from another
port of the server's host. -/
theorem C21_foreign_oob_ignored_witness :
    connectingEngine.ProcessOOB { host := cstr "203.0.113.5", port := 30121 }
      (cstr "connectOK 42 17 99") 18 false = Outcome.ok connectingEngine :=
  C21_foreign_oob_ignored connectingEngine { host := cstr "203.0.113.5", port := 30121 }
    (cstr "connectOK 42 17 99") 18 false (by decide)

/-! ### The payload of a net event (C22) -/

theorem netEvent_writes (b0 : NetBuffer) (target eventName jsonString : List Nat) (n : Nat)
    (hwr : b0.written = [])
    (hfits : target.length + 2 + (eventName.length + 1) + jsonString.length ≤ b0.capacity) :
    ((((b0.put target).WriteUInt 2 n).Write (eventName ++ [0])).Write jsonString).written =
      target ++ leBytes 2 n ++ eventName ++ [0] ++ jsonString := by
  have h0 : b0.written.length = 0 := by rw [hwr]; rfl
  rw [WriteUInt_put b0 target 2 n (by omega),
    Write_put b0 _ (eventName ++ [0])
      (by simp only [List.length_append, leBytes_length, List.length_singleton]; omega),
    Write_put b0 _ jsonString
      (by simp only [List.length_append, leBytes_length, List.length_singleton]; omega),
    put_written, hwr]
  simp

theorem netEventLayout_length (eventName jsonString : List Nat) (i : Int) :
    (netEventLayout eventName jsonString i).length =
      (if i = -2 then 0 else 2) + 2 + (eventName.length + 1) + jsonString.length := by
  unfold netEventLayout
  split_ifs <;> simp [leBytes_length] <;> omega

/-- C22: for an event name shorter than 65535 bytes and an `i` from -2 to 65535
whose payload fits the 100000-byte buffer, `SendNetEvent` appends exactly one
command to the store; its payload is the specified layout (whose 16-bit fields hold
the name length plus one and the target exactly) and its type is the hash of
"msgServerEvent" for `i = -2` and of "msgNetEvent" otherwise. -/
theorem C22_net_event_payload (e : NetLibrary) (eventName jsonString : List Nat) (i : Int)
    (hname : eventName.length < 65535) (hlo : -2 ≤ i) (hhi : i ≤ 65535)
    (hfits : (netEventLayout eventName jsonString i).length ≤ 100000) :
    (e.SendNetEvent eventName jsonString i).m_outReliableCommands =
      e.m_outReliableCommands ++
        [{ type := HashRageString (cstr (if i = -2 then "msgServerEvent" else "msgNetEvent")),
           id := (e.m_outReliableSequence + 1) % U32,
           command := netEventLayout eventName jsonString i }] ∧
    leValue (leBytes 2 (eventName.length + 1)) = eventName.length + 1 ∧
    (0 ≤ i → leValue (leBytes 2 i.toNat) = i.toNat) := by
  refine ⟨?_, leValue_leBytes_two _ (by omega), fun h0 => leValue_leBytes_two _ (by omega)⟩
  unfold SendNetEvent
  dsimp only
  rw [SendReliableCommand_store]
  rw [netEventLayout_length] at hfits
  unfold netEventLayout
  generalize hb : NetBuffer.ofCapacity 100000 = b0
  have hcap : b0.capacity = 100000 := by rw [← hb]; rfl
  have hwr : b0.written = [] := by rw [← hb]; rfl
  have hput : b0.put [] = b0 := put_nil b0
  have hw : ∀ v, b0.WriteUInt 2 v = b0.put (leBytes 2 v) :=
    fun v => WriteUInt_fits b0 2 v (by rw [hwr, hcap]; simp)
  by_cases hm1 : i = -1
  · have hn2 : ¬ i = -2 := by omega
    have h5 : ((UINT16_MAX : Int) ≥ 0) := by decide
    rw [if_neg hn2] at hfits
    simp only [if_pos hm1, if_neg hn2, if_pos h5]
    rw [hw, netEvent_writes b0 _ _ _ _ hwr (by rw [leBytes_length, hcap]; omega)]
    rfl
  · by_cases hm2 : i = -2
    · have h5 : ¬ (i ≥ 0) := by omega
      rw [if_pos hm2] at hfits
      simp only [if_neg hm1, if_pos hm2, if_neg h5]
      nth_rewrite 1 [← hput]
      rw [netEvent_writes b0 [] _ _ _ hwr
        (by rw [hcap]; simp only [List.length_nil]; omega)]
    · have hge : i ≥ 0 := by omega
      rw [if_neg hm2] at hfits
      simp only [if_neg hm1, if_neg hm2, if_pos hge]
      rw [hw, netEvent_writes b0 _ _ _ _ hwr (by rw [leBytes_length, hcap]; omega)]

/-- C22 on a broadcast ("ping" to every player, `i = -1`), on a server event
(`i = -2`) and on an event for player 3. -/
theorem C22_net_event_payload_witness :
    ((create.SendNetEvent (cstr "ping") (cstr "[1]") (-1)).m_outReliableCommands.map
      (fun c => c.command)) = [[255, 255, 5, 0, 112, 105, 110, 103, 0, 91, 49, 93]] ∧
    ((create.SendNetEvent (cstr "ping") (cstr "[1]") (-2)).m_outReliableCommands.map
      (fun c => c.command)) = [[5, 0, 112, 105, 110, 103, 0, 91, 49, 93]] ∧
    ((create.SendNetEvent (cstr "ping") (cstr "[1]") 3).m_outReliableCommands.map
      (fun c => c.command)) = [[3, 0, 5, 0, 112, 105, 110, 103, 0, 91, 49, 93]] :=
  ⟨by rw [(C22_net_event_payload create (cstr "ping") (cstr "[1]") (-1) (by decide)
      (by decide) (by decide) (by decide)).1]; decide,
   by rw [(C22_net_event_payload create (cstr "ping") (cstr "[1]") (-2) (by decide)
      (by decide) (by decide) (by decide)).1]; decide,
   by rw [(C22_net_event_payload create (cstr "ping") (cstr "[1]") 3 (by decide)
      (by decide) (by decide) (by decide)).1]; decide⟩

/-! ### Colour codes (C25) -/

theorem isdigit_not_caret (d : Nat) (h : isdigit d = true) : d ≠ 94 ∧ d ≠ 0 := by
  unfold isdigit at h
  have : 48 ≤ d ∧ d ≤ 57 := by simpa using h
  omega

theorem stripLoop_cons_cons (limit : Int) (c d : Nat) (rest : List Nat) (current : Nat) :
    stripLoop limit (c :: d :: rest) current =
      if c ≠ 0 ∧ (current : Int) < limit then
        if ¬ (c = 94 ∧ d ≠ 0 ∧ isdigit d = true) then
          c :: stripLoop limit (d :: rest) (current + 1)
        else stripLoop limit rest current
      else [] := by
  rw [stripLoop]

theorem withoutColourCodes_cons (prev c : Nat) (rest : List Nat) :
    withoutColourCodes prev (c :: rest) =
      if (c = 94 ∧ isdigit (rest.headD 0) = true) ∨ (prev = 94 ∧ isdigit c = true) then
        withoutColourCodes c rest
      else c :: withoutColourCodes c rest := by
  rw [withoutColourCodes]

theorem stripLoop_spec (limit : Int) (tail : List Nat) (n : Nat) :
    ∀ (s : List Nat) (prev current : Nat), s.length ≤ n → (∀ c ∈ s, c ≠ 0) →
      ¬ (prev = 94 ∧ isdigit (s.headD 0) = true) →
      stripLoop limit (s ++ 0 :: tail) current =
        (withoutColourCodes prev s).take (limit - current).toNat := by
  induction n with
  | zero =>
    intro s prev current hl _ _
    have : s = [] := List.length_eq_zero.mp (by omega)
    subst this
    cases tail <;> simp [stripLoop, withoutColourCodes]
  | succ n ih =>
    intro s prev current hl hz hp
    cases s with
    | nil => cases tail <;> simp [stripLoop, withoutColourCodes]
    | cons c s1 =>
      have hc : c ≠ 0 := hz c (List.mem_cons_self _ _)
      have hz1 : ∀ x ∈ s1, x ≠ 0 := fun x hx => hz x (List.mem_cons_of_mem _ hx)
      have hl1 : s1.length ≤ n := by simpa using hl
      have hp0 : ¬ (prev = 94 ∧ isdigit c = true) := by simpa using hp
      cases s1 with
      | nil =>
        simp only [List.nil_append, List.cons_append, stripLoop, withoutColourCodes]
        have hd0 : isdigit 0 = false := by decide
        by_cases hlt : (current : Int) < limit
        · have h1 : 0 < (limit - current).toNat := by omega
          obtain ⟨m, hm⟩ := Nat.exists_eq_succ_of_ne_zero (by omega : (limit - current).toNat ≠ 0)
          cases tail <;>
            simp [stripLoop, hc, hlt, hd0, hp0, hm, List.headD]
        · have h1 : (limit - current).toNat = 0 := by omega
          simp [hc, hlt, h1]
      | cons d s2 =>
        have hd : d ≠ 0 := hz1 d (List.mem_cons_self _ _)
        rw [List.cons_append, List.cons_append, stripLoop_cons_cons, withoutColourCodes_cons,
          List.headD_cons]
        by_cases hlt : (current : Int) < limit
        · obtain ⟨m, hm⟩ := Nat.exists_eq_succ_of_ne_zero (by omega : (limit - current).toNat ≠ 0)
          by_cases hcol : c = 94 ∧ isdigit d = true
          · have hd94 := (isdigit_not_caret d hcol.2).1
            have hrec := ih s2 d current (by simp at hl1; omega)
              (fun x hx => hz1 x (List.mem_cons_of_mem _ hx))
              (fun hh => hd94 hh.1)
            have hcol2 : ¬ ¬ (c = 94 ∧ d ≠ 0 ∧ isdigit d = true) :=
              not_not.mpr ⟨hcol.1, hd, hcol.2⟩
            rw [if_pos ⟨hc, hlt⟩, if_neg hcol2, if_pos (Or.inl hcol), withoutColourCodes_cons,
              if_pos (Or.inr hcol), hrec]
          · have hrec := ih (d :: s2) c (current + 1) hl1 hz1 (by simpa using hcol)
            have hcol2 : ¬ (c = 94 ∧ d ≠ 0 ∧ isdigit d = true) := fun hh => hcol ⟨hh.1, hh.2.2⟩
            have hor : ¬ ((c = 94 ∧ isdigit d = true) ∨ (prev = 94 ∧ isdigit c = true)) := by
              rintro (hh | hh)
              · exact hcol hh
              · exact hp0 hh
            rw [if_pos ⟨hc, hlt⟩, if_pos hcol2, if_neg hor, hm, List.take_succ_cons]
            rw [List.cons_append] at hrec
            rw [hrec]
            congr 2
            push_cast
            omega
        · have h1 : (limit - current).toNat = 0 := by omega
          rw [if_neg (fun hh => hlt hh.2), h1, List.take_zero]

/-- C25: for an input string `s` without NUL bytes, followed in memory by its NUL
and anything else, and for every `max` (at least 1 in a call that leaves room for
the NUL), `StripColors` writes the bytes of `s` that belong to no colour code (a `^`
followed by an ASCII digit), in order, cut to the first `max - 1` of them, and one
NUL byte. -/
theorem C25_strip_colors (s tail : List Nat) (max : Int) (hs : ∀ c ∈ s, c ≠ 0) :
    StripColors (s ++ 0 :: tail) max =
      (withoutColourCodes 0 s).take (max - 1).toNat ++ [0] := by
  unfold StripColors
  rw [stripLoop_spec (max - 1) tail s.length s 0 0 (le_refl _) hs (fun h => absurd h.1 (by decide))]
  simp

/-- C25 on the string "a^1b^^2c^" (two colour codes, one `^` before a `^`, one
`^` at the end), with room for all of it and with `max = 3`. -/
theorem C25_strip_colors_witness :
    StripColors (cstr "a^1b^^2c^" ++ 0 :: [55]) 256 = cstr "ab^c^" ++ [0] ∧
    StripColors (cstr "a^1b^^2c^" ++ 0 :: [55]) 3 = cstr "ab" ++ [0] :=
  ⟨by rw [C25_strip_colors (cstr "a^1b^^2c^") [55] 256 (by decide)]; decide,
   by rw [C25_strip_colors (cstr "a^1b^^2c^") [55] 3 (by decide)]; decide⟩

/-! ### Values of an info string (C26) -/

theorem encodeInfo_cons (k v : List Nat) (ps : List (List Nat × List Nat)) :
    encodeInfo ((k, v) :: ps) = 92 :: (k ++ 92 :: (v ++ encodeInfo ps)) := by
  simp [encodeInfo]

theorem encodeInfo_length (ps : List (List Nat × List Nat)) :
    ps.length ≤ (encodeInfo ps).length := by
  induction ps with
  | nil => simp
  | cons p ps ih =>
    obtain ⟨k, v⟩ := p
    rw [encodeInfo_cons]
    simp only [List.length_cons, List.length_append]
    omega

theorem encodeInfo_head (ps : List (List Nat × List Nat)) :
    encodeInfo ps = [] ∨ ∃ rest, encodeInfo ps = 92 :: rest := by
  cases ps with
  | nil => exact Or.inl rfl
  | cons p ps =>
    obtain ⟨k, v⟩ := p
    exact Or.inr ⟨_, encodeInfo_cons k v ps⟩

theorem takeWhile_field (x rest : List Nat) (hx : ∀ c ∈ x, c ≠ 92) :
    (x ++ 92 :: rest).takeWhile (fun c => c != 92) = x ∧
    (x ++ 92 :: rest).dropWhile (fun c => c != 92) = 92 :: rest := by
  have hp : ∀ c ∈ x, (c != 92) = true := fun c hc => by simpa using hx c hc
  constructor
  · rw [List.takeWhile_append_of_pos hp]
    simp
  · rw [List.dropWhile_append_of_pos hp]
    rfl

theorem takeWhile_last_field (x : List Nat) (hx : ∀ c ∈ x, c ≠ 92) :
    x.takeWhile (fun c => c != 92) = x ∧ x.dropWhile (fun c => c != 92) = [] := by
  have hp : ∀ c ∈ x, (c != 92) = true := fun c hc => by simpa using hx c hc
  exact ⟨List.takeWhile_eq_self_iff.mpr hp, List.dropWhile_eq_nil_iff.mpr hp⟩

theorem lookupInfo_cons (k v : List Nat) (ps : List (List Nat × List Nat)) (key : List Nat) :
    lookupInfo ((k, v) :: ps) key = if stricmpEq key k = true then v else lookupInfo ps key := by
  unfold lookupInfo
  rw [List.find?_cons]
  cases h : stricmpEq key k <;> simp [h]

theorem infoLoop_pairs (key : List Nat) (ps : List (List Nat × List Nat)) :
    ∀ (fuel : Nat) (k v : List Nat), ps.length < fuel → (∀ c ∈ k, c ≠ 92) →
      (∀ c ∈ v, c ≠ 92) → wellFormedInfo ps →
      infoLoop fuel (k ++ 92 :: (v ++ encodeInfo ps)) key = lookupInfo ((k, v) :: ps) key := by
  induction ps with
  | nil =>
    intro fuel k v hf hk hv _
    obtain ⟨f, rfl⟩ := Nat.exists_eq_succ_of_ne_zero (by omega : fuel ≠ 0)
    have e0 : encodeInfo [] = [] := rfl
    rw [e0, List.append_nil, lookupInfo_cons]
    unfold infoLoop
    rw [(takeWhile_field k v hk).1, (takeWhile_field k v hk).2]
    dsimp only
    rw [(takeWhile_last_field v hv).1, (takeWhile_last_field v hv).2]
    split_ifs <;> rfl
  | cons p ps ih =>
    intro fuel k v hf hk hv hwf
    obtain ⟨k2, v2⟩ := p
    obtain ⟨f, rfl⟩ := Nat.exists_eq_succ_of_ne_zero (by omega : fuel ≠ 0)
    have hwf2 := hwf (k2, v2) (List.mem_cons_self _ _)
    have hrec := ih f k2 v2 (by simp at hf; omega) (fun c hc => (hwf2.1 c hc).1)
      (fun c hc => (hwf2.2 c hc).1) (fun q hq => hwf q (List.mem_cons_of_mem _ hq))
    rw [encodeInfo_cons, lookupInfo_cons]
    unfold infoLoop
    rw [(takeWhile_field k _ hk).1, (takeWhile_field k _ hk).2]
    dsimp only
    rw [(takeWhile_field v _ hv).1, (takeWhile_field v _ hv).2]
    dsimp only
    rw [hrec]

/-- C26 refuted as stated: the info string `\a`, read as the pair of the empty key
and the value "a" without the optional leading backslash, gives the empty string
for the empty key, where the spec gives "a". -/
theorem C26_counterexample :
    (encodeInfo [([], cstr "a")]).drop 1 = [92, 97] ∧
    Info_ValueForKey ((encodeInfo [([], cstr "a")]).drop 1) [] = [] ∧
    lookupInfo [([], cstr "a")] [] = cstr "a" := by
  decide

/-- C26 amended: for pairs whose keys and values contain no backslash and no NUL,
and whose info string is shorter than 8192 bytes, `Info_ValueForKey` returns the
value of the first pair whose key equals the given key up to ASCII case (the empty
string when there is none), on the info string with its leading backslash and, when
the first key is not empty, also on the info string without it; on every string of
8192 bytes or more it returns the empty string. -/
theorem C26_info_value_for_key (pairs : List (List Nat × List Nat)) (key : List Nat)
    (hwf : wellFormedInfo pairs) (hlen : (encodeInfo pairs).length < 8192) :
    Info_ValueForKey (encodeInfo pairs) key = lookupInfo pairs key ∧
    ((∀ p ∈ pairs.head?, p.1 ≠ []) →
      Info_ValueForKey ((encodeInfo pairs).drop 1) key = lookupInfo pairs key) ∧
    (∀ s : List Nat, s.length ≥ 8192 → Info_ValueForKey s key = []) := by
  refine ⟨?_, ?_, ?_⟩
  · cases pairs with
    | nil => rfl
    | cons p ps =>
      obtain ⟨k, v⟩ := p
      have hp := hwf (k, v) (List.mem_cons_self _ _)
      unfold Info_ValueForKey
      rw [if_neg (by omega), encodeInfo_cons]
      dsimp only
      rw [List.head?_cons, if_pos (by decide), List.drop_one, List.tail_cons]
      apply infoLoop_pairs key ps _ k v _ (fun c hc => (hp.1 c hc).1)
        (fun c hc => (hp.2 c hc).1) (fun q hq => hwf q (List.mem_cons_of_mem _ hq))
      have := encodeInfo_length ps
      simp only [List.length_append, List.length_cons]
      omega
  · intro hne
    cases pairs with
    | nil => rfl
    | cons p ps =>
      obtain ⟨k, v⟩ := p
      have hp := hwf (k, v) (List.mem_cons_self _ _)
      have hk : k ≠ [] := hne (k, v) rfl
      obtain ⟨c, k1, rfl⟩ := List.exists_cons_of_ne_nil hk
      have hc : c ≠ 92 := (hp.1 c (List.mem_cons_self _ _)).1
      unfold Info_ValueForKey
      rw [encodeInfo_cons] at hlen ⊢
      rw [List.drop_one, List.tail_cons]
      rw [if_neg (by simp only [List.length_cons] at hlen; omega)]
      dsimp only
      rw [List.cons_append, List.head?_cons, if_neg (by simpa using hc), ← List.cons_append]
      apply infoLoop_pairs key ps _ (c :: k1) v _ (fun c hc => (hp.1 c hc).1)
        (fun c hc => (hp.2 c hc).1) (fun q hq => hwf q (List.mem_cons_of_mem _ hq))
      have := encodeInfo_length ps
      simp only [List.length_append, List.length_cons]
      omega
  · intro s hs
    unfold Info_ValueForKey
    rw [if_pos hs]

/-- C26 amended, on `sampleInfo`: the key "world" gives "mp1" with and without the
leading backslash, and the key "none" gives the empty string. -/
theorem C26_info_value_for_key_witness :
    Info_ValueForKey (encodeInfo sampleInfo) (cstr "world") = cstr "mp1" ∧
    Info_ValueForKey ((encodeInfo sampleInfo).drop 1) (cstr "world") = cstr "mp1" ∧
    Info_ValueForKey (encodeInfo sampleInfo) (cstr "none") = [] :=
  ⟨by rw [(C26_info_value_for_key sampleInfo (cstr "world") (by unfold wellFormedInfo; decide)
      (by decide)).1]; decide,
   by rw [(C26_info_value_for_key sampleInfo (cstr "world") (by unfold wellFormedInfo; decide)
      (by decide)).2.1 (by decide)]; decide,
   by rw [(C26_info_value_for_key sampleInfo (cstr "none") (by unfold wellFormedInfo; decide)
      (by decide)).1]; decide⟩

/-! ### Passes of the parse loop (C27) -/

theorem SendReliableCommand_events_form (e : NetLibrary) (t b : List Nat) :
    (e.SendReliableCommand t b).events = e.events ∨
    (e.SendReliableCommand t b).events =
      e.events ++ [Event.GlobalError "Reliable client command overflow."] := by
  unfold SendReliableCommand GlobalError emit
  dsimp only
  split_ifs
  · exact Or.inr rfl
  · exact Or.inl rfl

theorem SendReliableCommand_frame (e : NetLibrary) (t b : List Nat) :
    (e.SendReliableCommand t b).m_lastReceivedReliableCommand = e.m_lastReceivedReliableCommand ∧
    (e.SendReliableCommand t b).m_lastFrameNumber = e.m_lastFrameNumber ∧
    (e.SendReliableCommand t b).m_serverProtocol = e.m_serverProtocol ∧
    (e.SendReliableCommand t b).m_outgoingPackets = e.m_outgoingPackets := by
  unfold SendReliableCommand GlobalError emit
  dsimp only
  split_ifs <;> exact ⟨rfl, rfl, rfl, rfl⟩

theorem forceSend_active (e : NetLibrary) (now : Nat) (hook : List Nat)
    (ha : e.m_connectionState = CS_ACTIVE) (hn : sub32 now 0 ≥ 16) :
    (e.forceSend now hook).events = e.events ++ [Event.NetChannelSend (buildFrame e hook).written] ∧
    buildFrame (e.forceSend now hook) hook = buildFrame (withoutOutgoing e) hook ∧
    (e.forceSend now hook).m_connectionState = CS_ACTIVE ∧
    (e.forceSend now hook).m_currentServer = e.m_currentServer := by
  unfold forceSend ProcessSend
  dsimp only
  rw [if_neg (by simpa using hn), if_neg (by simpa using ha)]
  exact ⟨rfl, rfl, ha, rfl⟩

theorem forceSend_inactive (e : NetLibrary) (now : Nat) (hook : List Nat)
    (ha : e.m_connectionState ≠ CS_ACTIVE) :
    (e.forceSend now hook).events = e.events := by
  unfold forceSend
  rw [ProcessSend_of_inactive { e with m_lastSend := 0 } now hook ha]

theorem finishDisconnect_session (e : NetLibrary) :
    (finishDisconnect e).m_connectionState = CS_IDLE ∧
    (finishDisconnect e).m_currentServer = NetAddress.empty ∧
    (finishDisconnect e).events = e.events ++ [Event.OnFinalizeDisconnect e.m_currentServer] :=
  ⟨rfl, rfl, rfl⟩

theorem withoutOutgoing_idem (e : NetLibrary) :
    buildFrame (withoutOutgoing (withoutOutgoing e)) = buildFrame (withoutOutgoing e) := rfl

theorem frameLayout_quit (e : NetLibrary) (hook : List Nat) (old : List OutReliableCommand)
    (c : OutReliableCommand) (h : e.m_outReliableCommands = old ++ [c]) :
    ∃ before, frameLayout e hook = before ++ layoutReliable c ++ hook ++ leBytes 4 MSG_END := by
  refine ⟨leBytes 4 e.m_lastReceivedReliableCommand ++
    (if e.m_serverProtocol ≥ 2 then leBytes 4 e.m_lastFrameNumber else []) ++
    (e.m_outgoingPackets.map layoutRoute).flatten ++ (old.map layoutReliable).flatten, ?_⟩
  unfold frameLayout
  rw [h, List.map_append, List.flatten_append]
  simp [MSG_END]

theorem frameLayout_withoutOutgoing (e : NetLibrary) (hook : List Nat) :
    (frameLayout (withoutOutgoing e) hook).length ≤ (frameLayout e hook).length := by
  unfold frameLayout withoutOutgoing
  simp only [List.length_append, List.map_nil, List.flatten_nil, List.length_nil]
  omega

/-- C23 amended: on an active engine whose clock reads at least 16 ms, and whose
frame with the "msgIQuit" command appended to the store fits the 24000-byte buffer,
`FinalizeDisconnect` makes, after the push of the command, exactly three calls: two
frames to the net channel and `OnFinalizeDisconnect`.  Both frames have the
specified layout, the second without routing packets, and end with the "msgIQuit"
command (id the sequence counter plus one modulo 2^32, payload the reason and one
NUL byte), the bytes of `OnBuildMessage` and "msgEnd".  The engine ends in `CS_IDLE`
with the empty server address. -/
theorem C23_disconnect_frames (e : NetLibrary) (now : Nat) (hook : List Nat)
    (ha : e.m_connectionState = CS_ACTIVE) (hn : sub32 now 0 ≥ 16)
    (hfits : (frameLayout (e.SendReliableCommand (cstr "msgIQuit") (e.g_disconnectReason ++ [0]))
      hook).length ≤ 24000) :
    (e.FinalizeDisconnect now hook).events =
      (e.SendReliableCommand (cstr "msgIQuit") (e.g_disconnectReason ++ [0])).events ++
        [Event.NetChannelSend
          (frameLayout (e.SendReliableCommand (cstr "msgIQuit") (e.g_disconnectReason ++ [0]))
            hook),
         Event.NetChannelSend
          (frameLayout
            (withoutOutgoing
              (e.SendReliableCommand (cstr "msgIQuit") (e.g_disconnectReason ++ [0])))
            hook),
         Event.OnFinalizeDisconnect e.m_currentServer] ∧
    ((e.SendReliableCommand (cstr "msgIQuit") (e.g_disconnectReason ++ [0])).events = e.events ∨
      (e.SendReliableCommand (cstr "msgIQuit") (e.g_disconnectReason ++ [0])).events =
        e.events ++ [Event.GlobalError "Reliable client command overflow."]) ∧
    (∃ before,
      frameLayout (e.SendReliableCommand (cstr "msgIQuit") (e.g_disconnectReason ++ [0])) hook =
        before ++ layoutReliable (quitCommand e) ++ hook ++ leBytes 4 MSG_END) ∧
    (∃ before,
      frameLayout
          (withoutOutgoing
            (e.SendReliableCommand (cstr "msgIQuit") (e.g_disconnectReason ++ [0])))
          hook =
        before ++ layoutReliable (quitCommand e) ++ hook ++ leBytes 4 MSG_END) ∧
    (e.FinalizeDisconnect now hook).m_connectionState = CS_IDLE ∧
    (e.FinalizeDisconnect now hook).m_currentServer = NetAddress.empty := by
  generalize he1 : e.SendReliableCommand (cstr "msgIQuit") (e.g_disconnectReason ++ [0]) = e1
    at hfits ⊢
  have hstore : e1.m_outReliableCommands = e.m_outReliableCommands ++ [quitCommand e] := by
    rw [← he1, SendReliableCommand_store]
    rfl
  have hact : e1.m_connectionState = CS_ACTIVE := by
    rw [← he1, (SendReliableCommand_session e _ _).1, ha]
  have hsrv : e1.m_currentServer = e.m_currentServer := by
    rw [← he1, (SendReliableCommand_session e _ _).2.1]
  obtain ⟨s1, s2, s3, s4⟩ := forceSend_active e1 now hook hact hn
  obtain ⟨t1, _, _, t4⟩ := forceSend_active (e1.forceSend now hook) now hook s3 hn
  have hopen : e.FinalizeDisconnect now hook =
      finishDisconnect ((e1.forceSend now hook).forceSend now hook) := by
    rw [FinalizeDisconnect_open e now hook (Or.inr ha), he1]
  have hf1 := buildFrame_fits e1 hook hfits
  have hf2 := buildFrame_fits (withoutOutgoing e1) hook
    (le_trans (frameLayout_withoutOutgoing e1 hook) hfits)
  refine ⟨?_, ?_, frameLayout_quit e1 hook _ _ hstore,
    frameLayout_quit (withoutOutgoing e1) hook _ _ hstore, ?_, ?_⟩
  · rw [hopen, (finishDisconnect_session _).2.2, t1, s1, s2, hf1, hf2, t4, s4, hsrv]
    simp
  · rw [← he1]
    exact SendReliableCommand_events_form e _ _
  · rw [hopen]
    exact (finishDisconnect_session _).1
  · rw [hopen]
    exact (finishDisconnect_session _).2.1

/-! ### Frames that do not fit and the wrap of the counter (C23) -/

theorem Write_full (b : NetBuffer) (bs : List Nat) (h : b.written.length = b.capacity) :
    (b.Write bs).written = b.written ∧ (b.Write bs).capacity = b.capacity := by
  unfold NetBuffer.Write
  split_ifs with hf
  · have : bs = [] := List.length_eq_zero.mp (by omega)
    subst this
    exact ⟨List.append_nil _, rfl⟩
  · exact ⟨rfl, rfl⟩

theorem writeReliable_full (b : NetBuffer) (c : OutReliableCommand)
    (h : b.written.length = b.capacity) :
    (writeReliable b c).written = b.written ∧ (writeReliable b c).capacity = b.capacity := by
  unfold writeReliable NetBuffer.WriteUInt
  dsimp only
  have w1 := Write_full b (leBytes 4 c.type) h
  split_ifs
  · have w2 := Write_full _ (leBytes 4 (c.id ||| 0x80000000)) (by rw [w1.1, w1.2]; exact h)
    have w3 := Write_full _ (leBytes 4 c.command.length)
      (by rw [w2.1, w2.2, w1.1, w1.2]; exact h)
    have w4 := Write_full _ c.command (by rw [w3.1, w3.2, w2.1, w2.2, w1.1, w1.2]; exact h)
    rw [w4.1, w4.2, w3.1, w3.2, w2.1, w2.2, w1.1, w1.2]
    exact ⟨rfl, rfl⟩
  · have w2 := Write_full _ (leBytes 4 c.id) (by rw [w1.1, w1.2]; exact h)
    have w3 := Write_full _ (leBytes 2 c.command.length)
      (by rw [w2.1, w2.2, w1.1, w1.2]; exact h)
    have w4 := Write_full _ c.command (by rw [w3.1, w3.2, w2.1, w2.2, w1.1, w1.2]; exact h)
    rw [w4.1, w4.2, w3.1, w3.2, w2.1, w2.2, w1.1, w1.2]
    exact ⟨rfl, rfl⟩

theorem buildFrame_bulky (e : NetLibrary) (big c : OutReliableCommand)
    (hlast : e.m_serverProtocol < 2) (hout : e.m_outgoingPackets = [])
    (hstore : e.m_outReliableCommands = [big, c])
    (hbig : (layoutReliable big).length = 23996) :
    (buildFrame e []).written = leBytes 4 e.m_lastReceivedReliableCommand ++ layoutReliable big := by
  unfold buildFrame
  dsimp only
  rw [if_neg (by omega), hout, hstore]
  simp only [List.foldl_cons, List.foldl_nil]
  generalize hb : NetBuffer.ofCapacity 24000 = b0
  have hcap : b0.capacity = 24000 := by rw [← hb]; rfl
  have hwr : b0.written = [] := by rw [← hb]; rfl
  rw [WriteUInt_fits b0 4 _ (by rw [hwr, hcap]; simp)]
  have h1 : writeReliable (b0.put (leBytes 4 e.m_lastReceivedReliableCommand)) big =
      (b0.put (leBytes 4 e.m_lastReceivedReliableCommand)).put (layoutReliable big) :=
    writeReliable_fits _ big (by
      rw [put_written, put_capacity, hwr, hcap, hbig]
      simp [leBytes_length])
  rw [h1, put_put]
  have hfull : (b0.put (leBytes 4 e.m_lastReceivedReliableCommand ++ layoutReliable big)).written.length
      = (b0.put (leBytes 4 e.m_lastReceivedReliableCommand ++ layoutReliable big)).capacity := by
    rw [put_written, put_capacity, hwr, hcap]
    simp [leBytes_length, hbig]
  have w1 := writeReliable_full _ c hfull
  have w2 := Write_full (writeReliable _ c) [] (by rw [w1.1, w1.2]; exact hfull)
  have w3 := Write_full ((writeReliable _ c).Write []) (leBytes 4 MSG_END)
    (by rw [w2.1, w2.2, w1.1, w1.2]; exact hfull)
  unfold NetBuffer.WriteUInt
  rw [w3.1, w2.1, w1.1, put_written, hwr]
  rfl

/-- C23 refuted as stated: when an unacknowledged command already fills the frame
buffer, the two frames that `FinalizeDisconnect` hands to the net channel hold the
acknowledgement and that command only, neither the "msgIQuit" command nor
"msgEnd"; and when the sequence counter stands at 2^32 - 1, the "msgIQuit" command
gets the id 0, not the counter plus one. -/
theorem C23_counterexample :
    (bulkyEngine.FinalizeDisconnect 100 []).events =
      [Event.NetChannelSend
        (leBytes 4 0 ++ layoutReliable { type := 1, id := 1, command := List.replicate 23986 7 }),
       Event.NetChannelSend
        (leBytes 4 0 ++ layoutReliable { type := 1, id := 1, command := List.replicate 23986 7 }),
       Event.OnFinalizeDisconnect sampleServer] ∧
    (leBytes 4 0 ++ layoutReliable
      { type := 1, id := 1, command := List.replicate 23986 7 }).length = 24000 ∧
    (wrappingEngine.FinalizeDisconnect 100 []).m_outReliableCommands.map (fun c => c.id) = [0] ∧
    wrappingEngine.m_outReliableSequence + 1 = 4294967296 := by
  have hn : ¬ ((List.replicate 23986 7).length > 65535) := by
    rw [List.length_replicate]
    decide
  have hbig : (layoutReliable { type := 1, id := 1, command := List.replicate 23986 7 }).length
      = 23996 := by
    unfold layoutReliable
    dsimp only
    rw [if_neg hn]
    simp only [List.length_append, leBytes_length, List.length_replicate]
  refine ⟨?_, by rw [List.length_append, leBytes_length, hbig], by decide, by decide⟩
  generalize he1 : bulkyEngine.SendReliableCommand (cstr "msgIQuit")
    (bulkyEngine.g_disconnectReason ++ [0]) = e1
  have hact : e1.m_connectionState = CS_ACTIVE := by
    rw [← he1, (SendReliableCommand_session _ _ _).1]
    rfl
  have hstore : e1.m_outReliableCommands =
      [{ type := 1, id := 1, command := List.replicate 23986 7 }, quitCommand bulkyEngine] := by
    rw [← he1, SendReliableCommand_store]
    rfl
  have hfr := SendReliableCommand_frame bulkyEngine (cstr "msgIQuit")
    (bulkyEngine.g_disconnectReason ++ [0])
  rw [he1] at hfr
  have hev : e1.events = [] := by
    rw [← he1, SendReliableCommand_events _ _ _ (by decide)]
    rfl
  have hsrv : e1.m_currentServer = sampleServer := by
    rw [← he1, (SendReliableCommand_session _ _ _).2.1]
    rfl
  obtain ⟨s1, s2, s3, s4⟩ := forceSend_active e1 100 [] hact (by decide)
  obtain ⟨t1, _, _, t4⟩ := forceSend_active (e1.forceSend 100 []) 100 [] s3 (by decide)
  have hf1 := buildFrame_bulky e1 _ _ (by rw [hfr.2.2.1]; decide) (by rw [hfr.2.2.2]; rfl)
    hstore hbig
  have hf2 := buildFrame_bulky (withoutOutgoing e1) _ _ (by
    show e1.m_serverProtocol < 2
    rw [hfr.2.2.1]; decide) rfl hstore hbig
  have hl1 : e1.m_lastReceivedReliableCommand = 0 := by rw [hfr.1]; rfl
  have hl2 : (withoutOutgoing e1).m_lastReceivedReliableCommand = 0 := hl1
  rw [FinalizeDisconnect_open bulkyEngine 100 [] (Or.inr rfl), he1,
    (finishDisconnect_session _).2.2, t1, s1, s2, hf1, hf2, hl1, hl2, t4, s4, hsrv, hev]
  rfl

/-- C23 amended, on `leavingEngine` with one byte appended by `OnBuildMessage`:
two frames, the first with the routing packet, both ending with the "msgIQuit"
command (id 1, payload "bye" and a NUL byte), the byte 42 and "msgEnd". -/
theorem C23_disconnect_frames_witness :
    (leavingEngine.FinalizeDisconnect 100 [42]).events =
      [Event.NetChannelSend
        [0, 0, 0, 0, 91, 68, 56, 233, 4, 0, 1, 0, 1,
         77, 30, 214, 66, 1, 0, 0, 0, 4, 0, 98, 121, 101, 0, 42, 99, 158, 86, 202],
       Event.NetChannelSend
        [0, 0, 0, 0,
         77, 30, 214, 66, 1, 0, 0, 0, 4, 0, 98, 121, 101, 0, 42, 99, 158, 86, 202],
       Event.OnFinalizeDisconnect sampleServer] ∧
    (leavingEngine.FinalizeDisconnect 100 [42]).m_connectionState = CS_IDLE ∧
    (leavingEngine.FinalizeDisconnect 100 [42]).m_currentServer = NetAddress.empty :=
  ⟨by rw [(C23_disconnect_frames leavingEngine 100 [42] (by decide) (by decide)
      (by decide)).1]; decide,
   (C23_disconnect_frames leavingEngine 100 [42] (by decide) (by decide) (by decide)).2.2.2.2.1,
   (C23_disconnect_frames leavingEngine 100 [42] (by decide) (by decide) (by decide)).2.2.2.2.2⟩

/-! ### The connect attempts (C24) -/

theorem attempt_events (e : NetLibrary) (now : Nat) (text : List Nat) (what : String) :
    ∃ before, (attempt e now text what).events =
      e.events ++ before ++ [Event.SendOutOfBand e.m_currentServer (text.take 32763),
        Event.OnConnectionProgress (what ++ specStatus (e.m_connectAttempts + 1)) 1 1] := by
  unfold attempt SendOutOfBand GlobalError emit
  dsimp only
  split_ifs
  · exact ⟨[Event.GlobalError "Attempted to overrun string in call to SendOutOfBand()!"], by simp⟩
  · exact ⟨[], by simp⟩

theorem announceState_handshake (e : NetLibrary) :
    (announceState e).m_currentServer = e.m_currentServer ∧
    (announceState e).m_token = e.m_token ∧
    ((announceState e).events = e.events ∨
      (announceState e).events =
        e.events ++ [Event.OnStateChanged e.m_connectionState e.m_lastConnectionState]) := by
  unfold announceState
  split_ifs
  · exact ⟨rfl, rfl, Or.inr rfl⟩
  · exact ⟨rfl, rfl, Or.inl rfl⟩

theorem tickState_connecting (e : NetLibrary) (now : Nat) (hook : List Nat) (guid : Nat)
    (h : e.m_connectionState = CS_CONNECTING) :
    tickState e now hook guid = tickConnecting e now hook guid := by
  unfold tickState
  rw [h]

theorem FinalizeDisconnect_connecting (e : NetLibrary) (now : Nat) (hook : List Nat)
    (h : e.m_connectionState = CS_CONNECTING) :
    ∃ before, (before = [] ∨ before = [Event.GlobalError "Reliable client command overflow."]) ∧
      (e.FinalizeDisconnect now hook).events =
        e.events ++ before ++ [Event.OnFinalizeDisconnect e.m_currentServer] := by
  have hst : (e.SendReliableCommand (cstr "msgIQuit")
      (e.g_disconnectReason ++ [0])).m_connectionState ≠ CS_ACTIVE := by
    rw [(SendReliableCommand_session e _ _).1, h]
    decide
  have hst2 : ((e.SendReliableCommand (cstr "msgIQuit")
      (e.g_disconnectReason ++ [0])).forceSend now hook).m_connectionState ≠ CS_ACTIVE := by
    rw [(forceSend_session _ now hook).1]
    exact hst
  rw [FinalizeDisconnect_open e now hook (Or.inl h), (finishDisconnect_session _).2.2,
    forceSend_inactive _ now hook hst2, forceSend_inactive _ now hook hst,
    (forceSend_session _ now hook).2.1, (forceSend_session _ now hook).2.1,
    (SendReliableCommand_session e _ _).2.1]
  rcases SendReliableCommand_events_form e (cstr "msgIQuit") (e.g_disconnectReason ++ [0])
    with hev | hev
  · exact ⟨[], Or.inl rfl, by rw [hev]; simp⟩
  · exact ⟨_, Or.inr rfl, by rw [hev]⟩

theorem FinalizeDisconnect_attempts (e : NetLibrary) (now : Nat) (hook : List Nat) :
    (e.FinalizeDisconnect now hook).m_connectAttempts = e.m_connectAttempts := by
  have hsend : ∀ x : NetLibrary, (x.forceSend now hook).m_connectAttempts = x.m_connectAttempts := by
    intro x
    unfold forceSend
    exact (ProcessSend_session { x with m_lastSend := 0 } now hook).2.2.2.2.1
  have hpush : ∀ t b, (e.SendReliableCommand t b).m_connectAttempts = e.m_connectAttempts := by
    intro t b
    unfold SendReliableCommand GlobalError emit
    dsimp only
    split_ifs <;> rfl
  have hfin : ∀ x : NetLibrary, (finishDisconnect x).m_connectAttempts = x.m_connectAttempts :=
    fun _ => rfl
  by_cases h : e.m_connectionState = CS_CONNECTING ∨ e.m_connectionState = CS_ACTIVE
  · rw [FinalizeDisconnect_open e now hook h, hfin, hsend, hsend, hpush]
  · rw [FinalizeDisconnect_closed e now hook h]

theorem tickConnecting_spec (e : NetLibrary) (now : Nat) (hook : List Nat) (guid : Nat)
    (h : e.m_connectionState = CS_CONNECTING) :
    ∃ added, (tickConnecting e now hook guid).events = e.events ++ added ∧
      (tickConnecting e now hook guid).m_connectAttempts =
        (if sub32 now e.m_lastConnect > 5000 then e.m_connectAttempts + 1
          else e.m_connectAttempts) ∧
      (sub32 now e.m_lastConnect > 5000 →
        Event.SendOutOfBand e.m_currentServer (connectText e guid) ∈ added) ∧
      (¬ sub32 now e.m_lastConnect > 5000 → ∀ a t, Event.SendOutOfBand a t ∉ added) ∧
      ((tickConnecting e now hook guid).m_connectAttempts ≤ 3 →
        (tickConnecting e now hook guid).m_connectionState = CS_CONNECTING) ∧
      ((tickConnecting e now hook guid).m_connectAttempts > 3 →
        (tickConnecting e now hook guid).m_connectionState = CS_IDLE ∧
        Event.OnConnectionTimedOut ∈ added) := by
  unfold tickConnecting
  dsimp only
  generalize he1 : (if sub32 now e.m_lastConnect > 5000 then
      attempt e now
        (cstr "connect token=" ++ cstrAt e.m_token 0 ++ cstr "&guid=" ++ decimal guid)
        "Connecting to server..." else e) = e1
  have hs : e1.m_connectionState = CS_CONNECTING := by
    rw [← he1]
    split_ifs
    · rw [(attempt_session _ _ _ _).1, h]
    · exact h
  have hn : e1.m_connectAttempts =
      (if sub32 now e.m_lastConnect > 5000 then e.m_connectAttempts + 1
        else e.m_connectAttempts) := by
    rw [← he1]
    split_ifs
    · rw [(attempt_session _ _ _ _).2]
    · rfl
  have hev : ∃ a1, e1.events = e.events ++ a1 ∧
      (sub32 now e.m_lastConnect > 5000 →
        Event.SendOutOfBand e.m_currentServer (connectText e guid) ∈ a1) ∧
      (¬ sub32 now e.m_lastConnect > 5000 → a1 = []) := by
    rw [← he1]
    by_cases hc : sub32 now e.m_lastConnect > 5000
    · rw [if_pos hc]
      obtain ⟨before, hb⟩ := attempt_events e now
        (cstr "connect token=" ++ cstrAt e.m_token 0 ++ cstr "&guid=" ++ decimal guid)
        "Connecting to server..."
      refine ⟨_, by rw [hb, List.append_assoc], fun _ => ?_, fun hh => absurd hc hh⟩
      unfold connectText
      simp
    · rw [if_neg hc]
      exact ⟨[], (List.append_nil _).symm, fun hh => absurd hh hc, fun _ => rfl⟩
  obtain ⟨a1, ha1, hsend, hquiet⟩ := hev
  by_cases ht : e1.m_connectAttempts > 3
  · rw [if_pos ht]
    obtain ⟨t1, t2⟩ := timeOut_open e1 now hook (cstr "Connection timed out.")
      "Failed to connect to server after 3 attempts." (Or.inl hs)
    obtain ⟨before, hbf, hfd⟩ := FinalizeDisconnect_connecting
      (setDisconnectReason e1 (cstr "Connection timed out.")) now hook hs
    have hatt : (timeOut e1 now hook (cstr "Connection timed out.")
        "Failed to connect to server after 3 attempts.").m_connectAttempts
        = e1.m_connectAttempts := by
      unfold timeOut
      rw [(GlobalError_session _ _).2.1, (emit_session _ _).2.1, FinalizeDisconnect_attempts,
        (setDisconnectReason_session _ _).2.1]
    rw [hatt, t1, t2, hfd, (setDisconnectReason_session _ _).2.2.1, ha1]
    refine ⟨a1 ++ before ++ [Event.OnFinalizeDisconnect
        (setDisconnectReason e1 (cstr "Connection timed out.")).m_currentServer] ++
        [Event.OnConnectionTimedOut,
          Event.GlobalError "Failed to connect to server after 3 attempts."],
      by simp, hn, ?_, ?_, fun hle => absurd ht (by omega), fun _ => ⟨rfl, by simp⟩⟩
    · intro hc
      have := hsend hc
      simp [this]
    · intro hc a t
      rw [hquiet hc]
      rcases hbf with rfl | rfl <;> simp
  · rw [if_neg ht]
    exact ⟨a1, ha1, hn, hsend, fun hc a t => by rw [hquiet hc]; simp, fun _ => hs,
      fun hgt => absurd hgt ht⟩

/-- C24 refuted as stated: `connectingEngine` last sent a connect text at 0 ms; in
the tick at 7000 ms that receives "connectOK 42 17 99" the state is `CS_CONNECTED`
when the switch is reached, so no text is sent and the attempt counter stays 0,
although more than 5000 ms have passed. -/
theorem C24_counterexample :
    connectingEngine.m_connectionState = CS_CONNECTING ∧
    sub32 connectOKTick.now connectingEngine.m_lastConnect > 5000 ∧
    (connectingEngine.RunFrame connectOKTick).engine.map (fun e => e.m_connectAttempts)
      = some 0 ∧
    (connectingEngine.RunFrame connectOKTick).engine.map (fun e => e.events) =
      some [Event.OnStateChanged CS_CONNECTING CS_IDLE, Event.OnConnectOKReceived sampleServer,
        Event.NetChannelReset sampleServer] ∧
    (connectingEngine.RunFrame connectOKTick).state = some CS_CONNECTED := by
  decide

/-- C24 amended: in a tick without datagrams, an engine in `CS_CONNECTING` sends the
text "connect token=<token>&guid=<guid>" (the token as a C string, the text cut to
32763 bytes) to the current server and counts one more attempt exactly when
`(now - m_lastConnect) mod 2^32 > 5000`; it stays in `CS_CONNECTING` when the counter
is at most 3 after that, and ends in `CS_IDLE` with `OnConnectionTimedOut` emitted
when the counter exceeds 3. -/
theorem C24_connecting_tick (e : NetLibrary) (i : FrameInput)
    (hs : e.m_connectionState = CS_CONNECTING) (h4 : i.inet4 = []) (h6 : i.inet6 = []) :
    ∃ e1 added, e.RunFrame i = Outcome.ok e1 ∧ e1.events = e.events ++ added ∧
      e1.m_connectAttempts =
        (if sub32 i.now e.m_lastConnect > 5000 then e.m_connectAttempts + 1
          else e.m_connectAttempts) ∧
      (sub32 i.now e.m_lastConnect > 5000 →
        Event.SendOutOfBand e.m_currentServer (connectText e i.guid) ∈ added) ∧
      (¬ sub32 i.now e.m_lastConnect > 5000 → ∀ a t, Event.SendOutOfBand a t ∉ added) ∧
      (e1.m_connectAttempts ≤ 3 → e1.m_connectionState = CS_CONNECTING) ∧
      (e1.m_connectAttempts > 3 →
        e1.m_connectionState = CS_IDLE ∧ Event.OnConnectionTimedOut ∈ added) ∧
      ((∀ c ∈ e.m_token, c ≠ 0) →
        (cstr "connect token=" ++ e.m_token ++ cstr "&guid=" ++ decimal i.guid).length ≤ 32763 →
        connectText e i.guid = cstr "connect token=" ++ e.m_token ++ cstr "&guid=" ++
          decimal i.guid) := by
  have ha : (announceState e).m_connectionState = CS_CONNECTING := by
    rw [(announceState_session e).1, hs]
  obtain ⟨q1, q2, q3⟩ := announceState_handshake e
  obtain ⟨added, p1, p2, p3, p4, p5, p6⟩ :=
    tickConnecting_spec (announceState e) i.now i.hook i.guid ha
  have hct : connectText (announceState e) i.guid = connectText e i.guid := by
    unfold connectText
    rw [q2]
  rw [(announceState_session e).2.2.1, (announceState_session e).2.2.2] at p2
  rw [(announceState_session e).2.2.2, q1, hct] at p3
  rw [(announceState_session e).2.2.2] at p4
  have hrun : e.RunFrame i = Outcome.ok (tickConnecting (announceState e) i.now i.hook i.guid) := by
    rw [RunFrame_quiet e i h4 h6, ProcessSend_of_inactive _ _ _ (by rw [ha]; decide),
      tickState_connecting _ _ _ _ ha]
  have htext : (∀ c ∈ e.m_token, c ≠ 0) →
      (cstr "connect token=" ++ e.m_token ++ cstr "&guid=" ++ decimal i.guid).length ≤ 32763 →
      connectText e i.guid = cstr "connect token=" ++ e.m_token ++ cstr "&guid=" ++
        decimal i.guid := by
    intro hz hl
    have hc : cstrAt e.m_token 0 = e.m_token := by
      unfold cstrAt
      rw [List.drop_zero, List.takeWhile_eq_self_iff]
      intro c hc
      simpa using hz c hc
    unfold connectText
    rw [hc, List.take_of_length_le hl]
  rcases q3 with q3 | q3
  · refine ⟨_, added, hrun, by rw [p1, q3], p2, p3, p4, p5, p6, htext⟩
  · refine ⟨_, [Event.OnStateChanged e.m_connectionState e.m_lastConnectionState] ++ added,
      hrun, by rw [p1, q3, List.append_assoc], p2, fun hc => ?_, fun hc a t => ?_, p5,
      fun hgt => ⟨(p6 hgt).1, ?_⟩, htext⟩
    · exact List.mem_append_right _ (p3 hc)
    · have := p4 hc a t
      simp [this]
    · exact List.mem_append_right _ (p6 hgt).2

/-- C24 amended, on `retryingEngine`: the tick at 7000 ms sends the fourth text and
times the connection out; the tick at 6000 ms sends nothing and keeps
`CS_CONNECTING`. -/
theorem C24_connecting_tick_witness :
    (∃ e1 added, retryingEngine.RunFrame (quietTick 7000) = Outcome.ok e1 ∧
      e1.events = retryingEngine.events ++ added ∧
      e1.m_connectAttempts =
        (if sub32 (quietTick 7000).now retryingEngine.m_lastConnect > 5000 then
          retryingEngine.m_connectAttempts + 1 else retryingEngine.m_connectAttempts) ∧
      (sub32 (quietTick 7000).now retryingEngine.m_lastConnect > 5000 →
        Event.SendOutOfBand retryingEngine.m_currentServer
          (connectText retryingEngine (quietTick 7000).guid) ∈ added) ∧
      (¬ sub32 (quietTick 7000).now retryingEngine.m_lastConnect > 5000 →
        ∀ a t, Event.SendOutOfBand a t ∉ added) ∧
      (e1.m_connectAttempts ≤ 3 → e1.m_connectionState = CS_CONNECTING) ∧
      (e1.m_connectAttempts > 3 →
        e1.m_connectionState = CS_IDLE ∧ Event.OnConnectionTimedOut ∈ added) ∧
      ((∀ c ∈ retryingEngine.m_token, c ≠ 0) →
        (cstr "connect token=" ++ retryingEngine.m_token ++ cstr "&guid=" ++
          decimal (quietTick 7000).guid).length ≤ 32763 →
        connectText retryingEngine (quietTick 7000).guid =
          cstr "connect token=" ++ retryingEngine.m_token ++ cstr "&guid=" ++
            decimal (quietTick 7000).guid)) ∧
    sub32 (quietTick 7000).now retryingEngine.m_lastConnect > 5000 ∧
    ¬ sub32 (quietTick 6000).now retryingEngine.m_lastConnect > 5000 ∧
    connectText retryingEngine (quietTick 7000).guid = cstr "connect token=tok&guid=0" ∧
    (retryingEngine.RunFrame (quietTick 7000)).state = some CS_IDLE ∧
    (retryingEngine.RunFrame (quietTick 6000)).state = some CS_CONNECTING :=
  ⟨C24_connecting_tick retryingEngine (quietTick 7000) rfl rfl rfl,
    by decide, by decide, by decide, by decide, by decide⟩

end NetLib
